import Mathlib

/-!
A shallow embedding of the Electron-Cash transaction / CashToken / PSBT
codec stack (src/electroncash/token.py, bitcoin_types.py, psbt.py), with
theorems settling the specification claims about it.

Byte streams are modelled as lists of naturals; reading consumes from the
front of the list, so a reader has type `Bytes → Except Err (α × Bytes)`
where the second component is the unconsumed tail (the code's cursor
position translates to the tail that starts at the cursor).  Writers
produce the byte list they append to the stream.

The primitive stream codec (`BCDataStream` from serialize.py) and the
cryptographic helpers (`bitcoin.hash_160`, `bitcoin.ser_to_point`) are not
part of the sources; their models are marked "Modelled from the spec" in
their doc comments.
-/

deriving instance DecidableEq for Except

namespace EC

/-- Byte strings, modelled as lists of naturals.  The code's `bytes`
values always hold elements below 256; no definition below depends on
that bound, and theorems quantified over all lists in particular cover
the genuine byte strings. -/
abbrev Bytes := List Nat

/-- The error hierarchy of the code: `SerializationError` (serialize.py),
its subclass `PSBTSerializationError`, and that one's subclass
`PSBTMagicBytesError` (psbt.py). -/
inductive Err where
  | serialization (msg : String)
  | psbt (msg : String)
  | psbtMagic (msg : String)
deriving Repr, DecidableEq

/-- An error is a PSBT magic-bytes error (`PSBTMagicBytesError`). -/
def Err.isMagic : Err → Bool
  | .psbtMagic _ => true
  | _ => false

/-- Little-endian value of a byte list. -/
def leNat : Bytes → Nat
  | [] => 0
  | b :: rest => b + 256 * leNat rest

/-- Little-endian encoding of `v % 2^(8*n)` on exactly `n` bytes. -/
def natLE : Nat → Nat → Bytes
  | 0, _ => []
  | n + 1, v => v % 256 :: natLE n (v / 256)

/-- Two's-complement reinterpretation of a `w`-bit unsigned value. -/
def toSigned (w : Nat) (v : Nat) : Int :=
  if v < 2 ^ (w - 1) then (v : Int) else (v : Int) - 2 ^ w

theorem natLE_length (n v : Nat) : (natLE n v).length = n := by
  induction n generalizing v with
  | zero => rfl
  | succ n ih => simp [natLE, ih]

theorem leNat_natLE (n v : Nat) : leNat (natLE n v) = v % 2 ^ (8 * n) := by
  induction n generalizing v with
  | zero => simp [natLE, leNat, Nat.mod_one]
  | succ n ih =>
      simp only [natLE, leNat, ih]
      have hpow : 2 ^ (8 * (n + 1)) = 256 * 2 ^ (8 * n) := by
        rw [show 8 * (n + 1) = 8 + 8 * n by ring, pow_add]; norm_num
      rw [hpow, Nat.mod_mul]

theorem leNat_natLE_of_lt {n v : Nat} (h : v < 2 ^ (8 * n)) :
    leNat (natLE n v) = v := by
  rw [leNat_natLE, Nat.mod_eq_of_lt h]

/-- Modelled from the spec: `BCDataStream.read_bytes` with an explicit
length (serialize.py is not under src/).  Reads up to `n` bytes; in
strict mode a shortfall is a serialization error, otherwise the available
prefix is returned. -/
def read_bytes_len (n : Nat) (strict : Bool) (s : Bytes) :
    Except Err (Bytes × Bytes) :=
  if strict ∧ s.length < n then
    .error (.serialization "read_bytes: not enough data")
  else .ok (s.take n, s.drop n)

/-- Modelled from the spec: `BCDataStream.read_compact_size`
(serialize.py is not under src/).  Classic variable-length encoding;
strict mode rejects non-minimal encodings; reading past the end is a
serialization error. -/
def read_compact_size (strict : Bool) (s : Bytes) : Except Err (Nat × Bytes) :=
  match s with
  | [] => .error (.serialization "read_compact_size: not enough data")
  | b :: rest =>
    if b < 253 then .ok (b, rest)
    else if b = 253 then
      if rest.length < 2 then .error (.serialization "read_compact_size: not enough data")
      else if strict ∧ leNat (rest.take 2) < 253 then
        .error (.serialization "read_compact_size: non-minimal")
      else .ok (leNat (rest.take 2), rest.drop 2)
    else if b = 254 then
      if rest.length < 4 then .error (.serialization "read_compact_size: not enough data")
      else if strict ∧ leNat (rest.take 4) < 2 ^ 16 then
        .error (.serialization "read_compact_size: non-minimal")
      else .ok (leNat (rest.take 4), rest.drop 4)
    else
      if rest.length < 8 then .error (.serialization "read_compact_size: not enough data")
      else if strict ∧ leNat (rest.take 8) < 2 ^ 32 then
        .error (.serialization "read_compact_size: non-minimal")
      else .ok (leNat (rest.take 8), rest.drop 8)

/-- Modelled from the spec: `BCDataStream.read_bytes` with no explicit
length (serialize.py is not under src/): a byte vector, i.e. a
compact-size length followed by that many raw bytes. -/
def read_bytes_var (strict : Bool) (s : Bytes) : Except Err (Bytes × Bytes) := do
  let (n, s1) ← read_compact_size strict s
  if strict ∧ s1.length < n then
    .error (.serialization "read_bytes: not enough data")
  else .ok (s1.take n, s1.drop n)

/-- Modelled from the spec: `BCDataStream.read_uint32` (serialize.py is
not under src/), little-endian. -/
def read_uint32 (s : Bytes) : Except Err (Nat × Bytes) :=
  if s.length < 4 then .error (.serialization "read_uint32: not enough data")
  else .ok (leNat (s.take 4), s.drop 4)

/-- Modelled from the spec: `BCDataStream.read_int32` (serialize.py is
not under src/), little-endian two's complement. -/
def read_int32 (s : Bytes) : Except Err (Int × Bytes) :=
  if s.length < 4 then .error (.serialization "read_int32: not enough data")
  else .ok (toSigned 32 (leNat (s.take 4)), s.drop 4)

/-- Modelled from the spec: `BCDataStream.read_int64` (serialize.py is
not under src/), little-endian two's complement. -/
def read_int64 (s : Bytes) : Except Err (Int × Bytes) :=
  if s.length < 8 then .error (.serialization "read_int64: not enough data")
  else .ok (toSigned 64 (leNat (s.take 8)), s.drop 8)

/-- Modelled from the spec: `BCDataStream.write_compact_size`
(serialize.py is not under src/), minimal encoding. -/
def write_compact_size (v : Nat) : Bytes :=
  if v < 253 then [v]
  else if v < 2 ^ 16 then 253 :: natLE 2 v
  else if v < 2 ^ 32 then 254 :: natLE 4 v
  else 255 :: natLE 8 v

/-- Modelled from the spec: `BCDataStream.write_string` (serialize.py is
not under src/): a byte vector, compact-size length then the raw bytes. -/
def write_string (b : Bytes) : Bytes := write_compact_size b.length ++ b

/-- Modelled from the spec: `BCDataStream.write_uint32` (serialize.py is
not under src/). -/
def write_uint32 (v : Nat) : Bytes := natLE 4 v

/-- Modelled from the spec: `BCDataStream.write_int32` (serialize.py is
not under src/), two's complement little-endian. -/
def write_int32 (v : Int) : Bytes := natLE 4 (v % 2 ^ 32).toNat

/-- Modelled from the spec: `BCDataStream.write_int64` (serialize.py is
not under src/), two's complement little-endian. -/
def write_int64 (v : Int) : Bytes := natLE 8 (v % 2 ^ 64).toNat

/-- Modelled from the spec: `BCDataStream.can_read_more` (serialize.py is
not under src/): true while unconsumed bytes remain. -/
def can_read_more (s : Bytes) : Bool := !s.isEmpty

theorem read_bytes_len_exact (n : Nat) (strict : Bool) (b rest : Bytes)
    (hb : b.length = n) :
    read_bytes_len n strict (b ++ rest) = .ok (b, rest) := by
  subst hb
  have hlen : (b ++ rest).length ≥ b.length := by simp
  have h1 : ¬ (strict ∧ (b ++ rest).length < b.length) := by
    rintro ⟨-, h⟩; omega
  simp [read_bytes_len, h1, List.take_left, List.drop_left]

theorem take_append_of_length (b rest : Bytes) {n : Nat} (hb : b.length = n) :
    (b ++ rest).take n = b := by
  subst hb; exact List.take_left _ _

theorem drop_append_of_length (b rest : Bytes) {n : Nat} (hb : b.length = n) :
    (b ++ rest).drop n = rest := by
  subst hb; exact List.drop_left _ _

theorem read_compact_size_write (strict : Bool) (v : Nat) (rest : Bytes)
    (hv : v < 2 ^ 64) :
    read_compact_size strict (write_compact_size v ++ rest) = .ok (v, rest) := by
  unfold write_compact_size
  by_cases h1 : v < 253
  · simp [read_compact_size, h1]
  · by_cases h2 : v < 2 ^ 16
    · have hval : leNat (natLE 2 v) = v :=
        leNat_natLE_of_lt (by norm_num at h2 ⊢; omega)
      have hlen : ¬ ((natLE 2 v ++ rest).length < 2) := by simp [natLE_length]
      simp only [h1, if_false, h2, if_true, List.cons_append]
      simp [read_compact_size, hval, hlen, h1, h2, natLE_length,
        drop_append_of_length _ _ (natLE_length 2 v)]
    · by_cases h3 : v < 2 ^ 32
      · have hval : leNat (natLE 4 v) = v :=
          leNat_natLE_of_lt (by norm_num at h3 ⊢; omega)
        have hlen : ¬ ((natLE 4 v ++ rest).length < 4) := by simp [natLE_length]
        simp only [h1, if_false, h2, if_false, h3, if_true, List.cons_append]
        simp [read_compact_size, hval, hlen, h1, h2, h3, natLE_length,
          drop_append_of_length _ _ (natLE_length 4 v)]
        intro
        norm_num at h2
        omega
      · have hval : leNat (natLE 8 v) = v :=
          leNat_natLE_of_lt (by norm_num at hv ⊢; omega)
        have hlen : ¬ ((natLE 8 v ++ rest).length < 8) := by simp [natLE_length]
        simp only [h1, if_false, h2, if_false, h3, if_false, List.cons_append]
        simp [read_compact_size, hval, hlen, h1, h2, h3, natLE_length,
          drop_append_of_length _ _ (natLE_length 8 v)]
        intro
        norm_num at h3
        omega

theorem bind_ok_eq {α β : Type} (a : α) (f : α → Except Err β) :
    (Except.ok a >>= f) = f a := rfl

theorem bind_error_eq {α β : Type} (e : Err) (f : α → Except Err β) :
    ((Except.error e : Except Err α) >>= f) = Except.error e := rfl

theorem read_bytes_var_write (strict : Bool) (b rest : Bytes)
    (hb : b.length < 2 ^ 64) :
    read_bytes_var strict (write_string b ++ rest) = .ok (b, rest) := by
  unfold read_bytes_var write_string
  rw [List.append_assoc, read_compact_size_write strict b.length (b ++ rest) hb]
  have h1 : ¬ (strict ∧ (b ++ rest).length < b.length) := by
    rintro ⟨-, h⟩
    simp only [List.length_append] at h
    omega
  simp [bind_ok_eq, h1, List.take_left, List.drop_left]

theorem read_uint32_write (v : Nat) (rest : Bytes) (hv : v < 2 ^ 32) :
    read_uint32 (write_uint32 v ++ rest) = .ok (v, rest) := by
  unfold read_uint32 write_uint32
  have htake : (natLE 4 v ++ rest).take 4 = natLE 4 v := by
    rw [show (4 : Nat) = (natLE 4 v).length from (natLE_length 4 v).symm]
    exact List.take_left _ _
  have hdrop : (natLE 4 v ++ rest).drop 4 = rest := by
    rw [show (4 : Nat) = (natLE 4 v).length from (natLE_length 4 v).symm]
    exact List.drop_left _ _
  have hlen : ¬ (natLE 4 v ++ rest).length < 4 := by simp [natLE_length]
  rw [if_neg hlen, htake, hdrop, leNat_natLE_of_lt (by norm_num at hv ⊢; omega)]

theorem read_int32_write (v : Int) (rest : Bytes)
    (h1 : -(2 ^ 31) ≤ v) (h2 : v < 2 ^ 31) :
    read_int32 (write_int32 v ++ rest) = .ok (v, rest) := by
  unfold read_int32 write_int32
  have hn : (v % 2 ^ 32).toNat < 2 ^ (8 * 4) := by omega
  have hlen : ¬ ((natLE 4 (v % 2 ^ 32).toNat ++ rest).length < 4) := by
    simp [natLE_length]
  rw [if_neg hlen, take_append_of_length _ _ (natLE_length 4 _),
    drop_append_of_length _ _ (natLE_length 4 _), leNat_natLE_of_lt hn]
  have hts : toSigned 32 (v % 2 ^ 32).toNat = v := by
    unfold toSigned
    split_ifs <;> omega
  rw [hts]

theorem read_int64_write (v : Int) (rest : Bytes)
    (h1 : -(2 ^ 63) ≤ v) (h2 : v < 2 ^ 63) :
    read_int64 (write_int64 v ++ rest) = .ok (v, rest) := by
  unfold read_int64 write_int64
  have hn : (v % 2 ^ 64).toNat < 2 ^ (8 * 8) := by omega
  have hlen : ¬ ((natLE 8 (v % 2 ^ 64).toNat ++ rest).length < 8) := by
    simp [natLE_length]
  rw [if_neg hlen, take_append_of_length _ _ (natLE_length 8 _),
    drop_append_of_length _ _ (natLE_length 8 _), leNat_natLE_of_lt hn]
  have hts : toSigned 64 (v % 2 ^ 64).toNat = v := by
    unfold toSigned
    split_ifs <;> omega
  rw [hts]

/-- A model byte string is a genuine byte string: every element is below
256. -/
def IsBytes (s : Bytes) : Prop := ∀ b ∈ s, b < 256

theorem IsBytes.take {s : Bytes} (h : IsBytes s) (n : Nat) :
    IsBytes (s.take n) := fun b hb => h b (List.mem_of_mem_take hb)

theorem IsBytes.drop {s : Bytes} (h : IsBytes s) (n : Nat) :
    IsBytes (s.drop n) := fun b hb => h b (List.mem_of_mem_drop hb)

theorem IsBytes.append {a b : Bytes} (ha : IsBytes a) (hb : IsBytes b) :
    IsBytes (a ++ b) := by
  intro x hx
  rcases List.mem_append.mp hx with h | h
  · exact ha x h
  · exact hb x h

theorem IsBytes.append_left {a b : Bytes} (h : IsBytes (a ++ b)) :
    IsBytes a := fun x hx => h x (List.mem_append.mpr (Or.inl hx))

theorem IsBytes.append_right {a b : Bytes} (h : IsBytes (a ++ b)) :
    IsBytes b := fun x hx => h x (List.mem_append.mpr (Or.inr hx))

theorem IsBytes.leNat_lt {s : Bytes} (h : IsBytes s) :
    leNat s < 2 ^ (8 * s.length) := by
  induction s with
  | nil => simp [leNat]
  | cons b rest ih =>
      have hb : b < 256 := h b (List.mem_cons_self _ _)
      have hr : leNat rest < 2 ^ (8 * rest.length) :=
        ih (fun x hx => h x (List.mem_cons_of_mem _ hx))
      simp only [leNat, List.length_cons]
      have hpow : 2 ^ (8 * (rest.length + 1)) = 256 * 2 ^ (8 * rest.length) := by
        rw [show 8 * (rest.length + 1) = 8 + 8 * rest.length by ring, pow_add]
        norm_num
      rw [hpow]
      omega

/-! ## Token data (src/electroncash/token.py) -/

namespace Structure

/-- `token.Structure.HasAmount`. -/
def HasAmount : Nat := 0x10

/-- `token.Structure.HasNFT`. -/
def HasNFT : Nat := 0x20

/-- `token.Structure.HasCommitmentLength`. -/
def HasCommitmentLength : Nat := 0x40

end Structure

namespace Capability

/-- `token.Capability.NoCapability`. -/
def NoCapability : Nat := 0x00

/-- `token.Capability.Mutable`. -/
def Mutable : Nat := 0x01

/-- `token.Capability.Minting`. -/
def Minting : Nat := 0x02

end Capability

/-- `token.OutputData`: category id (32 bytes), bitfield byte, amount and
commitment.  The amount is a natural number: it is only ever assigned
from `read_compact_size`, which cannot produce a negative value, so the
source's dead `self.amount < 0` check has no translation. -/
structure OutputData where
  id : Bytes
  bitfield : Nat
  amount : Nat
  commitment : Bytes
deriving Repr, DecidableEq

namespace OutputData

/-- `OutputData.get_capability`. -/
def get_capability (t : OutputData) : Nat := t.bitfield &&& 0x0f

/-- `OutputData.has_commitment_length`. -/
def has_commitment_length (t : OutputData) : Bool :=
  t.bitfield &&& Structure.HasCommitmentLength ≠ 0

/-- `OutputData.has_amount`. -/
def has_amount (t : OutputData) : Bool := t.bitfield &&& Structure.HasAmount ≠ 0

/-- `OutputData.has_nft`. -/
def has_nft (t : OutputData) : Bool := t.bitfield &&& Structure.HasNFT ≠ 0

/-- `OutputData.is_minting_nft`. -/
def is_minting_nft (t : OutputData) : Bool :=
  t.has_nft && t.get_capability == Capability.Minting

/-- `OutputData.is_mutable_nft`. -/
def is_mutable_nft (t : OutputData) : Bool :=
  t.has_nft && t.get_capability == Capability.Mutable

/-- `OutputData.is_immutable_nft`. -/
def is_immutable_nft (t : OutputData) : Bool :=
  t.has_nft && t.get_capability == Capability.NoCapability

/-- `OutputData.is_valid_bitfield`. -/
def is_valid_bitfield (t : OutputData) : Bool :=
  if 0x80 ≤ t.bitfield &&& 0xf0 ∨ t.bitfield &&& 0xf0 = 0 then false
  else if 2 < t.bitfield &&& 0x0f then false
  else if ¬ t.has_nft ∧ ¬ t.has_amount then false
  else if ¬ t.has_nft ∧ t.bitfield &&& 0x0f ≠ 0 then false
  else if ¬ t.has_nft ∧ t.has_commitment_length then false
  else true

/-- `OutputData.deserialize` (reading from a stream; the returned tail is
the unconsumed remainder).  The deserialized fields replace the
receiver's, so the receiver is not a parameter. -/
def deserialize (s : Bytes) : Except Err (OutputData × Bytes) := do
  let (idBytes, s) ← read_bytes_len 32 true s
  let (bfBytes, s) ← read_bytes_len 1 true s
  let bf := bfBytes.headI
  let (commitment, s) ←
    if (OutputData.mk idBytes bf 0 []).has_commitment_length then
      read_bytes_var true s
    else pure ([], s)
  let (amount, s) ←
    if (OutputData.mk idBytes bf 0 []).has_amount then
      read_compact_size true s
    else pure (0, s)
  let t : OutputData := ⟨idBytes, bf, amount, commitment⟩
  if ¬ t.is_valid_bitfield ∨ (t.has_amount ∧ t.amount = 0) ∨ 2 ^ 63 - 1 < t.amount
      ∨ (t.has_commitment_length ∧ t.commitment = []) ∨ (t.amount = 0 ∧ ¬ t.has_nft) then
    .error (.serialization "Unable to parse token data or token data is invalid")
  else
    .ok (t, s)

/-- `OutputData.serialize`. -/
def serialize (t : OutputData) : Bytes :=
  t.id ++ [t.bitfield]
    ++ (if t.has_commitment_length then
          write_compact_size t.commitment.length ++ t.commitment
        else [])
    ++ (if t.has_amount then write_compact_size t.amount else [])

end OutputData

/-- Modelled from the spec: `token.PREFIX_BYTE` is built from
`OpCodes.SPECIAL_TOKEN_PREFIX`, and bitcoin.py is not under src/; the
spec fixes it as a single reserved opcode value acting as the token
marker byte (0xef in the reference client). -/
def PREFIX_BYTE : Nat := 0xef

/-- `token.wrap_spk`. -/
def wrap_spk : Option OutputData → Bytes → Bytes
  | none, script_pub_key => script_pub_key
  | some t, script_pub_key => PREFIX_BYTE :: (t.serialize ++ script_pub_key)

/-- `token.unwrap_spk`.  The source reads the prefix byte from a stream
over the whole input and slices the leftover at the final cursor; with
front-consuming readers the leftover is the parser's unconsumed tail.
A failed token-data parse is swallowed: the whole input is returned as
the script. -/
def unwrap_spk (wrapped_spk : Bytes) : Option OutputData × Bytes :=
  match wrapped_spk with
  | [] => (none, wrapped_spk)
  | b :: rest =>
    if b ≠ PREFIX_BYTE then (none, wrapped_spk)
    else
      match OutputData.deserialize rest with
      | .error _ => (none, wrapped_spk)
      | .ok (t, leftover) => (some t, leftover)

/-! ## Token codec lemmas -/

theorem and240_mod16 (n : Nat) : (n &&& 240) % 16 = 0 := by
  have h1 : (n &&& 240) &&& 15 = n &&& (240 &&& 15) := Nat.and_assoc n 240 15
  have h2 : (240 : Nat) &&& 15 = 0 := by decide
  have h3 : (n &&& 240) &&& 15 = (n &&& 240) % 16 := by
    have := Nat.and_pow_two_sub_one_eq_mod (n &&& 240) 4
    norm_num at this
    exact this
  simp only [h2, Nat.and_zero] at h1
  omega

theorem and240_le (n : Nat) : n &&& 240 ≤ 240 := Nat.and_le_right

/-- The in-memory invariants of a token-data value under which its
serialization parses back to it: the invariants `OutputData.deserialize`
itself establishes (32-byte id, valid bitfield, amount and commitment
present exactly as the bitfield announces, amount within the consensus
bound).  Used by the amended claim C3. -/
def OutputData.SerValid (t : OutputData) : Prop :=
  t.id.length = 32 ∧ t.is_valid_bitfield = true
  ∧ (t.has_amount = true → t.amount ≠ 0)
  ∧ (t.has_amount = false → t.amount = 0)
  ∧ t.amount ≤ 2 ^ 63 - 1
  ∧ (t.has_commitment_length = true → t.commitment ≠ [] ∧ t.commitment.length < 2 ^ 64)
  ∧ (t.has_commitment_length = false → t.commitment = [])

theorem OutputData.is_valid_bitfield_nft_or_amount {t : OutputData}
    (h : t.is_valid_bitfield = true) : t.has_nft = true ∨ t.has_amount = true := by
  unfold is_valid_bitfield at h
  by_cases hn : t.has_nft = true
  · exact Or.inl hn
  · by_cases ha : t.has_amount = true
    · exact Or.inr ha
    · split_ifs at h
      simp_all

theorem pure_eq {α : Type} (a : α) : (pure a : Except Err α) = .ok a := rfl

theorem token_output_roundtrip (t : OutputData) (rest : Bytes)
    (h : t.SerValid) :
    OutputData.deserialize (t.serialize ++ rest) = .ok (t, rest) := by
  obtain ⟨hid, hbit, ham1, ham0, hamle, hcl1, hcl0⟩ := h
  have hmkcl : (OutputData.mk t.id t.bitfield 0 []).has_commitment_length
      = t.has_commitment_length := rfl
  have hmka : (OutputData.mk t.id t.bitfield 0 []).has_amount = t.has_amount := rfl
  unfold OutputData.serialize OutputData.deserialize
  simp only [List.append_assoc]
  rw [read_bytes_len_exact 32 true t.id _ hid, bind_ok_eq]
  rw [read_bytes_len_exact 1 true [t.bitfield] _ rfl, bind_ok_eq]
  simp only [List.headI, hmkcl, hmka]
  by_cases hcl : t.has_commitment_length = true
  · obtain ⟨hcne, hclen⟩ := hcl1 hcl
    simp only [hcl, eq_self_iff_true, if_true]
    rw [show write_compact_size t.commitment.length ++ t.commitment
        = write_string t.commitment from rfl]
    rw [read_bytes_var_write true t.commitment _ hclen, bind_ok_eq]
    by_cases ha : t.has_amount = true
    · simp only [ha, eq_self_iff_true, if_true]
      rw [read_compact_size_write true t.amount rest (by omega), bind_ok_eq]
      rw [if_neg ?hc1, show OutputData.mk t.id t.bitfield t.amount t.commitment = t from rfl]
      case hc1 =>
        push_neg
        have hmv : (OutputData.mk t.id t.bitfield t.amount t.commitment).is_valid_bitfield
            = t.is_valid_bitfield := rfl
        have hma : (OutputData.mk t.id t.bitfield t.amount t.commitment).has_amount
            = t.has_amount := rfl
        have hmc : (OutputData.mk t.id t.bitfield t.amount t.commitment).has_commitment_length
            = t.has_commitment_length := rfl
        refine ⟨by simp [hmv, hbit], fun _ => ham1 ha, by omega, fun _ => hcne,
          fun h0 => absurd h0 (ham1 ha)⟩
    · have ha0 : t.has_amount = false := by simpa using ha
      have hz : t.amount = 0 := ham0 ha0
      simp only [ha0, Bool.false_eq_true, if_false]
      rw [pure_eq, bind_ok_eq]
      rw [if_neg ?hc2, show OutputData.mk t.id t.bitfield 0 t.commitment = t from by
        rw [← hz]]
      case _ => simp
      case hc2 =>
        push_neg
        have hnft : t.has_nft = true := by
          rcases OutputData.is_valid_bitfield_nft_or_amount hbit with hn | hA
          · exact hn
          · rw [ha0] at hA
            exact absurd hA (by simp)
        have hmv : (OutputData.mk t.id t.bitfield 0 t.commitment).is_valid_bitfield
            = t.is_valid_bitfield := rfl
        have hma : (OutputData.mk t.id t.bitfield 0 t.commitment).has_amount
            = t.has_amount := rfl
        have hmn : (OutputData.mk t.id t.bitfield 0 t.commitment).has_nft
            = t.has_nft := rfl
        refine ⟨by simp [hmv, hbit], fun hA => ?_, by omega, fun _ => hcne,
          fun _ => by simp [hmn, hnft]⟩
        rw [hma, ha0] at hA
        exact absurd hA (by simp)
  · have hcl' : t.has_commitment_length = false := by simpa using hcl
    have hce : t.commitment = [] := hcl0 hcl'
    simp only [hcl', Bool.false_eq_true, if_false, List.nil_append]
    rw [pure_eq, bind_ok_eq]
    by_cases ha : t.has_amount = true
    · simp only [ha, eq_self_iff_true, if_true]
      rw [read_compact_size_write true t.amount rest (by omega), bind_ok_eq]
      rw [if_neg ?hc3, show OutputData.mk t.id t.bitfield t.amount [] = t from by
        rw [← hce]]
      case hc3 =>
        push_neg
        have hmv : (OutputData.mk t.id t.bitfield t.amount []).is_valid_bitfield
            = t.is_valid_bitfield := rfl
        have hmc : (OutputData.mk t.id t.bitfield t.amount []).has_commitment_length
            = t.has_commitment_length := rfl
        refine ⟨by simp [hmv, hbit], fun _ => ham1 ha, by omega, fun hC => ?_,
          fun h0 => absurd h0 (ham1 ha)⟩
        rw [hmc, hcl'] at hC
        exact absurd hC (by simp)
    · have ha0 : t.has_amount = false := by simpa using ha
      have hz : t.amount = 0 := ham0 ha0
      simp only [ha0, Bool.false_eq_true, if_false, List.nil_append]
      rw [pure_eq, bind_ok_eq]
      rw [if_neg ?hc4, show OutputData.mk t.id t.bitfield 0 [] = t from by
        rw [← hz, ← hce]]
      case hc4 =>
        push_neg
        have hnft : t.has_nft = true := by
          rcases OutputData.is_valid_bitfield_nft_or_amount hbit with hn | hA
          · exact hn
          · rw [ha0] at hA
            exact absurd hA (by simp)
        have hmv : (OutputData.mk t.id t.bitfield 0 []).is_valid_bitfield
            = t.is_valid_bitfield := rfl
        have hma : (OutputData.mk t.id t.bitfield 0 []).has_amount = t.has_amount := rfl
        have hmc : (OutputData.mk t.id t.bitfield 0 []).has_commitment_length
            = t.has_commitment_length := rfl
        have hmn : (OutputData.mk t.id t.bitfield 0 []).has_nft = t.has_nft := rfl
        refine ⟨by simp [hmv, hbit], fun hA => ?_, by omega, fun hC => ?_,
          fun _ => by simp [hmn, hnft]⟩
        · rw [hma, ha0] at hA
          exact absurd hA (by simp)
        · rw [hmc, hcl'] at hC
          exact absurd hC (by simp)

/-! ## Claims about the token codec -/

/-- Claim C9's invariants, spelled from the spec's words: top nibble one
of {0x10,...,0x70}; capability nibble at most 2; without the NFT flag the
amount flag must be set, the capability must be 0 and the
commitment-length flag unset; a set amount flag demands a nonzero decoded
amount, and the amount is at most 2^63-1; a set commitment-length flag
demands a non-empty commitment; data with neither a nonzero amount nor
the NFT flag is invalid. -/
def TokenSpecValid (t : OutputData) : Prop :=
  (t.bitfield &&& 0xf0) ∈ ([0x10, 0x20, 0x30, 0x40, 0x50, 0x60, 0x70] : List Nat)
  ∧ t.bitfield &&& 0x0f ≤ 2
  ∧ (t.has_nft = false → t.has_amount = true ∧ t.get_capability = 0
      ∧ t.has_commitment_length = false)
  ∧ (t.has_amount = true → t.amount ≠ 0)
  ∧ t.amount ≤ 2 ^ 63 - 1
  ∧ (t.has_commitment_length = true → t.commitment ≠ [])
  ∧ (t.amount ≠ 0 ∨ t.has_nft = true)

theorem OutputData.is_valid_bitfield_iff (t : OutputData) :
    t.is_valid_bitfield = true ↔
      ((t.bitfield &&& 0xf0) ∈ ([0x10, 0x20, 0x30, 0x40, 0x50, 0x60, 0x70] : List Nat)
        ∧ t.bitfield &&& 0x0f ≤ 2
        ∧ (t.has_nft = false → t.has_amount = true ∧ t.get_capability = 0
            ∧ t.has_commitment_length = false)) := by
  have hm0 := and240_mod16 t.bitfield
  have hm1 := and240_le t.bitfield
  unfold is_valid_bitfield get_capability
  split_ifs with h1 h2 h3 h4 h5 <;>
    simp_all [List.mem_cons, Bool.not_eq_true] <;>
    omega

theorem token_spec_valid_iff (t : OutputData) :
    TokenSpecValid t ↔
      (t.is_valid_bitfield = true ∧ (t.has_amount = true → t.amount ≠ 0)
        ∧ t.amount ≤ 2 ^ 63 - 1 ∧ (t.has_commitment_length = true → t.commitment ≠ [])
        ∧ (t.amount ≠ 0 ∨ t.has_nft = true)) := by
  rw [TokenSpecValid, OutputData.is_valid_bitfield_iff]
  tauto

/-- The structural part of `OutputData.deserialize`: the reads driven by
the just-read bitfield, without the final validity check.  Used to state
claim C9's characterization of when `deserialize` succeeds. -/
def OutputData.read_raw (s : Bytes) : Except Err (OutputData × Bytes) := do
  let (idBytes, s) ← read_bytes_len 32 true s
  let (bfBytes, s) ← read_bytes_len 1 true s
  let bf := bfBytes.headI
  let (commitment, s) ←
    if (OutputData.mk idBytes bf 0 []).has_commitment_length then
      read_bytes_var true s
    else pure ([], s)
  let (amount, s) ←
    if (OutputData.mk idBytes bf 0 []).has_amount then
      read_compact_size true s
    else pure (0, s)
  .ok (⟨idBytes, bf, amount, commitment⟩, s)

instance tokenSpecValidDec (t : OutputData) : Decidable (TokenSpecValid t) := by
  unfold TokenSpecValid
  exact inferInstance

theorem token_validity_branch (t : OutputData) (r : Bytes) :
    (if ¬ t.is_valid_bitfield = true ∨ (t.has_amount = true ∧ t.amount = 0)
        ∨ 2 ^ 63 - 1 < t.amount
        ∨ (t.has_commitment_length = true ∧ t.commitment = [])
        ∨ (t.amount = 0 ∧ ¬ t.has_nft = true) then
       (Except.error (Err.serialization "Unable to parse token data or token data is invalid")
         : Except Err (OutputData × Bytes))
     else .ok (t, r))
    = (if TokenSpecValid t then .ok (t, r)
       else .error (.serialization "Unable to parse token data or token data is invalid")) := by
  by_cases h : TokenSpecValid t
  · rw [token_spec_valid_iff] at h
    obtain ⟨hv, ha, hle, hcl, hnz⟩ := h
    rw [if_neg, if_pos]
    · rw [token_spec_valid_iff]
      exact ⟨hv, ha, hle, hcl, hnz⟩
    · push_neg
      refine ⟨by simpa using hv, ha, by omega, hcl, ?_⟩
      intro h0
      rcases hnz with hnz | hnft
      · exact absurd h0 hnz
      · exact hnft
  · rw [if_neg h, if_pos]
    rw [token_spec_valid_iff] at h
    by_contra hc
    push_neg at hc
    obtain ⟨hv, ha, hle, hcl, hnz⟩ := hc
    exact h ⟨by simpa using hv, ha, by omega, hcl, by tauto⟩

theorem token_deserialize_characterization :
    (∀ s : Bytes, OutputData.deserialize s =
      match OutputData.read_raw s with
      | .ok (t, r) =>
          if TokenSpecValid t then .ok (t, r)
          else .error (.serialization "Unable to parse token data or token data is invalid")
      | .error e => .error e)
    ∧ (OutputData.deserialize (List.replicate 32 0 ++ [0x00])
        = .error (.serialization "Unable to parse token data or token data is invalid")) := by
  constructor
  · intro s
    unfold OutputData.deserialize OutputData.read_raw
    cases h1 : read_bytes_len 32 true s with
    | error e => simp [bind_error_eq]
    | ok p1 =>
      obtain ⟨idB, s1⟩ := p1
      dsimp only [bind_ok_eq]
      cases h2 : read_bytes_len 1 true s1 with
      | error e => simp [bind_error_eq]
      | ok p2 =>
        obtain ⟨bfB, s2⟩ := p2
        dsimp only [bind_ok_eq]
        by_cases hcl : (OutputData.mk idB bfB.headI 0 []).has_commitment_length = true
        · rw [if_pos hcl, if_pos hcl]
          cases h3 : read_bytes_var true s2 with
          | error e => simp [bind_error_eq]
          | ok p3 =>
            obtain ⟨cmt, s3⟩ := p3
            dsimp only [bind_ok_eq]
            by_cases ha : (OutputData.mk idB bfB.headI 0 []).has_amount = true
            · rw [if_pos ha, if_pos ha]
              cases h4 : read_compact_size true s3 with
              | error e => simp [bind_error_eq]
              | ok p4 =>
                obtain ⟨amt, s4⟩ := p4
                dsimp only [bind_ok_eq]
                exact token_validity_branch ⟨idB, bfB.headI, amt, cmt⟩ s4
            · rw [if_neg ha, if_neg ha]
              exact token_validity_branch ⟨idB, bfB.headI, 0, cmt⟩ s3
        · rw [if_neg hcl, if_neg hcl]
          dsimp only [pure_eq, bind_ok_eq]
          by_cases ha : (OutputData.mk idB bfB.headI 0 []).has_amount = true
          · rw [if_pos ha, if_pos ha]
            cases h4 : read_compact_size true s2 with
            | error e => simp [bind_error_eq]
            | ok p4 =>
              obtain ⟨amt, s4⟩ := p4
              dsimp only [bind_ok_eq]
              exact token_validity_branch ⟨idB, bfB.headI, amt, []⟩ s4
          · rw [if_neg ha, if_neg ha]
            exact token_validity_branch ⟨idB, bfB.headI, 0, []⟩ s2
  · decide

/-- C9: `OutputData.deserialize` succeeds exactly when the structural
reads succeed and all of the spec's token-data invariants hold of the
decoded value, and raises a `SerializationError` otherwise; in
particular a bitfield byte of 0x00 is rejected. -/
theorem c9_token_deserialize_validity :
    (∀ s : Bytes, OutputData.deserialize s =
      match OutputData.read_raw s with
      | .ok (t, r) =>
          if TokenSpecValid t then .ok (t, r)
          else .error (.serialization "Unable to parse token data or token data is invalid")
      | .error e => .error e)
    ∧ (OutputData.deserialize (List.replicate 32 0 ++ [0x00])
        = .error (.serialization "Unable to parse token data or token data is invalid")) :=
  token_deserialize_characterization

instance serValidDec (t : OutputData) : Decidable t.SerValid := by
  unfold OutputData.SerValid
  exact inferInstance

/-- C3 counterexample: for an `OutputData` value violating the token-data
invariants (bitfield 0x00), `unwrap_spk (wrap_spk (some t) script)` does
not return `(some t, script)`: the wrapped bytes fail to re-parse and the
whole wrapped script is returned as `(none, wrapped)`. -/
theorem c3_wrap_unwrap_counterexample :
    unwrap_spk (wrap_spk (some ⟨List.replicate 32 0, 0x00, 1, []⟩) []) ≠
      (some ⟨List.replicate 32 0, 0x00, 1, []⟩, ([] : Bytes)) := by decide

/-- C3 (amended): for every `(token_data, script)` where `token_data` is
null or an `OutputData` value satisfying the token-data invariants
(`OutputData.SerValid`: 32-byte id, valid bitfield, amount nonzero iff
the amount flag is set and at most 2^63-1, commitment non-empty iff the
commitment-length flag is set), and `script` does not begin with the
token marker byte, `unwrap_spk (wrap_spk token_data script)` returns
exactly `(token_data, script)`. -/
theorem c3_wrap_unwrap_inverse (td : Option OutputData) (spk : Bytes)
    (hvalid : ∀ t, td = some t → t.SerValid)
    (hspk : spk.head? ≠ some PREFIX_BYTE) :
    unwrap_spk (wrap_spk td spk) = (td, spk) := by
  cases td with
  | none =>
      cases spk with
      | nil => rfl
      | cons b r =>
          have hb : b ≠ PREFIX_BYTE := by
            intro h
            exact hspk (by simp [h])
          simp [wrap_spk, unwrap_spk, hb]
  | some t =>
      have hser := token_output_roundtrip t spk (hvalid t rfl)
      simp [wrap_spk, unwrap_spk, hser]

/-- C3 witness: the amended round-trip at a concrete valid token-data
value and a concrete non-marker script. -/
theorem c3_wrap_unwrap_witness :
    unwrap_spk (wrap_spk (some ⟨List.replicate 32 0, 0x10, 5, []⟩) [0x51]) =
      (some ⟨List.replicate 32 0, 0x10, 5, []⟩, [0x51]) :=
  c3_wrap_unwrap_inverse (some ⟨List.replicate 32 0, 0x10, 5, []⟩) [0x51]
    (fun t ht => by cases ht; decide) (by decide)

/-- C8: `unwrap_spk` never propagates a token-data parse failure: when it
reports no token data it returns the original bytes unchanged; it reports
token data only when the input begins with the marker byte and the bytes
after it parse successfully, the unconsumed remainder becoming the
script; and on an empty input, a non-marker first byte, or a failed
parse after the marker, it returns `(none, original_bytes)`. -/
theorem c8_unwrap_never_fails (wrapped : Bytes) :
    ((unwrap_spk wrapped).1 = none → (unwrap_spk wrapped).2 = wrapped)
    ∧ (∀ t leftover, unwrap_spk wrapped = (some t, leftover) →
        wrapped.head? = some PREFIX_BYTE
          ∧ OutputData.deserialize (wrapped.drop 1) = .ok (t, leftover))
    ∧ ((wrapped.head? ≠ some PREFIX_BYTE
          ∨ (OutputData.deserialize (wrapped.drop 1)).isOk = false) →
        unwrap_spk wrapped = (none, wrapped)) := by
  refine ⟨?_, ?_, ?_⟩
  · intro h
    cases wrapped with
    | nil => rfl
    | cons b r =>
        unfold unwrap_spk at h ⊢
        by_cases hb : b = PREFIX_BYTE
        · simp only [hb, ne_eq, not_true_eq_false, if_false] at h ⊢
          cases hd : OutputData.deserialize r with
          | error e => simp [hd]
          | ok p => simp [hd] at h
        · simp [hb]
  · intro t leftover h
    cases wrapped with
    | nil => simp [unwrap_spk] at h
    | cons b r =>
        unfold unwrap_spk at h
        by_cases hb : b = PREFIX_BYTE
        · simp only [hb, ne_eq, not_true_eq_false, if_false] at h
          cases hd : OutputData.deserialize r with
          | error e => rw [hd] at h; simp at h
          | ok p =>
              obtain ⟨t0, l0⟩ := p
              rw [hd] at h
              simp only [Prod.mk.injEq, Option.some.injEq] at h
              obtain ⟨rfl, rfl⟩ := h
              exact ⟨by simp [hb], by simpa using hd⟩
        · simp [hb] at h
  · intro h
    cases wrapped with
    | nil => rfl
    | cons b r =>
        unfold unwrap_spk
        by_cases hb : b = PREFIX_BYTE
        · simp only [hb, ne_eq, not_true_eq_false, if_false]
          rcases h with h | h
          · exact absurd (by simp [hb]) h
          · cases hd : OutputData.deserialize r with
            | error e => rfl
            | ok p => rw [List.drop_one, List.tail_cons] at h; simp [hd, Except.isOk, Except.toBool] at h
        · simp [hb]

/-- C8 witness: a byte string that begins with the marker but whose tail
fails to parse as token data is returned whole as `(none, original)`. -/
theorem c8_unwrap_witness :
    unwrap_spk [PREFIX_BYTE] = (none, [PREFIX_BYTE]) :=
  (c8_unwrap_never_fails [PREFIX_BYTE]).2.2 (Or.inr (by decide))

/-! ## Extraction lemmas for the primitive readers -/

theorem read_bytes_len_ok {n : Nat} {strict : Bool} {s b s' : Bytes}
    (h : read_bytes_len n strict s = .ok (b, s')) :
    b = s.take n ∧ s' = s.drop n := by
  unfold read_bytes_len at h
  split_ifs at h
  simp only [Except.ok.injEq, Prod.mk.injEq] at h
  exact ⟨h.1.symm, h.2.symm⟩

theorem read_bytes_len_strict_ok {n : Nat} {s b s' : Bytes}
    (h : read_bytes_len n true s = .ok (b, s')) :
    b.length = n ∧ b = s.take n ∧ s' = s.drop n ∧ n ≤ s.length := by
  unfold read_bytes_len at h
  split_ifs at h with hc
  simp only [Except.ok.injEq, Prod.mk.injEq] at h
  simp only [true_and] at hc
  push_neg at hc
  refine ⟨?_, h.1.symm, h.2.symm, hc⟩
  rw [← h.1]
  simp [List.length_take]
  omega

theorem read_compact_size_ok {strict : Bool} {s s' : Bytes} {v : Nat}
    (hb : IsBytes s) (h : read_compact_size strict s = .ok (v, s')) :
    v < 2 ^ 64 ∧ IsBytes s' ∧ s'.length < s.length := by
  cases s with
  | nil => exact absurd h (by simp [read_compact_size])
  | cons b rest =>
      have hrest : IsBytes rest := fun x hx => hb x (List.mem_cons_of_mem _ hx)
      simp only [read_compact_size] at h
      split_ifs at h with h1 h2 h3 h4 h5 h6 h7 h8 h9 <;>
        simp only [Except.ok.injEq, Prod.mk.injEq] at h <;>
        obtain ⟨rfl, rfl⟩ := h
      · exact ⟨by omega, hrest, by simp⟩
      · have hl : (rest.take 2).length = 2 := by simp [List.length_take]; omega
        have := (hrest.take 2).leNat_lt
        rw [hl] at this
        exact ⟨by omega, hrest.drop 2, by simp [List.length_drop]; omega⟩
      · have hl : (rest.take 4).length = 4 := by simp [List.length_take]; omega
        have := (hrest.take 4).leNat_lt
        rw [hl] at this
        exact ⟨by omega, hrest.drop 4, by simp [List.length_drop]; omega⟩
      · have hl : (rest.take 8).length = 8 := by simp [List.length_take]; omega
        have := (hrest.take 8).leNat_lt
        rw [hl] at this
        exact ⟨by omega, hrest.drop 8, by simp [List.length_drop]; omega⟩

theorem read_bytes_var_ok {strict : Bool} {s s' b : Bytes}
    (hb : IsBytes s) (h : read_bytes_var strict s = .ok (b, s')) :
    IsBytes b ∧ IsBytes s' ∧ b.length < 2 ^ 64 ∧ s'.length < s.length := by
  unfold read_bytes_var at h
  cases hc : read_compact_size strict s with
  | error e => rw [hc] at h; exact absurd h (by simp [bind_error_eq])
  | ok p =>
      obtain ⟨n, s1⟩ := p
      rw [hc] at h
      dsimp only [bind_ok_eq] at h
      obtain ⟨hn, hs1, hlen⟩ := read_compact_size_ok hb hc
      split_ifs at h
      simp only [Except.ok.injEq, Prod.mk.injEq] at h
      obtain ⟨rfl, rfl⟩ := h
      refine ⟨hs1.take n, hs1.drop n, ?_, ?_⟩
      · have : (s1.take n).length ≤ n := by
          simp [List.length_take]
        omega
      · have : (s1.drop n).length ≤ s1.length := by
          simp [List.length_drop]
        omega

theorem read_uint32_ok {s s' : Bytes} {v : Nat}
    (hb : IsBytes s) (h : read_uint32 s = .ok (v, s')) :
    v < 2 ^ 32 ∧ IsBytes s' ∧ s' = s.drop 4 ∧ 4 ≤ s.length := by
  unfold read_uint32 at h
  split_ifs at h with hc
  simp only [Except.ok.injEq, Prod.mk.injEq] at h
  obtain ⟨rfl, rfl⟩ := h
  push_neg at hc
  have hl : (s.take 4).length = 4 := by simp [List.length_take]; omega
  have := (hb.take 4).leNat_lt
  rw [hl] at this
  exact ⟨by omega, hb.drop 4, rfl, hc⟩

theorem read_int32_ok {s s' : Bytes} {v : Int}
    (hb : IsBytes s) (h : read_int32 s = .ok (v, s')) :
    -(2 ^ 31) ≤ v ∧ v < 2 ^ 31 ∧ IsBytes s' ∧ s' = s.drop 4 ∧ 4 ≤ s.length := by
  unfold read_int32 at h
  split_ifs at h with hc
  simp only [Except.ok.injEq, Prod.mk.injEq] at h
  obtain ⟨rfl, rfl⟩ := h
  push_neg at hc
  have hl : (s.take 4).length = 4 := by simp [List.length_take]; omega
  have hlt := (hb.take 4).leNat_lt
  rw [hl] at hlt
  refine ⟨?_, ?_, hb.drop 4, rfl, hc⟩ <;>
    · unfold toSigned
      split_ifs <;> omega

theorem read_int64_ok {s s' : Bytes} {v : Int}
    (hb : IsBytes s) (h : read_int64 s = .ok (v, s')) :
    -(2 ^ 63) ≤ v ∧ v < 2 ^ 63 ∧ IsBytes s' ∧ s' = s.drop 8 ∧ 8 ≤ s.length := by
  unfold read_int64 at h
  split_ifs at h with hc
  simp only [Except.ok.injEq, Prod.mk.injEq] at h
  obtain ⟨rfl, rfl⟩ := h
  push_neg at hc
  have hl : (s.take 8).length = 8 := by simp [List.length_take]; omega
  have hlt := (hb.take 8).leNat_lt
  rw [hl] at hlt
  refine ⟨?_, ?_, hb.drop 8, rfl, hc⟩ <;>
    · unfold toSigned
      split_ifs <;> omega

/-! ## Writer byte-ness and canonicity -/

theorem natLE_isBytes (n v : Nat) : IsBytes (natLE n v) := by
  induction n generalizing v with
  | zero => intro b hb; simp [natLE] at hb
  | succ n ih =>
      intro b hb
      simp only [natLE, List.mem_cons] at hb
      rcases hb with rfl | hb
      · exact Nat.mod_lt _ (by norm_num)
      · exact ih _ b hb

theorem natLE_leNat_id {bs : Bytes} (hb : IsBytes bs) :
    natLE bs.length (leNat bs) = bs := by
  induction bs with
  | nil => rfl
  | cons b rest ih =>
      have hblt : b < 256 := hb b (List.mem_cons_self _ _)
      have hrest : IsBytes rest := fun x hx => hb x (List.mem_cons_of_mem _ hx)
      simp only [List.length_cons, natLE, leNat]
      have h1 : (b + 256 * leNat rest) % 256 = b := by omega
      have h2 : (b + 256 * leNat rest) / 256 = leNat rest := by omega
      rw [h1, h2, ih hrest]

theorem write_compact_size_isBytes (v : Nat) : IsBytes (write_compact_size v) := by
  unfold write_compact_size
  split_ifs with h1 h2 h3
  · intro b hb
    simp only [List.mem_singleton] at hb
    omega
  · intro b hb
    rcases List.mem_cons.mp hb with rfl | hb
    · omega
    · exact natLE_isBytes _ _ b hb
  · intro b hb
    rcases List.mem_cons.mp hb with rfl | hb
    · omega
    · exact natLE_isBytes _ _ b hb
  · intro b hb
    rcases List.mem_cons.mp hb with rfl | hb
    · omega
    · exact natLE_isBytes _ _ b hb

theorem write_string_isBytes {b : Bytes} (hb : IsBytes b) :
    IsBytes (write_string b) :=
  (write_compact_size_isBytes b.length).append hb

theorem write_uint32_isBytes (v : Nat) : IsBytes (write_uint32 v) := natLE_isBytes 4 v

theorem write_int32_isBytes (v : Int) : IsBytes (write_int32 v) := natLE_isBytes 4 _

theorem write_int64_isBytes (v : Int) : IsBytes (write_int64 v) := natLE_isBytes 8 _

theorem read_compact_size_canonical {s s' : Bytes} {v : Nat}
    (hb : IsBytes s) (h : read_compact_size true s = .ok (v, s')) :
    write_compact_size v ++ s' = s := by
  cases s with
  | nil => exact absurd h (by simp [read_compact_size])
  | cons b rest =>
      have hblt : b < 256 := hb b (List.mem_cons_self _ _)
      have hrest : IsBytes rest := fun x hx => hb x (List.mem_cons_of_mem _ hx)
      by_cases h1 : b < 253
      · simp only [read_compact_size, if_pos h1, Except.ok.injEq, Prod.mk.injEq] at h
        obtain ⟨rfl, rfl⟩ := h
        simp [write_compact_size, h1]
      · by_cases h2 : b = 253
        · simp only [read_compact_size, if_neg h1, if_pos h2] at h
          split_ifs at h with g1 g2
          simp only [Except.ok.injEq, Prod.mk.injEq] at h
          obtain ⟨rfl, rfl⟩ := h
          push_neg at g1
          have hg2 : ¬ leNat (rest.take 2) < 253 := fun hlt => g2 ⟨trivial, hlt⟩
          have hl : (rest.take 2).length = 2 := by simp [List.length_take]; omega
          have hlt := (hrest.take 2).leNat_lt
          rw [hl] at hlt
          rw [write_compact_size, if_neg (by omega), if_pos (by norm_num at hlt ⊢; omega)]
          rw [show natLE 2 (leNat (rest.take 2)) = rest.take 2 from by
            have := natLE_leNat_id (hrest.take 2)
            rwa [hl] at this]
          rw [h2, List.cons_append, List.take_append_drop]
        · by_cases h3 : b = 254
          · simp only [read_compact_size, if_neg h1, if_neg h2, if_pos h3] at h
            split_ifs at h with g1 g2
            simp only [Except.ok.injEq, Prod.mk.injEq] at h
            obtain ⟨rfl, rfl⟩ := h
            push_neg at g1
            have hg2 : ¬ leNat (rest.take 4) < 2 ^ 16 := fun hlt => g2 ⟨trivial, hlt⟩
            have hl : (rest.take 4).length = 4 := by simp [List.length_take]; omega
            have hlt := (hrest.take 4).leNat_lt
            rw [hl] at hlt
            rw [write_compact_size, if_neg (by norm_num at hg2 ⊢; omega),
              if_neg (by norm_num at hg2 ⊢; omega), if_pos (by norm_num at hlt ⊢; omega)]
            rw [show natLE 4 (leNat (rest.take 4)) = rest.take 4 from by
              have := natLE_leNat_id (hrest.take 4)
              rwa [hl] at this]
            rw [h3, List.cons_append, List.take_append_drop]
          · simp only [read_compact_size, if_neg h1, if_neg h2, if_neg h3] at h
            split_ifs at h with g1 g2
            simp only [Except.ok.injEq, Prod.mk.injEq] at h
            obtain ⟨rfl, rfl⟩ := h
            push_neg at g1
            have hg2 : ¬ leNat (rest.take 8) < 2 ^ 32 := fun hlt => g2 ⟨trivial, hlt⟩
            have hb255 : b = 255 := by omega
            have hl : (rest.take 8).length = 8 := by simp [List.length_take]; omega
            rw [write_compact_size, if_neg (by norm_num at hg2 ⊢; omega),
              if_neg (by norm_num at hg2 ⊢; omega), if_neg (by norm_num at hg2 ⊢; omega)]
            rw [show natLE 8 (leNat (rest.take 8)) = rest.take 8 from by
              have := natLE_leNat_id (hrest.take 8)
              rwa [hl] at this]
            rw [hb255, List.cons_append, List.take_append_drop]

theorem read_bytes_var_canonical {s s' b : Bytes}
    (hb : IsBytes s) (h : read_bytes_var true s = .ok (b, s')) :
    write_string b ++ s' = s := by
  unfold read_bytes_var at h
  cases hc : read_compact_size true s with
  | error e => rw [hc] at h; exact absurd h (by simp [bind_error_eq])
  | ok p =>
      obtain ⟨n, s1⟩ := p
      rw [hc] at h
      dsimp only [bind_ok_eq] at h
      split_ifs at h with hg
      simp only [Except.ok.injEq, Prod.mk.injEq] at h
      obtain ⟨rfl, rfl⟩ := h
      simp only [true_and] at hg
      push_neg at hg
      have hlen : (s1.take n).length = n := by simp [List.length_take]; omega
      have := read_compact_size_canonical hb hc
      rw [write_string, hlen, List.append_assoc, List.take_append_drop]
      exact this

theorem read_uint32_canonical {s s' : Bytes} {v : Nat}
    (hb : IsBytes s) (h : read_uint32 s = .ok (v, s')) :
    write_uint32 v ++ s' = s := by
  unfold read_uint32 at h
  split_ifs at h with hc
  simp only [Except.ok.injEq, Prod.mk.injEq] at h
  obtain ⟨rfl, rfl⟩ := h
  push_neg at hc
  have hl : (s.take 4).length = 4 := by simp [List.length_take]; omega
  rw [write_uint32, show natLE 4 (leNat (s.take 4)) = s.take 4 from by
    have := natLE_leNat_id (hb.take 4)
    rwa [hl] at this, List.take_append_drop]

theorem toSigned_toNat_32 {u : Nat} (hu : u < 2 ^ 32) :
    ((toSigned 32 u) % 2 ^ 32).toNat = u := by
  unfold toSigned
  split_ifs <;> omega

theorem toSigned_toNat_64 {u : Nat} (hu : u < 2 ^ 64) :
    ((toSigned 64 u) % 2 ^ 64).toNat = u := by
  unfold toSigned
  split_ifs <;> omega

theorem read_int32_canonical {s s' : Bytes} {v : Int}
    (hb : IsBytes s) (h : read_int32 s = .ok (v, s')) :
    write_int32 v ++ s' = s := by
  unfold read_int32 at h
  split_ifs at h with hc
  simp only [Except.ok.injEq, Prod.mk.injEq] at h
  obtain ⟨rfl, rfl⟩ := h
  push_neg at hc
  have hl : (s.take 4).length = 4 := by simp [List.length_take]; omega
  have hu : leNat (s.take 4) < 2 ^ 32 := by
    have := (hb.take 4).leNat_lt
    rw [hl] at this
    norm_num at this ⊢
    omega
  rw [write_int32, toSigned_toNat_32 hu, show natLE 4 (leNat (s.take 4)) = s.take 4 from by
    have := natLE_leNat_id (hb.take 4)
    rwa [hl] at this, List.take_append_drop]

theorem read_int64_canonical {s s' : Bytes} {v : Int}
    (hb : IsBytes s) (h : read_int64 s = .ok (v, s')) :
    write_int64 v ++ s' = s := by
  unfold read_int64 at h
  split_ifs at h with hc
  simp only [Except.ok.injEq, Prod.mk.injEq] at h
  obtain ⟨rfl, rfl⟩ := h
  push_neg at hc
  have hl : (s.take 8).length = 8 := by simp [List.length_take]; omega
  have hu : leNat (s.take 8) < 2 ^ 64 := by
    have := (hb.take 8).leNat_lt
    rw [hl] at this
    norm_num at this ⊢
    omega
  rw [write_int64, toSigned_toNat_64 hu, show natLE 8 (leNat (s.take 8)) = s.take 8 from by
    have := natLE_leNat_id (hb.take 8)
    rwa [hl] at this, List.take_append_drop]

theorem OutputData.read_raw_ok {s s' : Bytes} {t : OutputData}
    (hb : IsBytes s) (h : OutputData.read_raw s = .ok (t, s')) :
    IsBytes t.id ∧ t.id.length = 32 ∧ t.bitfield < 256
    ∧ IsBytes t.commitment ∧ t.commitment.length < 2 ^ 64
    ∧ (t.has_commitment_length = false → t.commitment = [])
    ∧ (t.has_amount = false → t.amount = 0)
    ∧ t.amount < 2 ^ 64
    ∧ t.serialize ++ s' = s ∧ IsBytes s' := by
  unfold OutputData.read_raw at h
  cases h1 : read_bytes_len 32 true s with
  | error e => rw [h1] at h; exact absurd h (by simp [bind_error_eq])
  | ok p1 =>
    obtain ⟨idB, s1⟩ := p1
    rw [h1] at h
    dsimp only [bind_ok_eq] at h
    obtain ⟨hidlen, hidtake, hs1, -⟩ := read_bytes_len_strict_ok h1
    have hids : idB ++ s1 = s := by rw [hidtake, hs1, List.take_append_drop]
    have hidb : IsBytes idB := by rw [hidtake]; exact hb.take 32
    have hs1b : IsBytes s1 := by rw [hs1]; exact hb.drop 32
    cases h2 : read_bytes_len 1 true s1 with
    | error e => rw [h2] at h; exact absurd h (by simp [bind_error_eq])
    | ok p2 =>
      obtain ⟨bfB, s2⟩ := p2
      rw [h2] at h
      dsimp only [bind_ok_eq] at h
      obtain ⟨hbflen, hbftake, hs2, -⟩ := read_bytes_len_strict_ok h2
      obtain ⟨bf, rfl⟩ := List.length_eq_one.mp hbflen
      have hbfb : bf < 256 := by
        have : IsBytes [bf] := by rw [hbftake]; exact hs1b.take 1
        exact this bf (List.mem_singleton.mpr rfl)
      have hbfs : [bf] ++ s2 = s1 := by rw [hbftake, hs2, List.take_append_drop]
      have hs2b : IsBytes s2 := by rw [hs2]; exact hs1b.drop 1
      simp only [List.headI] at h
      by_cases hcl : (OutputData.mk idB bf 0 []).has_commitment_length = true
      · rw [if_pos hcl] at h
        cases h3 : read_bytes_var true s2 with
        | error e => rw [h3] at h; exact absurd h (by simp [bind_error_eq])
        | ok p3 =>
          obtain ⟨cmt, s3⟩ := p3
          rw [h3] at h
          dsimp only [bind_ok_eq] at h
          obtain ⟨hcmtb, hs3b, hcmtlen, -⟩ := read_bytes_var_ok hs2b h3
          have hcmts := read_bytes_var_canonical hs2b h3
          by_cases ha : (OutputData.mk idB bf 0 []).has_amount = true
          · rw [if_pos ha] at h
            cases h4 : read_compact_size true s3 with
            | error e => rw [h4] at h; exact absurd h (by simp [bind_error_eq])
            | ok p4 =>
              obtain ⟨amt, s4⟩ := p4
              rw [h4] at h
              dsimp only [bind_ok_eq] at h
              simp only [Except.ok.injEq, Prod.mk.injEq] at h
              obtain ⟨rfl, rfl⟩ := h
              obtain ⟨hamt, hs4b, -⟩ := read_compact_size_ok hs3b h4
              have hamts := read_compact_size_canonical hs3b h4
              refine ⟨hidb, hidlen, hbfb, hcmtb, hcmtlen, ?_, ?_, hamt, ?_, hs4b⟩
              · intro hf
                rw [show OutputData.has_commitment_length ⟨idB, bf, amt, cmt⟩
                  = (OutputData.mk idB bf 0 []).has_commitment_length from rfl, hcl] at hf
                cases hf
              · intro hf
                rw [show OutputData.has_amount ⟨idB, bf, amt, cmt⟩
                  = (OutputData.mk idB bf 0 []).has_amount from rfl, ha] at hf
                cases hf
              · rw [OutputData.serialize]
                rw [show OutputData.has_commitment_length ⟨idB, bf, amt, cmt⟩
                  = (OutputData.mk idB bf 0 []).has_commitment_length from rfl, hcl]
                rw [show OutputData.has_amount ⟨idB, bf, amt, cmt⟩
                  = (OutputData.mk idB bf 0 []).has_amount from rfl, ha]
                simp only [if_true, List.append_assoc]
                rw [← hids, ← hbfs, ← hcmts, ← hamts]
                simp [write_string, List.append_assoc]
          · rw [if_neg ha] at h
            try dsimp only [pure_eq, bind_ok_eq] at h
            simp only [Except.ok.injEq, Prod.mk.injEq] at h
            obtain ⟨rfl, rfl⟩ := h
            refine ⟨hidb, hidlen, hbfb, hcmtb, hcmtlen, ?_, ?_,
              by show (0 : Nat) < 2 ^ 64; norm_num, ?_, hs3b⟩
            · intro hf
              rw [show OutputData.has_commitment_length ⟨idB, bf, 0, cmt⟩
                = (OutputData.mk idB bf 0 []).has_commitment_length from rfl, hcl] at hf
              cases hf
            · intro hf
              rfl
            · rw [OutputData.serialize]
              rw [show OutputData.has_commitment_length ⟨idB, bf, 0, cmt⟩
                = (OutputData.mk idB bf 0 []).has_commitment_length from rfl, hcl]
              rw [show OutputData.has_amount ⟨idB, bf, 0, cmt⟩
                = (OutputData.mk idB bf 0 []).has_amount from rfl]
              rw [show (OutputData.mk idB bf 0 []).has_amount = false from by
                simpa using ha]
              simp only [if_true, Bool.false_eq_true, if_false, List.append_nil,
                List.append_assoc]
              rw [← hids, ← hbfs, ← hcmts]
              simp [write_string, List.append_assoc]
      · rw [if_neg hcl] at h
        try dsimp only [pure_eq, bind_ok_eq] at h
        by_cases ha : (OutputData.mk idB bf 0 []).has_amount = true
        · rw [if_pos ha] at h
          cases h4 : read_compact_size true s2 with
          | error e => rw [h4] at h; exact absurd h (by simp [bind_error_eq])
          | ok p4 =>
            obtain ⟨amt, s4⟩ := p4
            rw [h4] at h
            dsimp only [bind_ok_eq] at h
            simp only [Except.ok.injEq, Prod.mk.injEq] at h
            obtain ⟨rfl, rfl⟩ := h
            obtain ⟨hamt, hs4b, -⟩ := read_compact_size_ok hs2b h4
            have hamts := read_compact_size_canonical hs2b h4
            refine ⟨hidb, hidlen, hbfb, by intro x hx; simp at hx,
              by show ([] : Bytes).length < 2 ^ 64; norm_num, ?_, ?_,
              hamt, ?_, hs4b⟩
            · intro hf
              rfl
            · intro hf
              rw [show OutputData.has_amount ⟨idB, bf, amt, []⟩
                = (OutputData.mk idB bf 0 []).has_amount from rfl, ha] at hf
              cases hf
            · rw [OutputData.serialize]
              rw [show OutputData.has_commitment_length ⟨idB, bf, amt, []⟩
                = (OutputData.mk idB bf 0 []).has_commitment_length from rfl]
              rw [show (OutputData.mk idB bf 0 []).has_commitment_length = false from by
                simpa using hcl]
              rw [show OutputData.has_amount ⟨idB, bf, amt, []⟩
                = (OutputData.mk idB bf 0 []).has_amount from rfl, ha]
              simp only [if_true, Bool.false_eq_true, if_false, List.append_nil,
                List.append_assoc]
              rw [← hids, ← hbfs, ← hamts]
        · rw [if_neg ha] at h
          try dsimp only [pure_eq, bind_ok_eq] at h
          simp only [Except.ok.injEq, Prod.mk.injEq] at h
          obtain ⟨rfl, rfl⟩ := h
          refine ⟨hidb, hidlen, hbfb, by intro x hx; simp at hx,
            by show ([] : Bytes).length < 2 ^ 64; norm_num,
            fun _ => rfl, fun _ => rfl, by show (0 : Nat) < 2 ^ 64; norm_num, ?_, hs2b⟩
          rw [OutputData.serialize]
          rw [show OutputData.has_commitment_length ⟨idB, bf, 0, []⟩
            = (OutputData.mk idB bf 0 []).has_commitment_length from rfl]
          rw [show (OutputData.mk idB bf 0 []).has_commitment_length = false from by
            simpa using hcl]
          rw [show OutputData.has_amount ⟨idB, bf, 0, []⟩
            = (OutputData.mk idB bf 0 []).has_amount from rfl]
          rw [show (OutputData.mk idB bf 0 []).has_amount = false from by
            simpa using ha]
          simp only [Bool.false_eq_true, if_false, List.append_nil, List.append_assoc]
          rw [← hids, ← hbfs]

theorem token_output_parse_ok {s s' : Bytes} {t : OutputData}
    (hb : IsBytes s) (h : OutputData.deserialize s = .ok (t, s')) :
    t.SerValid ∧ IsBytes t.id ∧ t.bitfield < 256 ∧ IsBytes t.commitment
    ∧ t.serialize ++ s' = s ∧ IsBytes s' := by
  have heq := (token_deserialize_characterization.1 s).symm
  rw [h] at heq
  cases hr : OutputData.read_raw s with
  | error e => rw [hr] at heq; simp at heq
  | ok p =>
      obtain ⟨t0, r0⟩ := p
      rw [hr] at heq
      dsimp only at heq
      by_cases hv : TokenSpecValid t0
      · rw [if_pos hv] at heq
        simp only [Except.ok.injEq, Prod.mk.injEq] at heq
        obtain ⟨rfl, rfl⟩ := heq
        obtain ⟨hidb, hidlen, hbf, hcmtb, hcmtlen, hcl0, ham0, hamlt, hex, hs'⟩ :=
          OutputData.read_raw_ok hb hr
        obtain ⟨hvb, ham1, hamle, hcl1, -⟩ := (token_spec_valid_iff t0).mp hv
        refine ⟨⟨hidlen, hvb, ham1, ?_, hamle, fun hc => ⟨hcl1 hc, hcmtlen⟩, ?_⟩,
          hidb, hbf, hcmtb, hex, hs'⟩
        · intro hf
          exact ham0 hf
        · intro hf
          exact hcl0 hf
      · rw [if_neg hv] at heq
        simp at heq

theorem unwrap_spk_wrap_exact {w : Bytes} (hw : IsBytes w) :
    wrap_spk (unwrap_spk w).1 (unwrap_spk w).2 = w := by
  cases w with
  | nil => rfl
  | cons b rest =>
      have hrest : IsBytes rest := fun x hx => hw x (List.mem_cons_of_mem _ hx)
      unfold unwrap_spk
      by_cases hbp : b = PREFIX_BYTE
      · simp only [hbp, ne_eq, not_true_eq_false, if_false]
        cases hd : OutputData.deserialize rest with
        | error e => rfl
        | ok p =>
            obtain ⟨t, l⟩ := p
            obtain ⟨-, -, -, -, hex, -⟩ := token_output_parse_ok hrest hd
            show wrap_spk (some t) l = PREFIX_BYTE :: rest
            rw [wrap_spk, hex]
      · simp only [ne_eq, hbp, not_false_eq_true, if_true]
        rfl

theorem unwrap_spk_wrap_self {w : Bytes} (hw : IsBytes w) :
    unwrap_spk (wrap_spk (unwrap_spk w).1 (unwrap_spk w).2) = unwrap_spk w := by
  rw [unwrap_spk_wrap_exact hw]

/-! ## Entity codec (src/electroncash/bitcoin_types.py) -/

/-- `bitcoin_types.uint256`: fixed 32 raw bytes. -/
structure uint256 where
  data : Bytes
deriving Repr, DecidableEq

/-- `uint256.serialize`. -/
def uint256.serialize (u : uint256) : Bytes := u.data

/-- `uint256.deserialize`. -/
def uint256.deserialize (s : Bytes) : Except Err (uint256 × Bytes) := do
  let (d, s) ← read_bytes_len 32 true s
  .ok (⟨d⟩, s)

/-- `bitcoin_types.TxId`. -/
abbrev TxId := uint256

/-- `bitcoin_types.COutPoint`. -/
structure COutPoint where
  txid : TxId
  n : Nat
deriving Repr, DecidableEq

/-- `COutPoint.serialize`. -/
def COutPoint.serialize (o : COutPoint) : Bytes :=
  o.txid.serialize ++ write_uint32 o.n

/-- `COutPoint.deserialize`. -/
def COutPoint.deserialize (s : Bytes) : Except Err (COutPoint × Bytes) := do
  let (txid, s) ← uint256.deserialize s
  let (n, s) ← read_uint32 s
  .ok (⟨txid, n⟩, s)

/-- `bitcoin_types.CTxIn`. -/
structure CTxIn where
  prevout : COutPoint
  script_sig : Bytes
  sequence : Nat
deriving Repr, DecidableEq

/-- `CTxIn.serialize`. -/
def CTxIn.serialize (i : CTxIn) : Bytes :=
  i.prevout.serialize ++ write_string i.script_sig ++ write_uint32 i.sequence

/-- `CTxIn.deserialize`. -/
def CTxIn.deserialize (s : Bytes) : Except Err (CTxIn × Bytes) := do
  let (prevout, s) ← COutPoint.deserialize s
  let (script_sig, s) ← read_bytes_var true s
  let (sequence, s) ← read_uint32 s
  .ok (⟨prevout, script_sig, sequence⟩, s)

/-- `bitcoin_types.CTxOut`. -/
structure CTxOut where
  value : Int
  script_pub_key : Bytes
  token_data : Option OutputData
deriving Repr, DecidableEq

/-- `CTxOut.serialize`. -/
def CTxOut.serialize (o : CTxOut) : Bytes :=
  write_int64 o.value ++ write_string (wrap_spk o.token_data o.script_pub_key)

/-- `CTxOut.deserialize`. -/
def CTxOut.deserialize (s : Bytes) : Except Err (CTxOut × Bytes) := do
  let (value, s) ← read_int64 s
  let (w, s) ← read_bytes_var true s
  let (token_data, script_pub_key) := unwrap_spk w
  .ok (⟨value, script_pub_key, token_data⟩, s)

/-- Reads `n` successive items with `reader`: the deserialize loops of
the shape `for _ in range(n): x = T(); x.deserialize(vds); xs.append(x)`. -/
def read_many {α : Type} (reader : Bytes → Except Err (α × Bytes)) :
    Nat → Bytes → Except Err (List α × Bytes)
  | 0, s => .ok ([], s)
  | n + 1, s => do
    let (x, s) ← reader s
    let (xs, s) ← read_many reader n s
    .ok (x :: xs, s)

/-- `bitcoin_types.CMutableTransaction`. -/
structure CMutableTransaction where
  vin : List CTxIn
  vout : List CTxOut
  version : Int
  locktime : Nat
deriving Repr, DecidableEq

/-- `CMutableTransaction.serialize`. -/
def CMutableTransaction.serialize (tx : CMutableTransaction) : Bytes :=
  write_int32 tx.version
    ++ write_compact_size tx.vin.length
    ++ (tx.vin.map CTxIn.serialize).flatten
    ++ write_compact_size tx.vout.length
    ++ (tx.vout.map CTxOut.serialize).flatten
    ++ write_uint32 tx.locktime

/-- `CMutableTransaction.deserialize`. -/
def CMutableTransaction.deserialize (s : Bytes) :
    Except Err (CMutableTransaction × Bytes) := do
  let (version, s) ← read_int32 s
  let (num_ins, s) ← read_compact_size true s
  let (vin, s) ← read_many CTxIn.deserialize num_ins s
  let (num_outs, s) ← read_compact_size true s
  let (vout, s) ← read_many CTxOut.deserialize num_outs s
  let (locktime, s) ← read_uint32 s
  .ok (⟨vin, vout, version, locktime⟩, s)

/-- Invariants a parsed `CTxOut` enjoys, sufficient for its
serialization to parse back to it. -/
def CTxOut.WF (o : CTxOut) : Prop :=
  -(2 ^ 63) ≤ o.value ∧ o.value < 2 ^ 63
  ∧ IsBytes (wrap_spk o.token_data o.script_pub_key)
  ∧ (wrap_spk o.token_data o.script_pub_key).length < 2 ^ 64
  ∧ unwrap_spk (wrap_spk o.token_data o.script_pub_key)
      = (o.token_data, o.script_pub_key)

/-- Invariants a parsed `CTxIn` enjoys. -/
def CTxIn.WF (i : CTxIn) : Prop :=
  i.prevout.txid.data.length = 32 ∧ IsBytes i.prevout.txid.data
  ∧ i.prevout.n < 2 ^ 32
  ∧ IsBytes i.script_sig ∧ i.script_sig.length < 2 ^ 64
  ∧ i.sequence < 2 ^ 32

/-- Invariants a parsed `CMutableTransaction` enjoys. -/
def CMutableTransaction.WF (tx : CMutableTransaction) : Prop :=
  -(2 ^ 31) ≤ tx.version ∧ tx.version < 2 ^ 31
  ∧ tx.locktime < 2 ^ 32
  ∧ tx.vin.length < 2 ^ 64 ∧ tx.vout.length < 2 ^ 64
  ∧ (∀ i ∈ tx.vin, i.WF) ∧ (∀ o ∈ tx.vout, o.WF)

/-! ## Entity round-trips -/

theorem uint256_roundtrip (u : uint256) (rest : Bytes)
    (h : u.data.length = 32) :
    uint256.deserialize (u.serialize ++ rest) = .ok (u, rest) := by
  unfold uint256.deserialize uint256.serialize
  rw [read_bytes_len_exact 32 true u.data rest h]
  rfl

theorem coutpoint_roundtrip (o : COutPoint) (rest : Bytes)
    (h32 : o.txid.data.length = 32) (hn : o.n < 2 ^ 32) :
    COutPoint.deserialize (o.serialize ++ rest) = .ok (o, rest) := by
  unfold COutPoint.deserialize COutPoint.serialize
  rw [List.append_assoc, uint256_roundtrip o.txid _ h32]
  dsimp only [bind_ok_eq]
  rw [read_uint32_write o.n rest hn]
  rfl

theorem ctxin_roundtrip (i : CTxIn) (rest : Bytes) (h : i.WF) :
    CTxIn.deserialize (i.serialize ++ rest) = .ok (i, rest) := by
  obtain ⟨h32, -, hn, -, hslen, hseq⟩ := h
  unfold CTxIn.deserialize CTxIn.serialize
  simp only [List.append_assoc]
  rw [coutpoint_roundtrip i.prevout _ h32 hn]
  dsimp only [bind_ok_eq]
  rw [read_bytes_var_write true i.script_sig _ hslen]
  dsimp only [bind_ok_eq]
  rw [read_uint32_write i.sequence rest hseq]
  rfl

theorem ctxout_roundtrip (o : CTxOut) (rest : Bytes) (h : o.WF) :
    CTxOut.deserialize (o.serialize ++ rest) = .ok (o, rest) := by
  obtain ⟨hlo, hhi, hwb, hwlen, hunwrap⟩ := h
  unfold CTxOut.deserialize CTxOut.serialize
  rw [List.append_assoc, read_int64_write o.value _ hlo hhi]
  dsimp only [bind_ok_eq]
  rw [read_bytes_var_write true _ rest hwlen]
  dsimp only [bind_ok_eq]
  rw [hunwrap]

theorem read_many_serialize {α : Type} (reader : Bytes → Except Err (α × Bytes))
    (ser : α → Bytes) (xs : List α) (rest : Bytes)
    (h : ∀ x ∈ xs, ∀ r : Bytes, reader (ser x ++ r) = .ok (x, r)) :
    read_many reader xs.length ((xs.map ser).flatten ++ rest) = .ok (xs, rest) := by
  induction xs with
  | nil => simp [read_many]
  | cons x xs ih =>
      simp only [List.map_cons, List.flatten_cons, List.length_cons, read_many,
        List.append_assoc]
      rw [h x (List.mem_cons_self _ _) _]
      dsimp only [bind_ok_eq]
      rw [ih (fun y hy r => h y (List.mem_cons_of_mem _ hy) r)]
      rfl

theorem cmtx_roundtrip (tx : CMutableTransaction)
    (rest : Bytes) (h : tx.WF) :
    CMutableTransaction.deserialize (tx.serialize ++ rest) = .ok (tx, rest) := by
  obtain ⟨hvlo, hvhi, hlock, hvinlen, hvoutlen, hvin, hvout⟩ := h
  unfold CMutableTransaction.deserialize CMutableTransaction.serialize
  simp only [List.append_assoc]
  rw [read_int32_write tx.version _ hvlo hvhi]
  dsimp only [bind_ok_eq]
  rw [read_compact_size_write true tx.vin.length _ hvinlen]
  dsimp only [bind_ok_eq]
  rw [read_many_serialize CTxIn.deserialize CTxIn.serialize tx.vin _
    (fun i hi r => ctxin_roundtrip i r (hvin i hi))]
  dsimp only [bind_ok_eq]
  rw [read_compact_size_write true tx.vout.length _ hvoutlen]
  dsimp only [bind_ok_eq]
  rw [read_many_serialize CTxOut.deserialize CTxOut.serialize tx.vout _
    (fun o ho r => ctxout_roundtrip o r (hvout o ho))]
  dsimp only [bind_ok_eq]
  rw [read_uint32_write tx.locktime rest hlock]
  rfl

/-! ## Entity parse extraction -/

theorem uint256_parse_ok {s s' : Bytes} {u : uint256}
    (hb : IsBytes s) (h : uint256.deserialize s = .ok (u, s')) :
    u.data.length = 32 ∧ IsBytes u.data ∧ u.serialize ++ s' = s ∧ IsBytes s' := by
  unfold uint256.deserialize at h
  cases h1 : read_bytes_len 32 true s with
  | error e => rw [h1] at h; exact absurd h (by simp [bind_error_eq])
  | ok p =>
      obtain ⟨d, s1⟩ := p
      rw [h1] at h
      dsimp only [bind_ok_eq] at h
      simp only [Except.ok.injEq, Prod.mk.injEq] at h
      obtain ⟨rfl, rfl⟩ := h
      obtain ⟨hlen, htake, hdrop, -⟩ := read_bytes_len_strict_ok h1
      refine ⟨hlen, ?_, ?_, ?_⟩
      · rw [htake]; exact hb.take 32
      · rw [uint256.serialize, htake, hdrop, List.take_append_drop]
      · rw [hdrop]; exact hb.drop 32

theorem coutpoint_parse_ok {s s' : Bytes} {o : COutPoint}
    (hb : IsBytes s) (h : COutPoint.deserialize s = .ok (o, s')) :
    o.txid.data.length = 32 ∧ IsBytes o.txid.data ∧ o.n < 2 ^ 32
      ∧ o.serialize ++ s' = s ∧ IsBytes s' := by
  unfold COutPoint.deserialize at h
  cases h1 : uint256.deserialize s with
  | error e => rw [h1] at h; exact absurd h (by simp [bind_error_eq])
  | ok p =>
      obtain ⟨txid, s1⟩ := p
      rw [h1] at h
      dsimp only [bind_ok_eq] at h
      obtain ⟨hlen, hdb, hser, hs1b⟩ := uint256_parse_ok hb h1
      cases h2 : read_uint32 s1 with
      | error e => rw [h2] at h; exact absurd h (by simp [bind_error_eq])
      | ok p2 =>
          obtain ⟨n, s2⟩ := p2
          rw [h2] at h
          dsimp only [bind_ok_eq] at h
          simp only [Except.ok.injEq, Prod.mk.injEq] at h
          obtain ⟨rfl, rfl⟩ := h
          obtain ⟨hn, hs2b, -, -⟩ := read_uint32_ok hs1b h2
          have hcan := read_uint32_canonical hs1b h2
          exact ⟨hlen, hdb, hn, by
            rw [COutPoint.serialize, List.append_assoc, hcan, hser], hs2b⟩

theorem ctxin_parse_ok {s s' : Bytes} {i : CTxIn}
    (hb : IsBytes s) (h : CTxIn.deserialize s = .ok (i, s')) :
    i.WF ∧ i.serialize ++ s' = s ∧ IsBytes s' := by
  unfold CTxIn.deserialize at h
  cases h1 : COutPoint.deserialize s with
  | error e => rw [h1] at h; exact absurd h (by simp [bind_error_eq])
  | ok p =>
      obtain ⟨prevout, s1⟩ := p
      rw [h1] at h
      dsimp only [bind_ok_eq] at h
      obtain ⟨h32, hdb, hn, hser1, hs1b⟩ := coutpoint_parse_ok hb h1
      cases h2 : read_bytes_var true s1 with
      | error e => rw [h2] at h; exact absurd h (by simp [bind_error_eq])
      | ok p2 =>
          obtain ⟨ss, s2⟩ := p2
          rw [h2] at h
          dsimp only [bind_ok_eq] at h
          obtain ⟨hssb, hs2b, hsslen, -⟩ := read_bytes_var_ok hs1b h2
          have hser2 := read_bytes_var_canonical hs1b h2
          cases h3 : read_uint32 s2 with
          | error e => rw [h3] at h; exact absurd h (by simp [bind_error_eq])
          | ok p3 =>
              obtain ⟨sq, s3⟩ := p3
              rw [h3] at h
              dsimp only [bind_ok_eq] at h
              simp only [Except.ok.injEq, Prod.mk.injEq] at h
              obtain ⟨rfl, rfl⟩ := h
              obtain ⟨hsq, hs3b, -, -⟩ := read_uint32_ok hs2b h3
              have hser3 := read_uint32_canonical hs2b h3
              refine ⟨⟨h32, hdb, hn, hssb, hsslen, hsq⟩, ?_, hs3b⟩
              rw [CTxIn.serialize]
              simp only [List.append_assoc]
              rw [hser3, hser2, hser1]

theorem ctxout_parse_ok {s s' : Bytes} {o : CTxOut}
    (hb : IsBytes s) (h : CTxOut.deserialize s = .ok (o, s')) :
    o.WF ∧ o.serialize ++ s' = s ∧ IsBytes s' := by
  unfold CTxOut.deserialize at h
  cases h1 : read_int64 s with
  | error e => rw [h1] at h; exact absurd h (by simp [bind_error_eq])
  | ok p =>
      obtain ⟨v, s1⟩ := p
      rw [h1] at h
      dsimp only [bind_ok_eq] at h
      obtain ⟨hvlo, hvhi, hs1b, -, -⟩ := read_int64_ok hb h1
      have hser1 := read_int64_canonical hb h1
      cases h2 : read_bytes_var true s1 with
      | error e => rw [h2] at h; exact absurd h (by simp [bind_error_eq])
      | ok p2 =>
          obtain ⟨w, s2⟩ := p2
          rw [h2] at h
          dsimp only [bind_ok_eq] at h
          obtain ⟨hwb, hs2b, hwlen, -⟩ := read_bytes_var_ok hs1b h2
          have hser2 := read_bytes_var_canonical hs1b h2
          have hwrap := unwrap_spk_wrap_exact hwb
          cases hu : unwrap_spk w with
          | mk td spk =>
              rw [hu] at h
              dsimp only at h
              simp only [Except.ok.injEq, Prod.mk.injEq] at h
              obtain ⟨rfl, rfl⟩ := h
              rw [hu] at hwrap
              dsimp only at hwrap
              refine ⟨⟨hvlo, hvhi, ?_, ?_, ?_⟩, ?_, hs2b⟩
              · rw [hwrap]; exact hwb
              · rw [hwrap]; exact hwlen
              · rw [hwrap, hu]
              · rw [CTxOut.serialize]
                simp only [List.append_assoc]
                rw [hwrap, hser2, hser1]

theorem read_many_ok {α : Type} {reader : Bytes → Except Err (α × Bytes)}
    {ser : α → Bytes} {P : α → Prop}
    (hreader : ∀ {s0 x s0'}, IsBytes s0 → reader s0 = .ok (x, s0') →
      P x ∧ ser x ++ s0' = s0 ∧ IsBytes s0')
    {n : Nat} {s s' : Bytes} {xs : List α}
    (hb : IsBytes s) (h : read_many reader n s = .ok (xs, s')) :
    (∀ x ∈ xs, P x) ∧ (xs.map ser).flatten ++ s' = s ∧ IsBytes s'
      ∧ xs.length = n := by
  induction n generalizing s xs with
  | zero =>
      simp only [read_many, Except.ok.injEq, Prod.mk.injEq] at h
      obtain ⟨rfl, rfl⟩ := h
      simp [hb]
  | succ n ih =>
      unfold read_many at h
      cases h1 : reader s with
      | error e => rw [h1] at h; exact absurd h (by simp [bind_error_eq])
      | ok p =>
          obtain ⟨x, s1⟩ := p
          rw [h1] at h
          dsimp only [bind_ok_eq] at h
          obtain ⟨hP, hser, hs1b⟩ := hreader hb h1
          cases h2 : read_many reader n s1 with
          | error e => rw [h2] at h; exact absurd h (by simp [bind_error_eq])
          | ok p2 =>
              obtain ⟨ys, s2⟩ := p2
              rw [h2] at h
              dsimp only [bind_ok_eq] at h
              simp only [Except.ok.injEq, Prod.mk.injEq] at h
              obtain ⟨rfl, rfl⟩ := h
              obtain ⟨hPs, hsers, hs2b, hlen⟩ := ih hs1b h2
              refine ⟨?_, ?_, hs2b, by simp [hlen]⟩
              · intro y hy
                rcases List.mem_cons.mp hy with rfl | hy
                · exact hP
                · exact hPs y hy
              · simp only [List.map_cons, List.flatten_cons, List.append_assoc]
                rw [hsers, hser]

theorem cmtx_parse_ok {s s' : Bytes}
    {tx : CMutableTransaction} (hb : IsBytes s)
    (h : CMutableTransaction.deserialize s = .ok (tx, s')) :
    tx.WF ∧ tx.serialize ++ s' = s ∧ IsBytes s' := by
  unfold CMutableTransaction.deserialize at h
  cases h1 : read_int32 s with
  | error e => rw [h1] at h; exact absurd h (by simp [bind_error_eq])
  | ok p1 =>
    obtain ⟨version, s1⟩ := p1
    rw [h1] at h
    dsimp only [bind_ok_eq] at h
    obtain ⟨hvlo, hvhi, hs1b, -, -⟩ := read_int32_ok hb h1
    have hser1 := read_int32_canonical hb h1
    cases h2 : read_compact_size true s1 with
    | error e => rw [h2] at h; exact absurd h (by simp [bind_error_eq])
    | ok p2 =>
      obtain ⟨num_ins, s2⟩ := p2
      rw [h2] at h
      dsimp only [bind_ok_eq] at h
      obtain ⟨hni, hs2b, -⟩ := read_compact_size_ok hs1b h2
      have hser2 := read_compact_size_canonical hs1b h2
      cases h3 : read_many CTxIn.deserialize num_ins s2 with
      | error e => rw [h3] at h; exact absurd h (by simp [bind_error_eq])
      | ok p3 =>
        obtain ⟨vin, s3⟩ := p3
        rw [h3] at h
        dsimp only [bind_ok_eq] at h
        obtain ⟨hvinWF, hser3, hs3b, hvinlen⟩ :=
          read_many_ok (fun hb0 h0 => ctxin_parse_ok hb0 h0) hs2b h3
        cases h4 : read_compact_size true s3 with
        | error e => rw [h4] at h; exact absurd h (by simp [bind_error_eq])
        | ok p4 =>
          obtain ⟨num_outs, s4⟩ := p4
          rw [h4] at h
          dsimp only [bind_ok_eq] at h
          obtain ⟨hno, hs4b, -⟩ := read_compact_size_ok hs3b h4
          have hser4 := read_compact_size_canonical hs3b h4
          cases h5 : read_many CTxOut.deserialize num_outs s4 with
          | error e => rw [h5] at h; exact absurd h (by simp [bind_error_eq])
          | ok p5 =>
            obtain ⟨vout, s5⟩ := p5
            rw [h5] at h
            dsimp only [bind_ok_eq] at h
            obtain ⟨hvoutWF, hser5, hs5b, hvoutlen⟩ :=
              read_many_ok (fun hb0 h0 => ctxout_parse_ok hb0 h0) hs4b h5
            cases h6 : read_uint32 s5 with
            | error e => rw [h6] at h; exact absurd h (by simp [bind_error_eq])
            | ok p6 =>
              obtain ⟨locktime, s6⟩ := p6
              rw [h6] at h
              dsimp only [bind_ok_eq] at h
              simp only [Except.ok.injEq, Prod.mk.injEq] at h
              obtain ⟨rfl, rfl⟩ := h
              obtain ⟨hlock, hs6b, -, -⟩ := read_uint32_ok hs5b h6
              have hser6 := read_uint32_canonical hs5b h6
              refine ⟨⟨hvlo, hvhi, hlock, by rw [hvinlen]; exact hni,
                by rw [hvoutlen]; exact hno, hvinWF, hvoutWF⟩, ?_, hs6b⟩
              rw [CMutableTransaction.serialize]
              simp only [List.append_assoc]
              rw [hvinlen, hvoutlen, hser6, hser5, hser4, hser3, hser2, hser1]

/-! ## PSBT (src/electroncash/psbt.py) -/

/-- `psbt.PSBT_MAGIC_BYTES`. -/
def PSBT_MAGIC_BYTES : Bytes := [0x70, 0x73, 0x62, 0x74, 0xff]

/-- `psbt.PSBT_GLOBAL_UNSIGNED_TX`. -/
def PSBT_GLOBAL_UNSIGNED_TX : Nat := 0x00

/-- `psbt.PSBT_IN_UTXO`. -/
def PSBT_IN_UTXO : Nat := 0x00

/-- `psbt.PSBT_IN_PARTIAL_SIG`. -/
def PSBT_IN_PARTIAL_SIG : Nat := 0x02

/-- `psbt.PSBT_IN_SIGHASH`. -/
def PSBT_IN_SIGHASH : Nat := 0x03

/-- `psbt.PSBT_IN_REDEEMSCRIPT`. -/
def PSBT_IN_REDEEMSCRIPT : Nat := 0x04

/-- `psbt.PSBT_IN_BIP32_DERIVATION`. -/
def PSBT_IN_BIP32_DERIVATION : Nat := 0x06

/-- `psbt.PSBT_IN_SCRIPTSIG`. -/
def PSBT_IN_SCRIPTSIG : Nat := 0x07

/-- `psbt.PSBT_OUT_REDEEMSCRIPT`. -/
def PSBT_OUT_REDEEMSCRIPT : Nat := 0x00

/-- `psbt.PSBT_OUT_BIP32_DERIVATION`. -/
def PSBT_OUT_BIP32_DERIVATION : Nat := 0x02

/-- `psbt.PSBT_SEPARATOR`: the empty key whose byte-vector encoding is
the single byte 0x00. -/
def PSBT_SEPARATOR : Bytes := []

/-- Modelled from the spec: `bitcoin.ser_to_point` succeeding
(bitcoin.py is not under src/).  The spec asks for a "33 or 65-byte
compressed/uncompressed public key validated as a point on the signing
curve"; the model validates the serialization format (compressed keys
lead with 0x02/0x03, uncompressed with 0x04). -/
def ser_to_point_ok (pubkey : Bytes) : Bool :=
  (pubkey.length == 33 && (pubkey.headI == 2 || pubkey.headI == 3))
    || (pubkey.length == 65 && pubkey.headI == 4)

/-- `psbt._validate_pubkey` (its pubkey validation call is modelled, see
`ser_to_point_ok`). -/
def validate_pubkey (pubkey : Bytes) : Except Err Unit :=
  if ser_to_point_ok pubkey then .ok ()
  else .error (.psbt "Invalid pubkey")

/-- `psbt._parse_pubkey`. -/
def parse_pubkey (psbt_key : Bytes) : Except Err Bytes :=
  if psbt_key.length ≠ 66 ∧ psbt_key.length ≠ 34 then
    .error (.psbt "Size of key was not the expected size for the type partial signature pubkey")
  else do
    let pubkey := psbt_key.drop 1
    validate_pubkey pubkey
    pure pubkey

/-- Modelled from the spec: `bitcoin.hash_160` (bitcoin.py is not under
src/).  The spec says partial signatures are "keyed internally by a
20-byte digest of the pubkey"; the model uses a deterministic 20-byte
digest. -/
def hash_160 (b : Bytes) : Bytes :=
  (List.range 20).map (fun i => b.foldl (fun acc x => (acc * 131 + x + i + 1) % 256) i)

/-- `psbt.KeyOriginInfo`. -/
structure KeyOriginInfo where
  fingerprint : Bytes
  path : List Nat
deriving Repr, DecidableEq

/-- `psbt._deserialize_unknown`. -/
def deserialize_unknown (s : Bytes) (key : Bytes)
    (unknown : List (Bytes × Bytes)) :
    Except Err (List (Bytes × Bytes) × Bytes) :=
  if (unknown.lookup key).isSome then
    .error (.psbt "Duplicate Key, key for unknown value already provided")
  else do
    let (val, s) ← read_bytes_var true s
    .ok (unknown ++ [(key, val)], s)

/-- `psbt._serialize_unknown`. -/
def serialize_unknown (unknown : List (Bytes × Bytes)) : Bytes :=
  (unknown.map (fun kv => write_string kv.1 ++ write_string kv.2)).flatten

/-- The `while vds2.can_read_more(): keypath.path.append(vds2.read_uint32())`
loop of `psbt._deserialize_hd_keypath`, with fuel at least the stream
length (each pass consumes four bytes). -/
def read_uint32_loop (fuel : Nat) (path : List Nat) (s : Bytes) :
    Except Err (List Nat × Bytes) :=
  match fuel with
  | 0 => .ok (path, s)
  | fuel + 1 =>
    if can_read_more s then do
      let (index, s) ← read_uint32 s
      read_uint32_loop fuel (path ++ [index]) s
    else .ok (path, s)

/-- `psbt._deserialize_hd_keypath`. -/
def deserialize_hd_keypath (s : Bytes) (psbt_key : Bytes)
    (hd_keypaths : List (Bytes × KeyOriginInfo)) :
    Except Err (List (Bytes × KeyOriginInfo) × Bytes) := do
  let pubkey ← parse_pubkey psbt_key
  if (hd_keypaths.lookup pubkey).isSome then
    .error (.psbt "Duplicate Key, pubkey derivation path already provided")
  else do
    let (value, s) ← read_bytes_var true s
    if value.length = 0 ∨ value.length % 4 ≠ 0 then
      .error (.psbt "Invalid length for HD key path")
    else do
      let (fingerprint, v1) ← read_bytes_len 4 true value
      let (path, _) ← read_uint32_loop (v1.length + 1) [] v1
      .ok (hd_keypaths ++ [(pubkey, ⟨fingerprint, path⟩)], s)

/-- `psbt._serialize_hd_keypaths`. -/
def serialize_hd_keypaths (hd_keypaths : List (Bytes × KeyOriginInfo))
    (typ : Nat) : Except Err Bytes :=
  hd_keypaths.foldlM (fun acc kv =>
    if ¬ ser_to_point_ok kv.1 then .error (.psbt "Invalid pubkey being serialized")
    else if kv.2.fingerprint.length ≠ 4 then
      .error (.psbt "Expected fingerprint length of 4")
    else
      .ok (acc ++ write_string (typ :: kv.1)
        ++ write_string (kv.2.fingerprint ++ (kv.2.path.map write_uint32).flatten)))
    []

/-- `psbt.PSBTInput` (the `_PSBTInputOutputBase` fields first). -/
structure PSBTInput where
  redeem_script : Bytes
  hd_keypaths : List (Bytes × KeyOriginInfo)
  unknown : List (Bytes × Bytes)
  utxo : Option CTxOut
  final_script_sig : Bytes
  partial_sigs : List (Bytes × (Bytes × Bytes))
  sighash_type : Nat
deriving Repr, DecidableEq

/-- A `PSBTInput()` as `__init__`/`_clear` leave it. -/
def PSBTInput.empty : PSBTInput := ⟨[], [], [], none, [], [], 0⟩

/-- The `while vds.can_read_more()` key-dispatch loop of
`PSBTInput.deserialize`, with fuel at least the stream length (each pass
consumes at least the one byte of the key's length prefix). -/
def PSBTInput.deserializeLoop (fuel : Nat) (self : PSBTInput) (s : Bytes) :
    Except Err (PSBTInput × Bytes) :=
  match fuel with
  | 0 => .ok (self, s)
  | fuel + 1 =>
    if can_read_more s then do
      let (key, s) ← read_bytes_var true s
      if key.length = 0 then .ok (self, s)
      else
        let typ := key.headI
        if typ = PSBT_IN_UTXO then
          if self.utxo.isSome then
            .error (.psbt "Duplicate Key, input utxo already provided")
          else if key.length ≠ 1 then
            .error (.psbt "utxo key is more than one byte type")
          else do
            let (data, s) ← read_bytes_var true s
            let (utxo, rest2) ← CTxOut.deserialize data
            if can_read_more rest2 then
              .error (.psbt "utxo serialization has extra or unexpected bytes at the end")
            else
              PSBTInput.deserializeLoop fuel { self with utxo := some utxo } s
        else if typ = PSBT_IN_PARTIAL_SIG then do
          let pubkey ← parse_pubkey key
          let key_id := hash_160 pubkey
          if (self.partial_sigs.lookup key_id).isSome then
            .error (.psbt "Duplicate Key, input partial signature for pubkey already provided")
          else do
            let (sig, s) ← read_bytes_var true s
            PSBTInput.deserializeLoop fuel
              { self with partial_sigs := self.partial_sigs ++ [(key_id, (pubkey, sig))] } s
        else if typ = PSBT_IN_SIGHASH then
          if self.sighash_type ≠ 0 then
            .error (.psbt "Duplicate Key, input sighash type already provided")
          else if key.length ≠ 1 then
            .error (.psbt "Sighash type key is more than one byte type")
          else do
            let (data, s) ← read_bytes_var true s
            let (sighash, rest2) ← read_uint32 data
            if can_read_more rest2 then
              .error (.psbt "sighash type serialization has extra or unexpected bytes at the end")
            else
              PSBTInput.deserializeLoop fuel { self with sighash_type := sighash } s
        else if typ = PSBT_IN_REDEEMSCRIPT then
          if self.redeem_script ≠ [] then
            .error (.psbt "Duplicate Key, input redeemScript already provided")
          else if key.length ≠ 1 then
            .error (.psbt "Input redeemScript key is more than one byte type")
          else do
            let (rs, s) ← read_bytes_var true s
            PSBTInput.deserializeLoop fuel { self with redeem_script := rs } s
        else if typ = PSBT_IN_BIP32_DERIVATION then do
          let (hd, s) ← deserialize_hd_keypath s key self.hd_keypaths
          PSBTInput.deserializeLoop fuel { self with hd_keypaths := hd } s
        else if typ = PSBT_IN_SCRIPTSIG then
          if self.final_script_sig ≠ [] then
            .error (.psbt "Duplicate Key, input final scriptSig already provided")
          else if key.length ≠ 1 then
            .error (.psbt "Final scriptSig key is more than one byte type")
          else do
            let (fss, s) ← read_bytes_var true s
            PSBTInput.deserializeLoop fuel { self with final_script_sig := fss } s
        else do
          let (unk, s) ← deserialize_unknown s key self.unknown
          PSBTInput.deserializeLoop fuel { self with unknown := unk } s
    else .ok (self, s)

/-- `PSBTInput.deserialize`: clears the receiver (`self._clear()`) and
runs the key-dispatch loop. -/
def PSBTInput.deserialize (_self : PSBTInput) (s : Bytes) :
    Except Err (PSBTInput × Bytes) :=
  PSBTInput.deserializeLoop (s.length + 1) PSBTInput.empty s

/-- `PSBTInput.serialize`. -/
def PSBTInput.serialize (inp : PSBTInput) : Except Err Bytes := do
  let utxoPart :=
    match inp.utxo with
    | none => []
    | some u => write_string [PSBT_IN_UTXO] ++ write_string u.serialize
  if inp.final_script_sig = [] then do
    let sigsPart :=
      (inp.partial_sigs.map (fun kv =>
        write_string (PSBT_IN_PARTIAL_SIG :: kv.2.1) ++ write_string kv.2.2)).flatten
    let sighashPart :=
      if inp.sighash_type ≠ 0 then
        write_string [PSBT_IN_SIGHASH] ++ write_string (write_uint32 inp.sighash_type)
      else []
    let redeemPart :=
      if inp.redeem_script ≠ [] then
        write_string [PSBT_IN_REDEEMSCRIPT] ++ write_string inp.redeem_script
      else []
    let hdPart ← serialize_hd_keypaths inp.hd_keypaths PSBT_IN_BIP32_DERIVATION
    pure (utxoPart ++ sigsPart ++ sighashPart ++ redeemPart ++ hdPart
      ++ serialize_unknown inp.unknown ++ write_string PSBT_SEPARATOR)
  else
    pure (utxoPart ++ write_string [PSBT_IN_SCRIPTSIG]
      ++ write_string inp.final_script_sig
      ++ serialize_unknown inp.unknown ++ write_string PSBT_SEPARATOR)

/-- `psbt.PSBTOutput`. -/
structure PSBTOutput where
  redeem_script : Bytes
  hd_keypaths : List (Bytes × KeyOriginInfo)
  unknown : List (Bytes × Bytes)
deriving Repr, DecidableEq

/-- A `PSBTOutput()` as `__init__`/`_clear` leave it. -/
def PSBTOutput.empty : PSBTOutput := ⟨[], [], []⟩

/-- The key-dispatch loop of `PSBTOutput.deserialize`. -/
def PSBTOutput.deserializeLoop (fuel : Nat) (self : PSBTOutput) (s : Bytes) :
    Except Err (PSBTOutput × Bytes) :=
  match fuel with
  | 0 => .ok (self, s)
  | fuel + 1 =>
    if can_read_more s then do
      let (key, s) ← read_bytes_var true s
      if key.length = 0 then .ok (self, s)
      else
        let typ := key.headI
        if typ = PSBT_OUT_REDEEMSCRIPT then
          if self.redeem_script ≠ [] then
            .error (.psbt "Duplicate Key, output redeemScript already provided")
          else if key.length ≠ 1 then
            .error (.psbt "Output redeemScript key is more than one byte type")
          else do
            let (rs, s) ← read_bytes_var true s
            PSBTOutput.deserializeLoop fuel { self with redeem_script := rs } s
        else if typ = PSBT_OUT_BIP32_DERIVATION then do
          let (hd, s) ← deserialize_hd_keypath s key self.hd_keypaths
          PSBTOutput.deserializeLoop fuel { self with hd_keypaths := hd } s
        else do
          let (unk, s) ← deserialize_unknown s key self.unknown
          PSBTOutput.deserializeLoop fuel { self with unknown := unk } s
    else .ok (self, s)

/-- `PSBTOutput.deserialize`: clears the receiver and runs the loop. -/
def PSBTOutput.deserialize (_self : PSBTOutput) (s : Bytes) :
    Except Err (PSBTOutput × Bytes) :=
  PSBTOutput.deserializeLoop (s.length + 1) PSBTOutput.empty s

/-- `PSBTOutput.serialize`. -/
def PSBTOutput.serialize (o : PSBTOutput) : Except Err Bytes := do
  let redeemPart :=
    if o.redeem_script ≠ [] then
      write_string [PSBT_OUT_REDEEMSCRIPT] ++ write_string o.redeem_script
    else []
  let hdPart ← serialize_hd_keypaths o.hd_keypaths PSBT_OUT_BIP32_DERIVATION
  pure (redeemPart ++ hdPart ++ serialize_unknown o.unknown
    ++ write_string PSBT_SEPARATOR)

/-- `psbt.PSBT`. -/
structure PSBT where
  tx : Option CMutableTransaction
  inputs : List PSBTInput
  outputs : List PSBTOutput
  unknown : List (Bytes × Bytes)
deriving Repr, DecidableEq

/-- A `PSBT()` as `__init__`/`_clear` leave it. -/
def PSBT.empty : PSBT := ⟨none, [], [], []⟩

/-- The global-map key loop of `PSBT.deserialize`.  Errors carry the
receiver's state at the raise.  When the nested transaction parse fails,
the source leaves a partially-deserialized transaction object in
`self.tx`; no claim observes that intermediate object and the model
reports the receiver with `tx` still unset in that case. -/
def PSBT.globalLoop (fuel : Nat) (self : PSBT) (s : Bytes) :
    Except (Err × PSBT) (PSBT × Bytes) :=
  match fuel with
  | 0 => .ok (self, s)
  | fuel + 1 =>
    if can_read_more s then
      match read_bytes_var true s with
      | .error e => .error (e, self)
      | .ok (key, s) =>
        if key.length = 0 then .ok (self, s)
        else
          let typ := key.headI
          if typ = PSBT_GLOBAL_UNSIGNED_TX then
            if key.length ≠ 1 then
              .error (.psbt "Global unsigned tx key is more than one byte", self)
            else if self.tx.isSome then
              .error (.psbt "Duplicate Key, unsigned tx already provided", self)
            else
              match read_bytes_var true s with
              | .error e => .error (e, self)
              | .ok (txdata, s) =>
                match CMutableTransaction.deserialize txdata with
                | .error e => .error (e, self)
                | .ok (tx, rest2) =>
                  if can_read_more rest2 then
                    .error (.psbt "transaction serialization has extra or unexpected bytes at the end", self)
                  else if tx.vin.any (fun inp => ¬ inp.script_sig.isEmpty) then
                    .error (.psbt "Unsigned tx has a non-empty empty scriptSig at input",
                      { self with tx := some tx })
                  else
                    PSBT.globalLoop fuel { self with tx := some tx } s
          else
            match deserialize_unknown s key self.unknown with
            | .error e => .error (e, self)
            | .ok (unk, s) => PSBT.globalLoop fuel { self with unknown := unk } s
    else .ok (self, s)

/-- The `for i in range(len(self.tx.vin))` input-map loop of
`PSBT.deserialize`. -/
def PSBT.readInputs (n : Nat) (self : PSBT) (s : Bytes) :
    Except (Err × PSBT) (PSBT × Bytes) :=
  match n with
  | 0 => .ok (self, s)
  | n + 1 =>
    if ¬ can_read_more s then
      .error (.psbt "Inputs provided does not match the number of inputs in transaction.", self)
    else
      match PSBTInput.deserialize PSBTInput.empty s with
      | .error e => .error (e, self)
      | .ok (psbti, s) =>
          PSBT.readInputs n { self with inputs := self.inputs ++ [psbti] } s

/-- The output-map loop of `PSBT.deserialize`. -/
def PSBT.readOutputs (n : Nat) (self : PSBT) (s : Bytes) :
    Except (Err × PSBT) (PSBT × Bytes) :=
  match n with
  | 0 => .ok (self, s)
  | n + 1 =>
    if ¬ can_read_more s then
      .error (.psbt "Outputs provided does not match the number of inputs in transaction.", self)
    else
      match PSBTOutput.deserialize PSBTOutput.empty s with
      | .error e => .error (e, self)
      | .ok (output, s) =>
          PSBT.readOutputs n { self with outputs := self.outputs ++ [output] } s

/-- `PSBT.deserialize` on raw bytes.  The receiver is reset to its
default state only after the magic-byte check; errors carry the
receiver's state at the raise. -/
def PSBT.deserialize (self : PSBT) (src : Bytes) : Except (Err × PSBT) PSBT :=
  if src.take 5 ≠ PSBT_MAGIC_BYTES then
    .error (.psbtMagic "Invalid magic bytes", self)
  else
    let self := PSBT.empty
    let s := src.drop 5
    match PSBT.globalLoop (s.length + 1) self s with
    | .error e => .error e
    | .ok (self, s) =>
      match self.tx with
      | none => .error (.psbt "No unsigned transcation was provided", self)
      | some tx =>
        match PSBT.readInputs tx.vin.length self s with
        | .error e => .error e
        | .ok (self, s) =>
          match PSBT.readOutputs tx.vout.length self s with
          | .error e => .error e
          | .ok (self, _) => .ok self

/-- `PSBT.serialize` (producing the stream bytes; the textual transports
wrap these). -/
def PSBT.serialize (p : PSBT) : Except Err Bytes := do
  match p.tx with
  | none => .error (.psbt "No unsigned transaction was provided for serialization")
  | some tx =>
    if tx.vin.any (fun inp => ¬ inp.script_sig.isEmpty) then
      .error (.psbt "Unsigned transaction provided for serialization has non-empty scriptSig(s)")
    else do
      let globalPart := PSBT_MAGIC_BYTES ++ write_string [PSBT_GLOBAL_UNSIGNED_TX]
        ++ write_string tx.serialize ++ serialize_unknown p.unknown
        ++ write_string PSBT_SEPARATOR
      if p.inputs.length ≠ tx.vin.length then
        .error (.psbt "The number PSBT inputs must equal the unsigned tx's number of inputs")
      else do
        let inpParts ← p.inputs.mapM PSBTInput.serialize
        if p.outputs.length ≠ tx.vout.length then
          .error (.psbt "The number PSBT outputs must equal the unsigned tx's number of outputs")
        else do
          let outParts ← p.outputs.mapM PSBTOutput.serialize
          pure (globalPart ++ inpParts.flatten ++ outParts.flatten)

/-- Hex digit decoding for the hex transport (`bytes.fromhex`). -/
def hex_char_val (c : Char) : Option Nat :=
  let n := c.toNat
  if 48 ≤ n ∧ n ≤ 57 then some (n - 48)
  else if 97 ≤ n ∧ n ≤ 102 then some (n - 87)
  else if 65 ≤ n ∧ n ≤ 70 then some (n - 55)
  else none

/-- Hex decoding (`bytes.fromhex`): pairs of hex digits; an odd length
or a non-hex character fails. -/
def hex_decode : List Char → Option Bytes
  | [] => some []
  | [_] => none
  | c1 :: c2 :: rest => do
      let h ← hex_char_val c1
      let l ← hex_char_val c2
      let b ← hex_decode rest
      pure ((16 * h + l) :: b)

/-- Lower-case hex digit (`bytes.hex`). -/
def hex_digit (n : Nat) : Char :=
  if n < 10 then Char.ofNat (48 + n) else Char.ofNat (87 + n)

/-- Lower-case hex encoding (`bytes.hex`). -/
def hex_encode (bs : Bytes) : List Char :=
  (bs.map (fun b => [hex_digit (b / 16), hex_digit (b % 16)])).flatten

/-- `PSBT.deserialize` with `is_hex=True`: hex-decodes the string first
(a decode failure raises before the receiver is touched). -/
def PSBT.deserializeHex (self : PSBT) (src : List Char) :
    Except (Err × PSBT) PSBT :=
  match hex_decode src with
  | none =>
      .error (.psbt "PSBT with is_hex=True expects string argument to be hex-encoded", self)
  | some bs => PSBT.deserialize self bs

/-- `PSBT.serialize` with `return_hex=True`. -/
def PSBT.serializeHex (p : PSBT) : Except Err (List Char) := do
  let bs ← p.serialize
  pure (hex_encode bs)

/-- Python `dict.__eq__` on insertion-ordered association lists: the same
keys mapped to the same values, irrespective of insertion order. -/
def dict_beq {β : Type} [DecidableEq β] (a b : List (Bytes × β)) : Bool :=
  a.all (fun kv => b.lookup kv.1 == some kv.2)
    && b.all (fun kv => a.lookup kv.1 == some kv.2)

/-- `PSBTInput.__eq__` (with `_PSBTInputOutputBase.__eq__`). -/
def PSBTInput.beq (a b : PSBTInput) : Bool :=
  a.redeem_script == b.redeem_script
    && dict_beq a.hd_keypaths b.hd_keypaths
    && dict_beq a.unknown b.unknown
    && a.utxo == b.utxo
    && a.final_script_sig == b.final_script_sig
    && dict_beq a.partial_sigs b.partial_sigs
    && a.sighash_type == b.sighash_type

/-- `PSBTOutput.__eq__` (with `_PSBTInputOutputBase.__eq__`). -/
def PSBTOutput.beq (a b : PSBTOutput) : Bool :=
  a.redeem_script == b.redeem_script
    && dict_beq a.hd_keypaths b.hd_keypaths
    && dict_beq a.unknown b.unknown

/-- `PSBT.__eq__`: structural equality of the transaction, element-wise
equality of the input/output sequences, and dictionary equality of the
unknown map. -/
def PSBT.beq (a b : PSBT) : Bool :=
  a.tx == b.tx
    && a.inputs.length == b.inputs.length
    && (a.inputs.zip b.inputs).all (fun q => PSBTInput.beq q.1 q.2)
    && a.outputs.length == b.outputs.length
    && (a.outputs.zip b.outputs).all (fun q => PSBTOutput.beq q.1 q.2)
    && dict_beq a.unknown b.unknown

/-! ## The documented fixture (test_psbt.py) -/

/-- A quarter of the fixture hex string of test_psbt.py. -/
def fxHexA : List Char := ['7', '0', '7', '3', '6', '2', '7', '4', 'f', 'f', '0', '1', '0', '0', 'a', '0', '0', '2', '0', '0', '0', '0', '0', '0', '0', '2', '5', '8', 'e', '8', '7', 'a', '2', '1', 'b', '5', '6', 'd', 'a', 'f', '0', 'c', '2', '3', 'b', 'e', '8', 'e', '7', '0', '7', '0', '4', '5', '6', 'c', '3', '3', '6', 'f', '7', 'c', 'b', 'a', 'a', '5', 'c', '8', '7', '5', '7', '9', '2', '4', 'f', '5', '4', '5', '8', '8', '7', 'b', 'b', '2', 'a', 'b', 'd', 'd', '7', '5', '0', '0', '0', '0', '0', '0', '0', '0', '0', '0', 'f', 'f', 'f', 'f', 'f', 'f', 'f', 'f', '6', 'b', '0', '4', 'e', 'c', '3', '7', '3', '2', '6', 'f', 'b', 'a', 'c', '8', 'e', '4', '6', '8', 'a', '7', '3', 'b', 'f', '9', '5', '2', 'c', '8', '8', '7', '7', 'f', '8', '4', 'f', '9', '6', 'c', '3', 'f', '9', 'd', 'e', 'a', 'd', 'e', 'a', 'b', '2', '4', '6', '4', '5', '5', 'e', '3', '4', 'f', 'e', '0', 'c', 'd', '0', '1', '0', '0', '0', '0', '0', '0', '0', '0', 'f', 'f', 'f', 'f', 'f', 'f', 'f', 'f', '0', '2', '7', '0', 'a', 'a', 'f', '0', '0', '8', '0', '0', '0', '0', '0', '0', '0', '0', '1', '9', '7', '6', 'a', '9', '1', '4', 'd', '8', '5', 'c', '2', 'b', '7', '1', 'd', '0', '0', '6', '0', 'b', '0', '9', 'c', '9', '8', '8', '6', 'a', 'e', 'b', '8', '1', '5', 'e', '5', '0', '9', '9', '1', 'd', 'd', 'a', '1', '2', '4', 'd', '8', '8', 'a', 'c', '0', '0', 'e', '1', 'f', '5', '0', '5', '0', '0', '0', '0', '0', '0', '0', '0', '1', '9', '7', '6', 'a', '9', '1', '4', '0', '0', 'a', 'e', 'a', '9', 'a', '2', 'e', '5', 'f', '0', 'f', '8', '7', '6', 'a', '5', '8', '8', 'd', 'f', '5', '5', '4', '6', 'e', '8', '7', '4', '2', 'd', '1', 'd', '8', '7', '0', '0', '8', 'f', '8', '8', 'a', 'c', '0', '0', '0', '0', '0', '0', '0', '0', '0', '0', '0', '1', '0', '0', '2', '0', '8', '0', 'f', '0', 'f', 'a', '0', '2']

/-- A quarter of the fixture hex string of test_psbt.py. -/
def fxHexB : List Char := ['0', '0', '0', '0', '0', '0', '0', '0', '1', '7', 'a', '9', '1', '4', '0', 'f', 'b', '9', '4', '6', '3', '4', '2', '1', '6', '9', '6', 'b', '8', '2', 'c', '8', '3', '3', 'a', 'f', '2', '4', '1', 'c', '7', '8', 'c', '1', '7', 'd', 'd', 'b', 'd', 'e', '4', '9', '3', '4', '8', '7', '0', '1', '0', '4', '4', '7', '5', '2', '2', '1', '0', '2', '9', '5', '8', '3', 'b', 'f', '3', '9', 'a', 'e', '0', 'a', '6', '0', '9', '7', '4', '7', 'a', 'd', '1', '9', '9', 'a', 'd', 'd', 'd', '6', '3', '4', 'f', 'a', '6', '1', '0', '8', '5', '5', '9', 'd', '6', 'c', '5', 'c', 'd', '3', '9', 'b', '4', 'c', '2', '1', '8', '3', 'f', '1', 'a', 'b', '9', '6', 'e', '0', '7', 'f', '2', '1', '0', '2', 'd', 'a', 'b', '6', '1', 'f', 'f', '4', '9', 'a', '1', '4', 'd', 'b', '6', 'a', '7', 'd', '0', '2', 'b', '0', 'c', 'd', '1', 'f', 'b', 'b', '7', '8', 'f', 'c', '4', 'b', '1', '8', '3', '1', '2', 'b', '5', 'b', '4', 'e', '5', '4', 'd', 'a', 'e', '4', 'd', 'b', 'a', '2', 'f', 'b', 'f', 'e', 'f', '5', '3', '6', 'd', '7', '5', '2', 'a', 'e', '2', '2', '0', '6', '0', '2', '9', '5', '8', '3', 'b', 'f', '3', '9', 'a', 'e', '0', 'a', '6', '0', '9', '7', '4', '7', 'a', 'd', '1', '9', '9', 'a', 'd', 'd', 'd', '6', '3', '4', 'f', 'a', '6', '1', '0', '8', '5', '5', '9', 'd', '6', 'c', '5', 'c', 'd', '3', '9', 'b', '4', 'c', '2', '1', '8', '3', 'f', '1', 'a', 'b', '9', '6', 'e', '0', '7', 'f', '1', '0', 'd', '9', '0', 'c', '6', 'a', '4', 'f', '0', '0', '0', '0', '0', '0', '8', '0', '0', '0', '0', '0', '0', '0', '8', '0', '0', '0', '0', '0', '0', '0', '8', '0', '2', '2', '0', '6', '0', '2', 'd', 'a', 'b', '6', '1', 'f', 'f', '4', '9', 'a', '1', '4', 'd', 'b', '6', 'a', '7', 'd', '0', '2', 'b', '0', 'c', 'd', '1', 'f', 'b', 'b', '7', '8', 'f', 'c', '4', 'b', '1', '8', '3', '1']

/-- A quarter of the fixture hex string of test_psbt.py. -/
def fxHexC : List Char := ['2', 'b', '5', 'b', '4', 'e', '5', '4', 'd', 'a', 'e', '4', 'd', 'b', 'a', '2', 'f', 'b', 'f', 'e', 'f', '5', '3', '6', 'd', '7', '1', '0', 'd', '9', '0', 'c', '6', 'a', '4', 'f', '0', '0', '0', '0', '0', '0', '8', '0', '0', '0', '0', '0', '0', '0', '8', '0', '0', '1', '0', '0', '0', '0', '8', '0', '0', '0', '0', '1', '0', '0', '2', '0', '0', '0', 'c', '2', 'e', 'b', '0', 'b', '0', '0', '0', '0', '0', '0', '0', '0', '1', '7', 'a', '9', '1', '4', 'f', '6', '5', '3', '9', '3', '0', '7', 'e', '3', 'a', '4', '8', 'd', '1', 'e', '0', '1', '3', '6', 'd', '0', '6', '1', 'f', '5', 'd', '1', 'f', 'e', '1', '9', 'e', '1', 'a', '2', '4', '0', '8', '9', '8', '7', '0', '1', '0', '4', '4', '7', '5', '2', '2', '1', '0', '3', '0', '8', '9', 'd', 'c', '1', '0', 'c', '7', 'a', 'c', '6', 'd', 'b', '5', '4', 'f', '9', '1', '3', '2', '9', 'a', 'f', '6', '1', '7', '3', '3', '3', 'd', 'b', '3', '8', '8', 'c', 'e', 'a', 'd', '0', 'c', '2', '3', '1', 'f', '7', '2', '3', '3', '7', '9', 'd', '1', 'b', '9', '9', '0', '3', '0', 'b', '0', '2', 'd', 'c', '2', '1', '0', '2', '3', 'a', 'd', 'd', '9', '0', '4', 'f', '3', 'd', '6', 'd', 'c', 'f', '5', '9', 'd', 'd', 'b', '9', '0', '6', 'b', '0', 'd', 'e', 'e', '2', '3', '5', '2', '9', 'b', '7', 'f', 'f', 'b', '9', 'e', 'd', '5', '0', 'e', '5', 'e', '8', '6', '1', '5', '1', '9', '2', '6', '8', '6', '0', '2', '2', '1', 'f', '0', 'e', '7', '3', '5', '2', 'a', 'e', '2', '2', '0', '6', '0', '2', '3', 'a', 'd', 'd', '9', '0', '4', 'f', '3', 'd', '6', 'd', 'c', 'f', '5', '9', 'd', 'd', 'b', '9', '0', '6', 'b', '0', 'd', 'e', 'e', '2', '3', '5', '2', '9', 'b', '7', 'f', 'f', 'b', '9', 'e', 'd', '5', '0', 'e', '5', 'e', '8', '6', '1', '5', '1', '9', '2', '6', '8', '6', '0', '2', '2', '1', 'f', '0', 'e', '7', '3', '1', '0']

/-- A quarter of the fixture hex string of test_psbt.py. -/
def fxHexD : List Char := ['d', '9', '0', 'c', '6', 'a', '4', 'f', '0', '0', '0', '0', '0', '0', '8', '0', '0', '0', '0', '0', '0', '0', '8', '0', '0', '3', '0', '0', '0', '0', '8', '0', '2', '2', '0', '6', '0', '3', '0', '8', '9', 'd', 'c', '1', '0', 'c', '7', 'a', 'c', '6', 'd', 'b', '5', '4', 'f', '9', '1', '3', '2', '9', 'a', 'f', '6', '1', '7', '3', '3', '3', 'd', 'b', '3', '8', '8', 'c', 'e', 'a', 'd', '0', 'c', '2', '3', '1', 'f', '7', '2', '3', '3', '7', '9', 'd', '1', 'b', '9', '9', '0', '3', '0', 'b', '0', '2', 'd', 'c', '1', '0', 'd', '9', '0', 'c', '6', 'a', '4', 'f', '0', '0', '0', '0', '0', '0', '8', '0', '0', '0', '0', '0', '0', '0', '8', '0', '0', '2', '0', '0', '0', '0', '8', '0', '0', '0', '2', '2', '0', '2', '0', '3', 'a', '9', 'a', '4', 'c', '3', '7', 'f', '5', '9', '9', '6', 'd', '3', 'a', 'a', '2', '5', 'd', 'b', 'a', 'c', '6', 'b', '5', '7', '0', 'a', 'f', '0', '6', '5', '0', '3', '9', '4', '4', '9', '2', '9', '4', '2', '4', '6', '0', 'b', '3', '5', '4', '7', '5', '3', 'e', 'd', '9', 'e', 'e', 'c', 'a', '5', '8', '7', '7', '1', '1', '0', 'd', '9', '0', 'c', '6', 'a', '4', 'f', '0', '0', '0', '0', '0', '0', '8', '0', '0', '0', '0', '0', '0', '0', '8', '0', '0', '4', '0', '0', '0', '0', '8', '0', '0', '0', '2', '2', '0', '2', '0', '2', '7', 'f', '6', '3', '9', '9', '7', '5', '7', 'd', '2', 'e', 'f', 'f', '5', '5', 'a', '1', '3', '6', 'a', 'd', '0', '2', 'c', '6', '8', '4', 'b', '1', '8', '3', '8', 'b', '6', '5', '5', '6', 'e', '5', 'f', '1', 'b', '6', 'b', '3', '4', '2', '8', '2', 'a', '9', '4', 'b', '6', 'b', '5', '0', '0', '5', '1', '0', '9', '6', '1', '0', 'd', '9', '0', 'c', '6', 'a', '4', 'f', '0', '0', '0', '0', '0', '0', '8', '0', '0', '0', '0', '0', '0', '0', '8', '0', '0', '5', '0', '0', '0', '0', '8', '0', '0', '0']

/-- A quarter of the fixture bytes. -/
def fxBytesA : Bytes := [112, 115, 98, 116, 255, 1, 0, 160, 2, 0, 0, 0, 2, 88, 232, 122, 33, 181, 109, 175, 12, 35, 190, 142, 112, 112, 69, 108, 51, 111, 124, 186, 165, 200, 117, 121, 36, 245, 69, 136, 123, 178, 171, 221, 117, 0, 0, 0, 0, 0, 255, 255, 255, 255, 107, 4, 236, 55, 50, 111, 186, 200, 228, 104, 167, 59, 249, 82, 200, 135, 127, 132, 249, 108, 63, 157, 234, 222, 171, 36, 100, 85, 227, 79, 224, 205, 1, 0, 0, 0, 0, 255, 255, 255, 255, 2, 112, 170, 240, 8, 0, 0, 0, 0, 25, 118, 169, 20, 216, 92, 43, 113, 208, 6, 11, 9, 201, 136, 106, 235, 129, 94, 80, 153, 29, 218, 18, 77, 136, 172, 0, 225, 245, 5, 0, 0, 0, 0, 25, 118, 169, 20, 0, 174, 169, 162, 229, 240, 248, 118, 165, 136, 223, 85, 70, 232, 116, 45, 29, 135, 0, 143, 136, 172, 0, 0, 0, 0, 0, 1, 0, 32, 128, 240, 250, 2]

/-- A quarter of the fixture bytes. -/
def fxBytesB : Bytes := [0, 0, 0, 0, 23, 169, 20, 15, 185, 70, 52, 33, 105, 107, 130, 200, 51, 175, 36, 28, 120, 193, 125, 219, 222, 73, 52, 135, 1, 4, 71, 82, 33, 2, 149, 131, 191, 57, 174, 10, 96, 151, 71, 173, 25, 154, 221, 214, 52, 250, 97, 8, 85, 157, 108, 92, 211, 155, 76, 33, 131, 241, 171, 150, 224, 127, 33, 2, 218, 182, 31, 244, 154, 20, 219, 106, 125, 2, 176, 205, 31, 187, 120, 252, 75, 24, 49, 43, 91, 78, 84, 218, 228, 219, 162, 251, 254, 245, 54, 215, 82, 174, 34, 6, 2, 149, 131, 191, 57, 174, 10, 96, 151, 71, 173, 25, 154, 221, 214, 52, 250, 97, 8, 85, 157, 108, 92, 211, 155, 76, 33, 131, 241, 171, 150, 224, 127, 16, 217, 12, 106, 79, 0, 0, 0, 128, 0, 0, 0, 128, 0, 0, 0, 128, 34, 6, 2, 218, 182, 31, 244, 154, 20, 219, 106, 125, 2, 176, 205, 31, 187, 120, 252, 75, 24, 49]

/-- A quarter of the fixture bytes. -/
def fxBytesC : Bytes := [43, 91, 78, 84, 218, 228, 219, 162, 251, 254, 245, 54, 215, 16, 217, 12, 106, 79, 0, 0, 0, 128, 0, 0, 0, 128, 1, 0, 0, 128, 0, 1, 0, 32, 0, 194, 235, 11, 0, 0, 0, 0, 23, 169, 20, 246, 83, 147, 7, 227, 164, 141, 30, 1, 54, 208, 97, 245, 209, 254, 25, 225, 162, 64, 137, 135, 1, 4, 71, 82, 33, 3, 8, 157, 193, 12, 122, 198, 219, 84, 249, 19, 41, 175, 97, 115, 51, 219, 56, 140, 234, 208, 194, 49, 247, 35, 55, 157, 27, 153, 3, 11, 2, 220, 33, 2, 58, 221, 144, 79, 61, 109, 207, 89, 221, 185, 6, 176, 222, 226, 53, 41, 183, 255, 185, 237, 80, 229, 232, 97, 81, 146, 104, 96, 34, 31, 14, 115, 82, 174, 34, 6, 2, 58, 221, 144, 79, 61, 109, 207, 89, 221, 185, 6, 176, 222, 226, 53, 41, 183, 255, 185, 237, 80, 229, 232, 97, 81, 146, 104, 96, 34, 31, 14, 115, 16]

/-- A quarter of the fixture bytes. -/
def fxBytesD : Bytes := [217, 12, 106, 79, 0, 0, 0, 128, 0, 0, 0, 128, 3, 0, 0, 128, 34, 6, 3, 8, 157, 193, 12, 122, 198, 219, 84, 249, 19, 41, 175, 97, 115, 51, 219, 56, 140, 234, 208, 194, 49, 247, 35, 55, 157, 27, 153, 3, 11, 2, 220, 16, 217, 12, 106, 79, 0, 0, 0, 128, 0, 0, 0, 128, 2, 0, 0, 128, 0, 34, 2, 3, 169, 164, 195, 127, 89, 150, 211, 170, 37, 219, 172, 107, 87, 10, 240, 101, 3, 148, 73, 41, 66, 70, 11, 53, 71, 83, 237, 158, 236, 165, 135, 113, 16, 217, 12, 106, 79, 0, 0, 0, 128, 0, 0, 0, 128, 4, 0, 0, 128, 0, 34, 2, 2, 127, 99, 153, 117, 125, 46, 255, 85, 161, 54, 173, 2, 198, 132, 177, 131, 139, 101, 86, 229, 241, 182, 179, 66, 130, 169, 75, 107, 80, 5, 16, 150, 16, 217, 12, 106, 79, 0, 0, 0, 128, 0, 0, 0, 128, 5, 0, 0, 128, 0]

/-- The documented 2-input/2-output PSBT fixture of test_psbt.py as a hex character string. -/
def fixtureHexChars : List Char := fxHexA ++ fxHexB ++ fxHexC ++ fxHexD


/-- The fixture bytes. -/
def fixtureBytes : Bytes := [112, 115, 98, 116, 255, 1, 0, 160, 2, 0, 0, 0, 2, 88, 232, 122, 33, 181, 109, 175, 12, 35, 190, 142, 112, 112, 69, 108, 51, 111, 124, 186, 165, 200, 117, 121, 36, 245, 69, 136, 123, 178, 171, 221, 117, 0, 0, 0, 0, 0, 255, 255, 255, 255, 107, 4, 236, 55, 50, 111, 186, 200, 228, 104, 167, 59, 249, 82, 200, 135, 127, 132, 249, 108, 63, 157, 234, 222, 171, 36, 100, 85, 227, 79, 224, 205, 1, 0, 0, 0, 0, 255, 255, 255, 255, 2, 112, 170, 240, 8, 0, 0, 0, 0, 25, 118, 169, 20, 216, 92, 43, 113, 208, 6, 11, 9, 201, 136, 106, 235, 129, 94, 80, 153, 29, 218, 18, 77, 136, 172, 0, 225, 245, 5, 0, 0, 0, 0, 25, 118, 169, 20, 0, 174, 169, 162, 229, 240, 248, 118, 165, 136, 223, 85, 70, 232, 116, 45, 29, 135, 0, 143, 136, 172, 0, 0, 0, 0, 0, 1, 0, 32, 128, 240, 250, 2, 0, 0, 0, 0, 23, 169, 20, 15, 185, 70, 52, 33, 105, 107, 130, 200, 51, 175, 36, 28, 120, 193, 125, 219, 222, 73, 52, 135, 1, 4, 71, 82, 33, 2, 149, 131, 191, 57, 174, 10, 96, 151, 71, 173, 25, 154, 221, 214, 52, 250, 97, 8, 85, 157, 108, 92, 211, 155, 76, 33, 131, 241, 171, 150, 224, 127, 33, 2, 218, 182, 31, 244, 154, 20, 219, 106, 125, 2, 176, 205, 31, 187, 120, 252, 75, 24, 49, 43, 91, 78, 84, 218, 228, 219, 162, 251, 254, 245, 54, 215, 82, 174, 34, 6, 2, 149, 131, 191, 57, 174, 10, 96, 151, 71, 173, 25, 154, 221, 214, 52, 250, 97, 8, 85, 157, 108, 92, 211, 155, 76, 33, 131, 241, 171, 150, 224, 127, 16, 217, 12, 106, 79, 0, 0, 0, 128, 0, 0, 0, 128, 0, 0, 0, 128, 34, 6, 2, 218, 182, 31, 244, 154, 20, 219, 106, 125, 2, 176, 205, 31, 187, 120, 252, 75, 24, 49, 43, 91, 78, 84, 218, 228, 219, 162, 251, 254, 245, 54, 215, 16, 217, 12, 106, 79, 0, 0, 0, 128, 0, 0, 0, 128, 1, 0, 0, 128, 0, 1, 0, 32, 0, 194, 235, 11, 0, 0, 0, 0, 23, 169, 20, 246, 83, 147, 7, 227, 164, 141, 30, 1, 54, 208, 97, 245, 209, 254, 25, 225, 162, 64, 137, 135, 1, 4, 71, 82, 33, 3, 8, 157, 193, 12, 122, 198, 219, 84, 249, 19, 41, 175, 97, 115, 51, 219, 56, 140, 234, 208, 194, 49, 247, 35, 55, 157, 27, 153, 3, 11, 2, 220, 33, 2, 58, 221, 144, 79, 61, 109, 207, 89, 221, 185, 6, 176, 222, 226, 53, 41, 183, 255, 185, 237, 80, 229, 232, 97, 81, 146, 104, 96, 34, 31, 14, 115, 82, 174, 34, 6, 2, 58, 221, 144, 79, 61, 109, 207, 89, 221, 185, 6, 176, 222, 226, 53, 41, 183, 255, 185, 237, 80, 229, 232, 97, 81, 146, 104, 96, 34, 31, 14, 115, 16, 217, 12, 106, 79, 0, 0, 0, 128, 0, 0, 0, 128, 3, 0, 0, 128, 34, 6, 3, 8, 157, 193, 12, 122, 198, 219, 84, 249, 19, 41, 175, 97, 115, 51, 219, 56, 140, 234, 208, 194, 49, 247, 35, 55, 157, 27, 153, 3, 11, 2, 220, 16, 217, 12, 106, 79, 0, 0, 0, 128, 0, 0, 0, 128, 2, 0, 0, 128, 0, 34, 2, 3, 169, 164, 195, 127, 89, 150, 211, 170, 37, 219, 172, 107, 87, 10, 240, 101, 3, 148, 73, 41, 66, 70, 11, 53, 71, 83, 237, 158, 236, 165, 135, 113, 16, 217, 12, 106, 79, 0, 0, 0, 128, 0, 0, 0, 128, 4, 0, 0, 128, 0, 34, 2, 2, 127, 99, 153, 117, 125, 46, 255, 85, 161, 54, 173, 2, 198, 132, 177, 131, 139, 101, 86, 229, 241, 182, 179, 66, 130, 169, 75, 107, 80, 5, 16, 150, 16, 217, 12, 106, 79, 0, 0, 0, 128, 0, 0, 0, 128, 5, 0, 0, 128, 0]

/-- The fixture stream suffix starting at offset 5. -/
def fxS5 : Bytes := [1, 0, 160, 2, 0, 0, 0, 2, 88, 232, 122, 33, 181, 109, 175, 12, 35, 190, 142, 112, 112, 69, 108, 51, 111, 124, 186, 165, 200, 117, 121, 36, 245, 69, 136, 123, 178, 171, 221, 117, 0, 0, 0, 0, 0, 255, 255, 255, 255, 107, 4, 236, 55, 50, 111, 186, 200, 228, 104, 167, 59, 249, 82, 200, 135, 127, 132, 249, 108, 63, 157, 234, 222, 171, 36, 100, 85, 227, 79, 224, 205, 1, 0, 0, 0, 0, 255, 255, 255, 255, 2, 112, 170, 240, 8, 0, 0, 0, 0, 25, 118, 169, 20, 216, 92, 43, 113, 208, 6, 11, 9, 201, 136, 106, 235, 129, 94, 80, 153, 29, 218, 18, 77, 136, 172, 0, 225, 245, 5, 0, 0, 0, 0, 25, 118, 169, 20, 0, 174, 169, 162, 229, 240, 248, 118, 165, 136, 223, 85, 70, 232, 116, 45, 29, 135, 0, 143, 136, 172, 0, 0, 0, 0, 0, 1, 0, 32, 128, 240, 250, 2, 0, 0, 0, 0, 23, 169, 20, 15, 185, 70, 52, 33, 105, 107, 130, 200, 51, 175, 36, 28, 120, 193, 125, 219, 222, 73, 52, 135, 1, 4, 71, 82, 33, 2, 149, 131, 191, 57, 174, 10, 96, 151, 71, 173, 25, 154, 221, 214, 52, 250, 97, 8, 85, 157, 108, 92, 211, 155, 76, 33, 131, 241, 171, 150, 224, 127, 33, 2, 218, 182, 31, 244, 154, 20, 219, 106, 125, 2, 176, 205, 31, 187, 120, 252, 75, 24, 49, 43, 91, 78, 84, 218, 228, 219, 162, 251, 254, 245, 54, 215, 82, 174, 34, 6, 2, 149, 131, 191, 57, 174, 10, 96, 151, 71, 173, 25, 154, 221, 214, 52, 250, 97, 8, 85, 157, 108, 92, 211, 155, 76, 33, 131, 241, 171, 150, 224, 127, 16, 217, 12, 106, 79, 0, 0, 0, 128, 0, 0, 0, 128, 0, 0, 0, 128, 34, 6, 2, 218, 182, 31, 244, 154, 20, 219, 106, 125, 2, 176, 205, 31, 187, 120, 252, 75, 24, 49, 43, 91, 78, 84, 218, 228, 219, 162, 251, 254, 245, 54, 215, 16, 217, 12, 106, 79, 0, 0, 0, 128, 0, 0, 0, 128, 1, 0, 0, 128, 0, 1, 0, 32, 0, 194, 235, 11, 0, 0, 0, 0, 23, 169, 20, 246, 83, 147, 7, 227, 164, 141, 30, 1, 54, 208, 97, 245, 209, 254, 25, 225, 162, 64, 137, 135, 1, 4, 71, 82, 33, 3, 8, 157, 193, 12, 122, 198, 219, 84, 249, 19, 41, 175, 97, 115, 51, 219, 56, 140, 234, 208, 194, 49, 247, 35, 55, 157, 27, 153, 3, 11, 2, 220, 33, 2, 58, 221, 144, 79, 61, 109, 207, 89, 221, 185, 6, 176, 222, 226, 53, 41, 183, 255, 185, 237, 80, 229, 232, 97, 81, 146, 104, 96, 34, 31, 14, 115, 82, 174, 34, 6, 2, 58, 221, 144, 79, 61, 109, 207, 89, 221, 185, 6, 176, 222, 226, 53, 41, 183, 255, 185, 237, 80, 229, 232, 97, 81, 146, 104, 96, 34, 31, 14, 115, 16, 217, 12, 106, 79, 0, 0, 0, 128, 0, 0, 0, 128, 3, 0, 0, 128, 34, 6, 3, 8, 157, 193, 12, 122, 198, 219, 84, 249, 19, 41, 175, 97, 115, 51, 219, 56, 140, 234, 208, 194, 49, 247, 35, 55, 157, 27, 153, 3, 11, 2, 220, 16, 217, 12, 106, 79, 0, 0, 0, 128, 0, 0, 0, 128, 2, 0, 0, 128, 0, 34, 2, 3, 169, 164, 195, 127, 89, 150, 211, 170, 37, 219, 172, 107, 87, 10, 240, 101, 3, 148, 73, 41, 66, 70, 11, 53, 71, 83, 237, 158, 236, 165, 135, 113, 16, 217, 12, 106, 79, 0, 0, 0, 128, 0, 0, 0, 128, 4, 0, 0, 128, 0, 34, 2, 2, 127, 99, 153, 117, 125, 46, 255, 85, 161, 54, 173, 2, 198, 132, 177, 131, 139, 101, 86, 229, 241, 182, 179, 66, 130, 169, 75, 107, 80, 5, 16, 150, 16, 217, 12, 106, 79, 0, 0, 0, 128, 0, 0, 0, 128, 5, 0, 0, 128, 0]

/-- The fixture stream suffix starting at offset 169. -/
def fxSAG : Bytes := [1, 0, 32, 128, 240, 250, 2, 0, 0, 0, 0, 23, 169, 20, 15, 185, 70, 52, 33, 105, 107, 130, 200, 51, 175, 36, 28, 120, 193, 125, 219, 222, 73, 52, 135, 1, 4, 71, 82, 33, 2, 149, 131, 191, 57, 174, 10, 96, 151, 71, 173, 25, 154, 221, 214, 52, 250, 97, 8, 85, 157, 108, 92, 211, 155, 76, 33, 131, 241, 171, 150, 224, 127, 33, 2, 218, 182, 31, 244, 154, 20, 219, 106, 125, 2, 176, 205, 31, 187, 120, 252, 75, 24, 49, 43, 91, 78, 84, 218, 228, 219, 162, 251, 254, 245, 54, 215, 82, 174, 34, 6, 2, 149, 131, 191, 57, 174, 10, 96, 151, 71, 173, 25, 154, 221, 214, 52, 250, 97, 8, 85, 157, 108, 92, 211, 155, 76, 33, 131, 241, 171, 150, 224, 127, 16, 217, 12, 106, 79, 0, 0, 0, 128, 0, 0, 0, 128, 0, 0, 0, 128, 34, 6, 2, 218, 182, 31, 244, 154, 20, 219, 106, 125, 2, 176, 205, 31, 187, 120, 252, 75, 24, 49, 43, 91, 78, 84, 218, 228, 219, 162, 251, 254, 245, 54, 215, 16, 217, 12, 106, 79, 0, 0, 0, 128, 0, 0, 0, 128, 1, 0, 0, 128, 0, 1, 0, 32, 0, 194, 235, 11, 0, 0, 0, 0, 23, 169, 20, 246, 83, 147, 7, 227, 164, 141, 30, 1, 54, 208, 97, 245, 209, 254, 25, 225, 162, 64, 137, 135, 1, 4, 71, 82, 33, 3, 8, 157, 193, 12, 122, 198, 219, 84, 249, 19, 41, 175, 97, 115, 51, 219, 56, 140, 234, 208, 194, 49, 247, 35, 55, 157, 27, 153, 3, 11, 2, 220, 33, 2, 58, 221, 144, 79, 61, 109, 207, 89, 221, 185, 6, 176, 222, 226, 53, 41, 183, 255, 185, 237, 80, 229, 232, 97, 81, 146, 104, 96, 34, 31, 14, 115, 82, 174, 34, 6, 2, 58, 221, 144, 79, 61, 109, 207, 89, 221, 185, 6, 176, 222, 226, 53, 41, 183, 255, 185, 237, 80, 229, 232, 97, 81, 146, 104, 96, 34, 31, 14, 115, 16, 217, 12, 106, 79, 0, 0, 0, 128, 0, 0, 0, 128, 3, 0, 0, 128, 34, 6, 3, 8, 157, 193, 12, 122, 198, 219, 84, 249, 19, 41, 175, 97, 115, 51, 219, 56, 140, 234, 208, 194, 49, 247, 35, 55, 157, 27, 153, 3, 11, 2, 220, 16, 217, 12, 106, 79, 0, 0, 0, 128, 0, 0, 0, 128, 2, 0, 0, 128, 0, 34, 2, 3, 169, 164, 195, 127, 89, 150, 211, 170, 37, 219, 172, 107, 87, 10, 240, 101, 3, 148, 73, 41, 66, 70, 11, 53, 71, 83, 237, 158, 236, 165, 135, 113, 16, 217, 12, 106, 79, 0, 0, 0, 128, 0, 0, 0, 128, 4, 0, 0, 128, 0, 34, 2, 2, 127, 99, 153, 117, 125, 46, 255, 85, 161, 54, 173, 2, 198, 132, 177, 131, 139, 101, 86, 229, 241, 182, 179, 66, 130, 169, 75, 107, 80, 5, 16, 150, 16, 217, 12, 106, 79, 0, 0, 0, 128, 0, 0, 0, 128, 5, 0, 0, 128, 0]

/-- The fixture stream suffix starting at offset 383. -/
def fxSI2 : Bytes := [1, 0, 32, 0, 194, 235, 11, 0, 0, 0, 0, 23, 169, 20, 246, 83, 147, 7, 227, 164, 141, 30, 1, 54, 208, 97, 245, 209, 254, 25, 225, 162, 64, 137, 135, 1, 4, 71, 82, 33, 3, 8, 157, 193, 12, 122, 198, 219, 84, 249, 19, 41, 175, 97, 115, 51, 219, 56, 140, 234, 208, 194, 49, 247, 35, 55, 157, 27, 153, 3, 11, 2, 220, 33, 2, 58, 221, 144, 79, 61, 109, 207, 89, 221, 185, 6, 176, 222, 226, 53, 41, 183, 255, 185, 237, 80, 229, 232, 97, 81, 146, 104, 96, 34, 31, 14, 115, 82, 174, 34, 6, 2, 58, 221, 144, 79, 61, 109, 207, 89, 221, 185, 6, 176, 222, 226, 53, 41, 183, 255, 185, 237, 80, 229, 232, 97, 81, 146, 104, 96, 34, 31, 14, 115, 16, 217, 12, 106, 79, 0, 0, 0, 128, 0, 0, 0, 128, 3, 0, 0, 128, 34, 6, 3, 8, 157, 193, 12, 122, 198, 219, 84, 249, 19, 41, 175, 97, 115, 51, 219, 56, 140, 234, 208, 194, 49, 247, 35, 55, 157, 27, 153, 3, 11, 2, 220, 16, 217, 12, 106, 79, 0, 0, 0, 128, 0, 0, 0, 128, 2, 0, 0, 128, 0, 34, 2, 3, 169, 164, 195, 127, 89, 150, 211, 170, 37, 219, 172, 107, 87, 10, 240, 101, 3, 148, 73, 41, 66, 70, 11, 53, 71, 83, 237, 158, 236, 165, 135, 113, 16, 217, 12, 106, 79, 0, 0, 0, 128, 0, 0, 0, 128, 4, 0, 0, 128, 0, 34, 2, 2, 127, 99, 153, 117, 125, 46, 255, 85, 161, 54, 173, 2, 198, 132, 177, 131, 139, 101, 86, 229, 241, 182, 179, 66, 130, 169, 75, 107, 80, 5, 16, 150, 16, 217, 12, 106, 79, 0, 0, 0, 128, 0, 0, 0, 128, 5, 0, 0, 128, 0]

/-- The fixture stream suffix starting at offset 597. -/
def fxSO1 : Bytes := [34, 2, 3, 169, 164, 195, 127, 89, 150, 211, 170, 37, 219, 172, 107, 87, 10, 240, 101, 3, 148, 73, 41, 66, 70, 11, 53, 71, 83, 237, 158, 236, 165, 135, 113, 16, 217, 12, 106, 79, 0, 0, 0, 128, 0, 0, 0, 128, 4, 0, 0, 128, 0, 34, 2, 2, 127, 99, 153, 117, 125, 46, 255, 85, 161, 54, 173, 2, 198, 132, 177, 131, 139, 101, 86, 229, 241, 182, 179, 66, 130, 169, 75, 107, 80, 5, 16, 150, 16, 217, 12, 106, 79, 0, 0, 0, 128, 0, 0, 0, 128, 5, 0, 0, 128, 0]

/-- The fixture stream suffix starting at offset 650. -/
def fxSO2 : Bytes := [34, 2, 2, 127, 99, 153, 117, 125, 46, 255, 85, 161, 54, 173, 2, 198, 132, 177, 131, 139, 101, 86, 229, 241, 182, 179, 66, 130, 169, 75, 107, 80, 5, 16, 150, 16, 217, 12, 106, 79, 0, 0, 0, 128, 0, 0, 0, 128, 5, 0, 0, 128, 0]

/-- The transaction the fixture parses to. -/
def fixtureTx : CMutableTransaction := ⟨[⟨⟨⟨[88, 232, 122, 33, 181, 109, 175, 12, 35, 190, 142, 112, 112, 69, 108, 51, 111, 124, 186, 165, 200, 117, 121, 36, 245, 69, 136, 123, 178, 171, 221, 117]⟩, 0⟩, [], 4294967295⟩, ⟨⟨⟨[107, 4, 236, 55, 50, 111, 186, 200, 228, 104, 167, 59, 249, 82, 200, 135, 127, 132, 249, 108, 63, 157, 234, 222, 171, 36, 100, 85, 227, 79, 224, 205]⟩, 1⟩, [], 4294967295⟩],
  [⟨149990000, [118, 169, 20, 216, 92, 43, 113, 208, 6, 11, 9, 201, 136, 106, 235, 129, 94, 80, 153, 29, 218, 18, 77, 136, 172], none⟩, ⟨100000000, [118, 169, 20, 0, 174, 169, 162, 229, 240, 248, 118, 165, 136, 223, 85, 70, 232, 116, 45, 29, 135, 0, 143, 136, 172], none⟩],
  2, 0⟩

/-- The first PSBT input the fixture parses to. -/
def fixtureInp1 : PSBTInput := ⟨[82, 33, 2, 149, 131, 191, 57, 174, 10, 96, 151, 71, 173, 25, 154, 221, 214, 52, 250, 97, 8, 85, 157, 108, 92, 211, 155, 76, 33, 131, 241, 171, 150, 224, 127, 33, 2, 218, 182, 31, 244, 154, 20, 219, 106, 125, 2, 176, 205, 31, 187, 120, 252, 75, 24, 49, 43, 91, 78, 84, 218, 228, 219, 162, 251, 254, 245, 54, 215, 82, 174], [([2, 149, 131, 191, 57, 174, 10, 96, 151, 71, 173, 25, 154, 221, 214, 52, 250, 97, 8, 85, 157, 108, 92, 211, 155, 76, 33, 131, 241, 171, 150, 224, 127], ⟨[217, 12, 106, 79], [2147483648, 2147483648, 2147483648]⟩), ([2, 218, 182, 31, 244, 154, 20, 219, 106, 125, 2, 176, 205, 31, 187, 120, 252, 75, 24, 49, 43, 91, 78, 84, 218, 228, 219, 162, 251, 254, 245, 54, 215], ⟨[217, 12, 106, 79], [2147483648, 2147483648, 2147483649]⟩)], [], some ⟨50000000, [169, 20, 15, 185, 70, 52, 33, 105, 107, 130, 200, 51, 175, 36, 28, 120, 193, 125, 219, 222, 73, 52, 135], none⟩, [], [], 0⟩

/-- The second PSBT input the fixture parses to. -/
def fixtureInp2 : PSBTInput := ⟨[82, 33, 3, 8, 157, 193, 12, 122, 198, 219, 84, 249, 19, 41, 175, 97, 115, 51, 219, 56, 140, 234, 208, 194, 49, 247, 35, 55, 157, 27, 153, 3, 11, 2, 220, 33, 2, 58, 221, 144, 79, 61, 109, 207, 89, 221, 185, 6, 176, 222, 226, 53, 41, 183, 255, 185, 237, 80, 229, 232, 97, 81, 146, 104, 96, 34, 31, 14, 115, 82, 174], [([2, 58, 221, 144, 79, 61, 109, 207, 89, 221, 185, 6, 176, 222, 226, 53, 41, 183, 255, 185, 237, 80, 229, 232, 97, 81, 146, 104, 96, 34, 31, 14, 115], ⟨[217, 12, 106, 79], [2147483648, 2147483648, 2147483651]⟩), ([3, 8, 157, 193, 12, 122, 198, 219, 84, 249, 19, 41, 175, 97, 115, 51, 219, 56, 140, 234, 208, 194, 49, 247, 35, 55, 157, 27, 153, 3, 11, 2, 220], ⟨[217, 12, 106, 79], [2147483648, 2147483648, 2147483650]⟩)], [], some ⟨200000000, [169, 20, 246, 83, 147, 7, 227, 164, 141, 30, 1, 54, 208, 97, 245, 209, 254, 25, 225, 162, 64, 137, 135], none⟩, [], [], 0⟩

/-- The first PSBT output the fixture parses to. -/
def fixtureOut1 : PSBTOutput := ⟨[], [([3, 169, 164, 195, 127, 89, 150, 211, 170, 37, 219, 172, 107, 87, 10, 240, 101, 3, 148, 73, 41, 66, 70, 11, 53, 71, 83, 237, 158, 236, 165, 135, 113], ⟨[217, 12, 106, 79], [2147483648, 2147483648, 2147483652]⟩)], []⟩

/-- The second PSBT output the fixture parses to. -/
def fixtureOut2 : PSBTOutput := ⟨[], [([2, 127, 99, 153, 117, 125, 46, 255, 85, 161, 54, 173, 2, 198, 132, 177, 131, 139, 101, 86, 229, 241, 182, 179, 66, 130, 169, 75, 107, 80, 5, 16, 150], ⟨[217, 12, 106, 79], [2147483648, 2147483648, 2147483653]⟩)], []⟩

/-- The PSBT the fixture parses to. -/
def fixturePSBT : PSBT := ⟨some fixtureTx, [fixtureInp1, fixtureInp2], [fixtureOut1, fixtureOut2], []⟩

/-! ## Fixture stage lemmas -/

theorem opt_bind_some {α β : Type} (a : α) (f : α → Option β) :
    (some a >>= f) = f a := rfl

theorem opt_bind_none {α β : Type} (f : α → Option β) :
    ((none : Option α) >>= f) = none := rfl

theorem opt_pure_eq {α : Type} (a : α) : (pure a : Option α) = some a := rfl

theorem hex_decode_append (a b : List Char) (x : Bytes)
    (h : hex_decode a = some x) :
    hex_decode (a ++ b) = (hex_decode b).map (fun y => x ++ y) := by
  induction x generalizing a with
  | nil =>
      match a with
      | [] =>
          cases hd : hex_decode b with
          | none => simp [hd]
          | some y => simp [hd]
      | [c] => simp [hex_decode] at h
      | c1 :: c2 :: rest =>
          rw [hex_decode] at h
          cases h1 : hex_char_val c1 with
          | none => rw [h1] at h; simp at h
          | some hv =>
            cases h2 : hex_char_val c2 with
            | none => rw [h1, h2] at h; simp at h
            | some lv =>
              cases h3 : hex_decode rest with
              | none => rw [h1, h2, h3] at h; simp at h
              | some tl => rw [h1, h2, h3] at h; simp at h
  | cons v x' ih =>
      match a with
      | [] => simp [hex_decode] at h
      | [c] => simp [hex_decode] at h
      | c1 :: c2 :: rest =>
          rw [hex_decode] at h
          cases h1 : hex_char_val c1 with
          | none => rw [h1] at h; simp at h
          | some hv =>
            cases h2 : hex_char_val c2 with
            | none => rw [h1, h2] at h; simp at h
            | some lv =>
              cases h3 : hex_decode rest with
              | none => rw [h1, h2, h3] at h; simp at h
              | some tl =>
                rw [h1, h2, h3] at h
                dsimp only [opt_bind_some, opt_pure_eq] at h
                simp only [Option.some.injEq, List.cons.injEq] at h
                obtain ⟨hv1, rfl⟩ := h
                have := ih rest h3
                show hex_decode (c1 :: c2 :: (rest ++ b)) = _
                rw [hex_decode, h1, h2]
                dsimp only [opt_bind_some, opt_pure_eq]
                rw [this]
                cases hd : hex_decode b with
                | none => simp
                | some y => simp [hv1]

theorem hex_encode_append (a b : Bytes) :
    hex_encode (a ++ b) = hex_encode a ++ hex_encode b := by
  simp [hex_encode]

set_option maxRecDepth 20000 in
theorem fx_decode_A : hex_decode fxHexA = some fxBytesA := by rfl

set_option maxRecDepth 20000 in
theorem fx_decode_B : hex_decode fxHexB = some fxBytesB := by rfl

set_option maxRecDepth 20000 in
theorem fx_decode_C : hex_decode fxHexC = some fxBytesC := by rfl

set_option maxRecDepth 20000 in
theorem fx_decode_D : hex_decode fxHexD = some fxBytesD := by rfl

set_option maxRecDepth 20000 in
theorem fx_bytes_eq : fxBytesA ++ fxBytesB ++ fxBytesC ++ fxBytesD = fixtureBytes := by rfl

set_option maxRecDepth 20000 in
theorem fx_decode : hex_decode fixtureHexChars = some fixtureBytes := by
  have hAB : hex_decode (fxHexA ++ fxHexB) = some (fxBytesA ++ fxBytesB) := by
    rw [hex_decode_append _ _ _ fx_decode_A, fx_decode_B]
    rfl
  have hABC : hex_decode (fxHexA ++ fxHexB ++ fxHexC)
      = some (fxBytesA ++ fxBytesB ++ fxBytesC) := by
    rw [hex_decode_append _ _ _ hAB, fx_decode_C]
    rfl
  rw [fixtureHexChars, hex_decode_append _ _ _ hABC, fx_decode_D]
  show some (fxBytesA ++ fxBytesB ++ fxBytesC ++ fxBytesD) = some fixtureBytes
  rw [fx_bytes_eq]

set_option maxRecDepth 20000 in
theorem fx_encode_A : hex_encode fxBytesA = fxHexA := by rfl

set_option maxRecDepth 20000 in
theorem fx_encode_B : hex_encode fxBytesB = fxHexB := by rfl

set_option maxRecDepth 20000 in
theorem fx_encode_C : hex_encode fxBytesC = fxHexC := by rfl

set_option maxRecDepth 20000 in
theorem fx_encode_D : hex_encode fxBytesD = fxHexD := by rfl

set_option maxRecDepth 20000 in
theorem fx_encode : hex_encode fixtureBytes = fixtureHexChars := by
  rw [← fx_bytes_eq, hex_encode_append, hex_encode_append, hex_encode_append,
    fx_encode_A, fx_encode_B, fx_encode_C, fx_encode_D, fixtureHexChars]

set_option maxRecDepth 20000 in
theorem fx_take5 : fixtureBytes.take 5 = PSBT_MAGIC_BYTES := by rfl

set_option maxRecDepth 20000 in
theorem fx_drop5 : fixtureBytes.drop 5 = fxS5 := by rfl

set_option maxRecDepth 20000 in
theorem fx_s5_len : fxS5.length = 698 := by rfl

set_option maxRecDepth 20000 in
theorem fx_global : PSBT.globalLoop 699 PSBT.empty fxS5
    = .ok (⟨some fixtureTx, [], [], []⟩, fxSAG) := by rfl

set_option maxRecDepth 20000 in
theorem fx_inputs : PSBT.readInputs 2 ⟨some fixtureTx, [], [], []⟩ fxSAG
    = .ok (⟨some fixtureTx, [fixtureInp1, fixtureInp2], [], []⟩, fxSO1) := by rfl

set_option maxRecDepth 20000 in
theorem fx_outputs :
    PSBT.readOutputs 2 ⟨some fixtureTx, [fixtureInp1, fixtureInp2], [], []⟩ fxSO1
      = .ok (fixturePSBT, []) := by rfl

theorem fx_deserialize : PSBT.deserialize PSBT.empty fixtureBytes = .ok fixturePSBT := by
  rw [PSBT.deserialize,
    if_neg (show ¬ (fixtureBytes.take 5 ≠ PSBT_MAGIC_BYTES) from by
      rw [fx_take5]; exact fun hne => hne rfl)]
  simp only [fx_drop5]
  rw [show fxS5.length + 1 = 699 from by rw [fx_s5_len]]
  rw [fx_global]
  dsimp only
  rw [show List.length fixtureTx.vin = 2 from rfl, fx_inputs]
  dsimp only
  rw [show List.length fixtureTx.vout = 2 from rfl, fx_outputs]

theorem fx_deserializeHex :
    PSBT.deserializeHex PSBT.empty fixtureHexChars = .ok fixturePSBT := by
  rw [PSBT.deserializeHex, fx_decode]
  exact fx_deserialize

set_option maxRecDepth 20000 in
theorem fx_serialize : PSBT.serialize fixturePSBT = .ok fixtureBytes := by rfl

theorem fx_serializeHex : PSBT.serializeHex fixturePSBT = .ok fixtureHexChars := by
  rw [PSBT.serializeHex, fx_serialize]
  dsimp only [bind_ok_eq]
  rw [fx_encode]
  rfl

/-! ## Claims C10, C2, C6 -/

instance ctxinWFDec (i : CTxIn) : Decidable i.WF := by
  unfold CTxIn.WF IsBytes
  exact inferInstance

instance ctxoutWFDec (o : CTxOut) : Decidable o.WF := by
  unfold CTxOut.WF IsBytes
  exact inferInstance

instance ctxWFDec (tx : CMutableTransaction) : Decidable tx.WF := by
  unfold CMutableTransaction.WF
  exact inferInstance

/-- C10: on any input whose first five bytes are not the PSBT magic,
`PSBT.deserialize` raises `PSBTMagicBytesError` and the receiver keeps
its prior state entirely, because the reset to defaults happens only
after the magic check. -/
theorem c10_bad_magic_state_unchanged (st : PSBT) (src : Bytes)
    (h : src.take 5 ≠ PSBT_MAGIC_BYTES) :
    PSBT.deserialize st src = .error (.psbtMagic "Invalid magic bytes", st) := by
  rw [PSBT.deserialize, if_pos h]

/-- C10 witness: a receiver holding prior data is returned untouched on
a magic-bytes failure. -/
theorem c10_bad_magic_witness :
    PSBT.deserialize ⟨none, [PSBTInput.empty], [], [([1], [2])]⟩ [0x00, 0x73] =
      .error (.psbtMagic "Invalid magic bytes",
        ⟨none, [PSBTInput.empty], [], [([1], [2])]⟩) :=
  c10_bad_magic_state_unchanged _ _ (by decide)

/-- C2 counterexample: a syntactically complete global map whose
transaction announces one input, followed by no input maps, makes
`PSBT.deserialize` raise while the receiver keeps the unsigned
transaction populated by the failed parse. -/
theorem c2_partial_state_counterexample :
    PSBT.deserialize PSBT.empty
        ([0x70, 0x73, 0x62, 0x74, 0xff] ++ [0x01, 0x00]
          ++ [51, 0x02, 0x00, 0x00, 0x00,
              0x01, 0, 0, 0, 0, 0, 0, 0, 0, 0, 0, 0, 0, 0, 0, 0, 0,
              0, 0, 0, 0, 0, 0, 0, 0, 0, 0, 0, 0, 0, 0, 0, 0,
              0x00, 0x00, 0x00, 0x00,
              0x00,
              0xff, 0xff, 0xff, 0xff,
              0x00,
              0x00, 0x00, 0x00, 0x00]
          ++ [0x00])
      = .error (.psbt "Inputs provided does not match the number of inputs in transaction.",
          ⟨some ⟨[⟨⟨⟨List.replicate 32 0⟩, 0⟩, [], 0xffffffff⟩], [], 2, 0⟩, [], [], []⟩)
    ∧ (⟨some ⟨[⟨⟨⟨List.replicate 32 0⟩, 0⟩, [], 0xffffffff⟩], [], 2, 0⟩, [], [], []⟩
        : PSBT).tx ≠ none := by
  constructor
  · decide
  · decide

/-- C2 (amended): once the magic check passes, `PSBT.deserialize` resets
the receiver to its default state before populating it, so the outcome —
including the receiver state carried by any raise — is entirely
independent of the receiver's prior state; nothing of the prior state
survives the call.  (A raise after the magic check can still leave the
receiver holding data from the failed parse, and a magic-bytes failure
leaves the prior state untouched.) -/
theorem c2_reset_state_independent (st st' : PSBT) (src : Bytes)
    (h : src.take 5 = PSBT_MAGIC_BYTES) :
    PSBT.deserialize st src = PSBT.deserialize st' src := by
  rw [PSBT.deserialize, PSBT.deserialize,
    if_neg (show ¬ (src.take 5 ≠ PSBT_MAGIC_BYTES) from fun hne => hne h),
    if_neg (show ¬ (src.take 5 ≠ PSBT_MAGIC_BYTES) from fun hne => hne h)]

/-- C2 witness: two distinct prior states yield the same result on a
magic-prefixed input. -/
theorem c2_reset_witness :
    PSBT.deserialize ⟨none, [PSBTInput.empty], [], [([1], [2])]⟩
        [0x70, 0x73, 0x62, 0x74, 0xff]
      = PSBT.deserialize PSBT.empty [0x70, 0x73, 0x62, 0x74, 0xff] :=
  c2_reset_state_independent _ _ _ (by decide)

/-- C6: an unsigned transaction carrying any non-empty input unlocking
script is rejected with a serialization error at parse time (after the
global type-0x00 value is decoded) and at serialize time (before the
transaction is written); serialization also fails when no unsigned
transaction is present. -/
theorem c6_unsigned_tx_scriptsig_rejected :
    (∀ (t : CMutableTransaction) (rest : Bytes) (st : PSBT),
      t.WF → t.serialize.length < 2 ^ 64 →
      (∃ i ∈ t.vin, i.script_sig ≠ []) →
      PSBT.deserialize st (PSBT_MAGIC_BYTES ++ write_string [PSBT_GLOBAL_UNSIGNED_TX]
          ++ write_string t.serialize ++ rest)
        = .error (.psbt "Unsigned tx has a non-empty empty scriptSig at input",
            ⟨some t, [], [], []⟩))
    ∧ (∀ (p : PSBT) (t : CMutableTransaction), p.tx = some t →
        (∃ i ∈ t.vin, i.script_sig ≠ []) →
        PSBT.serialize p
          = .error (.psbt "Unsigned transaction provided for serialization has non-empty scriptSig(s)"))
    ∧ (∀ p : PSBT, p.tx = none →
        PSBT.serialize p
          = .error (.psbt "No unsigned transaction was provided for serialization")) := by
  refine ⟨?_, ?_, ?_⟩
  · intro t rest st hWF hlen hex
    have hany : t.vin.any (fun inp => ¬ inp.script_sig.isEmpty) = true := by
      rw [List.any_eq_true]
      obtain ⟨i, hi, hne⟩ := hex
      exact ⟨i, hi, by simpa using hne⟩
    rw [PSBT.deserialize]
    simp only [List.append_assoc]
    rw [if_neg (show ¬ ((PSBT_MAGIC_BYTES ++ (write_string [PSBT_GLOBAL_UNSIGNED_TX]
        ++ (write_string t.serialize ++ rest))).take 5 ≠ PSBT_MAGIC_BYTES) from by
      rw [take_append_of_length _ _ (show PSBT_MAGIC_BYTES.length = 5 from rfl)]
      exact fun hne => hne rfl)]
    rw [drop_append_of_length _ _ (show PSBT_MAGIC_BYTES.length = 5 from rfl)]
    rw [PSBT.globalLoop]
    rw [if_pos (show can_read_more (write_string [PSBT_GLOBAL_UNSIGNED_TX]
        ++ (write_string t.serialize ++ rest)) = true from rfl)]
    rw [read_bytes_var_write true [PSBT_GLOBAL_UNSIGNED_TX] _ (by decide)]
    dsimp only
    rw [if_neg (show ¬ ([PSBT_GLOBAL_UNSIGNED_TX].length = 0) by decide),
      if_pos (show [PSBT_GLOBAL_UNSIGNED_TX].headI = PSBT_GLOBAL_UNSIGNED_TX from rfl),
      if_neg (show ¬ ([PSBT_GLOBAL_UNSIGNED_TX].length ≠ 1) by decide),
      if_neg (show ¬ (PSBT.empty.tx.isSome = true) by decide)]
    rw [read_bytes_var_write true t.serialize rest hlen]
    dsimp only
    rw [show CMutableTransaction.deserialize t.serialize = Except.ok (t, []) from by
      rw [show t.serialize = t.serialize ++ [] from (List.append_nil _).symm,
        cmtx_roundtrip t [] hWF]]
    dsimp only
    rw [if_neg (show ¬ (can_read_more ([] : Bytes) = true) by decide), if_pos hany]
    rfl
  · intro p t hp hex
    have hany : t.vin.any (fun inp => ¬ inp.script_sig.isEmpty) = true := by
      rw [List.any_eq_true]
      obtain ⟨i, hi, hne⟩ := hex
      exact ⟨i, hi, by simpa using hne⟩
    rw [PSBT.serialize, hp]
    dsimp only
    rw [if_pos hany]
  · intro p hp
    rw [PSBT.serialize, hp]

/-- C6 witness: a one-input transaction whose input carries the script
[0x51] is rejected at parse time. -/
theorem c6_witness :
    PSBT.deserialize PSBT.empty (PSBT_MAGIC_BYTES ++ write_string [PSBT_GLOBAL_UNSIGNED_TX]
        ++ write_string (CMutableTransaction.serialize
          ⟨[⟨⟨⟨List.replicate 32 0⟩, 0⟩, [0x51], 0xffffffff⟩], [], 2, 0⟩) ++ [])
      = .error (.psbt "Unsigned tx has a non-empty empty scriptSig at input",
          ⟨some ⟨[⟨⟨⟨List.replicate 32 0⟩, 0⟩, [0x51], 0xffffffff⟩], [], 2, 0⟩, [], [], []⟩) :=
  c6_unsigned_tx_scriptsig_rejected.1
    ⟨[⟨⟨⟨List.replicate 32 0⟩, 0⟩, [0x51], 0xffffffff⟩], [], 2, 0⟩ [] PSBT.empty
    (by decide)
    (by decide) ⟨⟨⟨⟨List.replicate 32 0⟩, 0⟩, [0x51], 0xffffffff⟩, by decide, by decide⟩

/-- C7: when an input's final unlocking script is non-empty,
`PSBTInput.serialize` writes the UTXO (if present), then only the
type-0x07 final-script field, then the unknown entries and the
separator — none of the partial-signature, sighash-type, redeem-script
or HD-keypath fields are written, whatever their in-memory values (the
output is independent of them); when the final script is empty, the
pre-signing fields are written in the order partial signatures
(insertion order), sighash type (if nonzero), redeem script (if
non-empty), HD keypaths (insertion order), followed by the unknown
entries and the separator. -/
theorem c7_finalization_precedence :
    (∀ inp : PSBTInput, inp.final_script_sig ≠ [] →
      (PSBTInput.serialize inp = .ok (
        (match inp.utxo with
         | none => []
         | some u => write_string [PSBT_IN_UTXO] ++ write_string u.serialize)
        ++ write_string [PSBT_IN_SCRIPTSIG] ++ write_string inp.final_script_sig
        ++ serialize_unknown inp.unknown ++ write_string PSBT_SEPARATOR))
      ∧ ∀ ps sh rs hd,
        PSBTInput.serialize ⟨rs, hd, inp.unknown, inp.utxo, inp.final_script_sig, ps, sh⟩
          = PSBTInput.serialize inp)
    ∧ (∀ inp : PSBTInput, inp.final_script_sig = [] →
      PSBTInput.serialize inp =
        (serialize_hd_keypaths inp.hd_keypaths PSBT_IN_BIP32_DERIVATION).map
          (fun hdPart =>
            (match inp.utxo with
             | none => []
             | some u => write_string [PSBT_IN_UTXO] ++ write_string u.serialize)
            ++ (inp.partial_sigs.map (fun kv =>
                write_string (PSBT_IN_PARTIAL_SIG :: kv.2.1) ++ write_string kv.2.2)).flatten
            ++ (if inp.sighash_type ≠ 0 then
                  write_string [PSBT_IN_SIGHASH] ++ write_string (write_uint32 inp.sighash_type)
                else [])
            ++ (if inp.redeem_script ≠ [] then
                  write_string [PSBT_IN_REDEEMSCRIPT] ++ write_string inp.redeem_script
                else [])
            ++ hdPart ++ serialize_unknown inp.unknown ++ write_string PSBT_SEPARATOR)) := by
  constructor
  · intro inp h
    constructor
    · rw [PSBTInput.serialize, if_neg h]
      rfl
    · intro ps sh rs hd
      rw [PSBTInput.serialize, PSBTInput.serialize]
      rw [if_neg (show ¬ ((⟨rs, hd, inp.unknown, inp.utxo, inp.final_script_sig, ps, sh⟩
        : PSBTInput).final_script_sig = []) from h), if_neg h]
  · intro inp h
    rw [PSBTInput.serialize, if_pos h]
    cases hhd : serialize_hd_keypaths inp.hd_keypaths PSBT_IN_BIP32_DERIVATION with
    | error e => rfl
    | ok hdPart => rfl

/-- C7 witness: a fully populated input with a non-empty final script
serializes to the UTXO, the final script, the unknown entries and the
separator only. -/
theorem c7_witness :
    PSBTInput.serialize
        ⟨[0xAA], [([0x02] ++ List.replicate 32 0x11, ⟨[1, 2, 3, 4], [7]⟩)], [([0x09], [0x08])],
          some ⟨5, [0x51], none⟩, [0x52], [([0x01], ([0x02], [0x30]))], 0x41⟩
      = .ok (write_string [PSBT_IN_UTXO]
          ++ write_string (CTxOut.serialize ⟨5, [0x51], none⟩)
          ++ write_string [PSBT_IN_SCRIPTSIG] ++ write_string [0x52]
          ++ serialize_unknown [([0x09], [0x08])] ++ write_string PSBT_SEPARATOR) :=
  (c7_finalization_precedence.1
    ⟨[0xAA], [([0x02] ++ List.replicate 32 0x11, ⟨[1, 2, 3, 4], [7]⟩)], [([0x09], [0x08])],
      some ⟨5, [0x51], none⟩, [0x52], [([0x01], ([0x02], [0x30]))], 0x41⟩
    (by decide)).1

theorem read_compact_size_zero (rest : Bytes) :
    read_compact_size true (0 :: rest) = .ok (0, rest) := rfl

theorem read_bytes_var_sep (rest : Bytes) :
    read_bytes_var true (0 :: rest) = .ok ([], rest) := by
  unfold read_bytes_var
  rw [read_compact_size_zero]
  dsimp only [bind_ok_eq]
  rw [if_neg (show ¬ (true = true ∧ rest.length < 0) from by
    rintro ⟨-, hlt⟩; exact Nat.not_lt_zero _ hlt)]
  rfl

theorem readInputs_zero (self : PSBT) (s : Bytes) :
    PSBT.readInputs 0 self s = .ok (self, s) := rfl

theorem readInputs_exhausted (n : Nat) (self : PSBT) :
    PSBT.readInputs (n + 1) self []
      = .error (.psbt "Inputs provided does not match the number of inputs in transaction.",
          self) := rfl

theorem readOutputs_exhausted (n : Nat) (self : PSBT) :
    PSBT.readOutputs (n + 1) self []
      = .error (.psbt "Outputs provided does not match the number of inputs in transaction.",
          self) := rfl

theorem globalLoop_sep (fuel : Nat) (self : PSBT) (rest : Bytes) :
    PSBT.globalLoop (fuel + 1) self (0 :: rest) = .ok (self, rest) := by
  unfold PSBT.globalLoop
  rw [if_pos (show can_read_more (0 :: rest) = true from rfl), read_bytes_var_sep]
  rfl

set_option maxHeartbeats 2000000 in
/-- C5 (amended): `PSBT.serialize` raises a serialization error whenever
the number of stored inputs differs from the unsigned transaction's
input count or the stored outputs differ from its output count (it never
truncates or pads); `PSBT.deserialize` fails with a serialization error
when the container ends before the required number of input or output
maps; surplus bytes or maps after the expected output maps are ignored
without error. -/
theorem c5_count_invariants :
    (∀ (p : PSBT) (t : CMutableTransaction), p.tx = some t →
      (p.inputs.length ≠ t.vin.length ∨ p.outputs.length ≠ t.vout.length) →
      (PSBT.serialize p).isOk = false)
    ∧ (∀ (t : CMutableTransaction) (st : PSBT),
        t.WF → t.serialize.length < 2 ^ 64 →
        (∀ i ∈ t.vin, i.script_sig = []) → t.vin ≠ [] →
        PSBT.deserialize st (PSBT_MAGIC_BYTES ++ write_string [PSBT_GLOBAL_UNSIGNED_TX]
            ++ write_string t.serialize ++ [0])
          = .error (.psbt "Inputs provided does not match the number of inputs in transaction.",
              ⟨some t, [], [], []⟩))
    ∧ (∀ (t : CMutableTransaction) (st : PSBT),
        t.WF → t.serialize.length < 2 ^ 64 →
        t.vin = [] → t.vout ≠ [] →
        PSBT.deserialize st (PSBT_MAGIC_BYTES ++ write_string [PSBT_GLOBAL_UNSIGNED_TX]
            ++ write_string t.serialize ++ [0])
          = .error (.psbt "Outputs provided does not match the number of inputs in transaction.",
              ⟨some t, [], [], []⟩)) := by
  refine ⟨?_, ?_, ?_⟩
  · intro p t hp hne
    rw [PSBT.serialize, hp]
    dsimp only
    by_cases hss : (t.vin.any fun inp => ¬ inp.script_sig.isEmpty) = true
    · rw [if_pos hss]
      rfl
    · rw [if_neg hss]
      by_cases hin : p.inputs.length ≠ t.vin.length
      · rw [if_pos hin]
        rfl
      · rw [if_neg hin]
        have hout : p.outputs.length ≠ t.vout.length := by tauto
        cases hm : p.inputs.mapM PSBTInput.serialize with
        | error e => rfl
        | ok parts =>
            dsimp only [bind_ok_eq]
            rw [if_pos hout]
            rfl
  · intro t st hWF hlen hempty hne
    have hany : (t.vin.any fun inp => ¬ inp.script_sig.isEmpty) = false := by
      rw [List.any_eq_false]
      intro i hi
      simp [hempty i hi]
    rw [PSBT.deserialize]
    simp only [List.append_assoc]
    rw [if_neg (show ¬ ((PSBT_MAGIC_BYTES ++ (write_string [PSBT_GLOBAL_UNSIGNED_TX]
        ++ (write_string t.serialize ++ ([0] : Bytes)))).take 5 ≠ PSBT_MAGIC_BYTES) from by
      rw [take_append_of_length _ _ (show PSBT_MAGIC_BYTES.length = 5 from rfl)]
      exact fun hne2 => hne2 rfl)]
    rw [drop_append_of_length _ _ (show PSBT_MAGIC_BYTES.length = 5 from rfl)]
    rw [PSBT.globalLoop]
    rw [if_pos (show can_read_more (write_string [PSBT_GLOBAL_UNSIGNED_TX]
        ++ (write_string t.serialize ++ ([0] : Bytes))) = true from rfl)]
    rw [read_bytes_var_write true [PSBT_GLOBAL_UNSIGNED_TX] _ (by decide)]
    dsimp only
    rw [if_neg (show ¬ (List.length [PSBT_GLOBAL_UNSIGNED_TX] = 0) by decide),
      if_pos (show List.headI [PSBT_GLOBAL_UNSIGNED_TX] = PSBT_GLOBAL_UNSIGNED_TX from rfl),
      if_neg (show ¬ (List.length [PSBT_GLOBAL_UNSIGNED_TX] ≠ 1) by decide),
      if_neg (show ¬ (PSBT.empty.tx.isSome = true) by decide)]
    rw [read_bytes_var_write true t.serialize ([0] : Bytes) hlen]
    dsimp only
    rw [show CMutableTransaction.deserialize t.serialize = Except.ok (t, []) from by
      rw [show t.serialize = t.serialize ++ [] from (List.append_nil _).symm,
        cmtx_roundtrip t [] hWF]]
    dsimp only
    rw [if_neg (show ¬ (can_read_more ([] : Bytes) = true) by decide),
      if_neg (show ¬ ((t.vin.any fun inp => ¬ inp.script_sig.isEmpty) = true) from by
        rw [hany]; exact fun hc => Bool.false_ne_true hc)]
    rw [show write_string [PSBT_GLOBAL_UNSIGNED_TX] ++ (write_string t.serialize ++ ([0] : Bytes))
      = 1 :: 0 :: (write_string t.serialize ++ ([0] : Bytes)) from rfl]
    rw [List.length_cons, List.length_cons]
    rw [globalLoop_sep]
    dsimp only
    obtain ⟨i0, l0, hv⟩ : ∃ i0 l0, t.vin = i0 :: l0 := by
      cases hvv : t.vin with
      | nil => exact absurd hvv hne
      | cons a l => exact ⟨a, l, rfl⟩
    rw [hv, show (i0 :: l0).length = l0.length + 1 from rfl, readInputs_exhausted]
    rfl
  · intro t st hWF hlen hvin hne
    have hany : (t.vin.any fun inp => ¬ inp.script_sig.isEmpty) = false := by
      rw [hvin]
      rfl
    rw [PSBT.deserialize]
    simp only [List.append_assoc]
    rw [if_neg (show ¬ ((PSBT_MAGIC_BYTES ++ (write_string [PSBT_GLOBAL_UNSIGNED_TX]
        ++ (write_string t.serialize ++ ([0] : Bytes)))).take 5 ≠ PSBT_MAGIC_BYTES) from by
      rw [take_append_of_length _ _ (show PSBT_MAGIC_BYTES.length = 5 from rfl)]
      exact fun hne2 => hne2 rfl)]
    rw [drop_append_of_length _ _ (show PSBT_MAGIC_BYTES.length = 5 from rfl)]
    rw [PSBT.globalLoop]
    rw [if_pos (show can_read_more (write_string [PSBT_GLOBAL_UNSIGNED_TX]
        ++ (write_string t.serialize ++ ([0] : Bytes))) = true from rfl)]
    rw [read_bytes_var_write true [PSBT_GLOBAL_UNSIGNED_TX] _ (by decide)]
    dsimp only
    rw [if_neg (show ¬ (List.length [PSBT_GLOBAL_UNSIGNED_TX] = 0) by decide),
      if_pos (show List.headI [PSBT_GLOBAL_UNSIGNED_TX] = PSBT_GLOBAL_UNSIGNED_TX from rfl),
      if_neg (show ¬ (List.length [PSBT_GLOBAL_UNSIGNED_TX] ≠ 1) by decide),
      if_neg (show ¬ (PSBT.empty.tx.isSome = true) by decide)]
    rw [read_bytes_var_write true t.serialize ([0] : Bytes) hlen]
    dsimp only
    rw [show CMutableTransaction.deserialize t.serialize = Except.ok (t, []) from by
      rw [show t.serialize = t.serialize ++ [] from (List.append_nil _).symm,
        cmtx_roundtrip t [] hWF]]
    dsimp only
    rw [if_neg (show ¬ (can_read_more ([] : Bytes) = true) by decide),
      if_neg (show ¬ ((t.vin.any fun inp => ¬ inp.script_sig.isEmpty) = true) from by
        rw [hany]; exact fun hc => Bool.false_ne_true hc)]
    rw [show write_string [PSBT_GLOBAL_UNSIGNED_TX] ++ (write_string t.serialize ++ ([0] : Bytes))
      = 1 :: 0 :: (write_string t.serialize ++ ([0] : Bytes)) from rfl]
    rw [List.length_cons, List.length_cons]
    rw [globalLoop_sep]
    dsimp only
    rw [hvin, show List.length ([] : List CTxIn) = 0 from rfl, readInputs_zero]
    dsimp only
    obtain ⟨o0, l0, hv⟩ : ∃ o0 l0, t.vout = o0 :: l0 := by
      cases hvv : t.vout with
      | nil => exact absurd hvv hne
      | cons a l => exact ⟨a, l, rfl⟩
    rw [hv, show (o0 :: l0).length = l0.length + 1 from rfl, readOutputs_exhausted]
    rfl

/-- C5 counterexample: a container holding one surplus (empty) map
beyond the transaction's zero input and output counts deserializes
without error — a surplus of encoded maps is ignored, not rejected. -/
theorem c5_surplus_map_counterexample :
    PSBT.deserialize PSBT.empty
        ([0x70, 0x73, 0x62, 0x74, 0xff] ++ [0x01, 0x00]
          ++ [10, 0x02, 0x00, 0x00, 0x00, 0x00, 0x00, 0x00, 0x00, 0x00, 0x00]
          ++ [0x00] ++ [0x00])
      = .ok ⟨some ⟨[], [], 2, 0⟩, [], [], []⟩ := by decide

/-- C5 witness: a PSBT holding a one-input transaction but no stored
inputs fails to serialize, and a one-input container that ends before
its input map fails to deserialize. -/
theorem c5_witness :
    (PSBT.serialize ⟨some ⟨[⟨⟨⟨List.replicate 32 0⟩, 0⟩, [], 0xffffffff⟩], [], 2, 0⟩,
        [], [], []⟩).isOk = false
    ∧ PSBT.deserialize PSBT.empty (PSBT_MAGIC_BYTES ++ write_string [PSBT_GLOBAL_UNSIGNED_TX]
          ++ write_string (CMutableTransaction.serialize
            ⟨[⟨⟨⟨List.replicate 32 0⟩, 0⟩, [], 0xffffffff⟩], [], 2, 0⟩) ++ [0])
        = .error (.psbt "Inputs provided does not match the number of inputs in transaction.",
            ⟨some ⟨[⟨⟨⟨List.replicate 32 0⟩, 0⟩, [], 0xffffffff⟩], [], 2, 0⟩, [], [], []⟩) :=
  ⟨c5_count_invariants.1 _ _ rfl (Or.inl (by decide)),
    c5_count_invariants.2.1 ⟨[⟨⟨⟨List.replicate 32 0⟩, 0⟩, [], 0xffffffff⟩], [], 2, 0⟩
      PSBT.empty (by decide) (by decide) (by decide) (by decide)⟩


theorem read_bytes_var_one (b : Nat) (rest : Bytes) :
    read_bytes_var true (1 :: b :: rest) = .ok ([b], rest) := by
  unfold read_bytes_var
  rw [show read_compact_size true (1 :: b :: rest) = .ok (1, b :: rest) from rfl]
  dsimp only [bind_ok_eq]
  rw [if_neg (show ¬ (true = true ∧ List.length (b :: rest) < 1) from by
    rintro ⟨-, hlt⟩
    simp only [List.length_cons] at hlt
    omega)]
  rfl

theorem ser_to_point_ok_length (pk : Bytes) (h : ser_to_point_ok pk = true) :
    pk.length = 33 ∨ pk.length = 65 := by
  simp only [ser_to_point_ok, Bool.or_eq_true, Bool.and_eq_true, beq_iff_eq] at h
  rcases h with ⟨h1, -⟩ | ⟨h1, -⟩
  · exact Or.inl h1
  · exact Or.inr h1

theorem parse_pubkey_ok (t : Nat) (pk : Bytes) (h : ser_to_point_ok pk = true) :
    parse_pubkey (t :: pk) = .ok pk := by
  unfold parse_pubkey
  rw [if_neg (show ¬ (List.length (t :: pk) ≠ 66 ∧ List.length (t :: pk) ≠ 34) from by
    rintro ⟨ha, hb⟩
    rcases ser_to_point_ok_length pk h with h1 | h1
    · exact hb (by simp [List.length_cons, h1])
    · exact ha (by simp [List.length_cons, h1]))]
  dsimp only
  rw [List.drop_one, List.tail_cons]
  unfold validate_pubkey
  rw [if_pos h]
  rfl

theorem deserialize_hd_keypath_dup (s : Bytes) (t : Nat) (pk : Bytes)
    (hd : List (Bytes × KeyOriginInfo)) (hpk : ser_to_point_ok pk = true)
    (hdup : (hd.lookup pk).isSome = true) :
    deserialize_hd_keypath s (t :: pk) hd
      = .error (.psbt "Duplicate Key, pubkey derivation path already provided") := by
  unfold deserialize_hd_keypath
  rw [parse_pubkey_ok _ _ hpk]
  dsimp only [bind_ok_eq]
  rw [if_pos hdup]

theorem deserialize_unknown_dup (s key : Bytes) (unk : List (Bytes × Bytes))
    (h : (unk.lookup key).isSome = true) :
    deserialize_unknown s key unk
      = .error (.psbt "Duplicate Key, key for unknown value already provided") := by
  unfold deserialize_unknown
  rw [if_pos h]

theorem write_compact_size_ne_nil (n : Nat) : write_compact_size n ≠ [] := by
  unfold write_compact_size
  split_ifs <;> simp

theorem can_read_more_write_string (b rest : Bytes) :
    can_read_more (write_string b ++ rest) = true := by
  unfold can_read_more write_string
  rw [List.append_assoc]
  cases hw : write_compact_size b.length with
  | nil => exact absurd hw (write_compact_size_ne_nil _)
  | cons a l => rfl

/-- C4 (amended): mid-parse duplicate rejection as the code implements
it.  A second entry for a typed field is rejected with a serialization
error whenever the already-stored first value is distinguishable from
the field's cleared default: a stored UTXO, a stored partial signature
under the same pubkey digest, a nonzero stored sighash type, a non-empty
stored redeem script, a stored BIP-32 derivation under the same pubkey,
a non-empty stored final unlocking script, a stored unknown key, a
stored global unsigned transaction, and likewise for output maps.
(When the first stored value equals the default — empty script or zero
sighash — the check does not fire; see the counterexample.) -/
theorem c4_duplicate_rejection :
    (∀ (fuel : Nat) (self : PSBTInput) (rest : Bytes),
      self.utxo.isSome = true →
      PSBTInput.deserializeLoop (fuel + 1) self (1 :: PSBT_IN_UTXO :: rest)
        = .error (.psbt "Duplicate Key, input utxo already provided"))
    ∧ (∀ (fuel : Nat) (self : PSBTInput) (pk rest : Bytes),
        ser_to_point_ok pk = true →
        (PSBT_IN_PARTIAL_SIG :: pk).length < 2 ^ 64 →
        (self.partial_sigs.lookup (hash_160 pk)).isSome = true →
        PSBTInput.deserializeLoop (fuel + 1) self
            (write_string (PSBT_IN_PARTIAL_SIG :: pk) ++ rest)
          = .error (.psbt "Duplicate Key, input partial signature for pubkey already provided"))
    ∧ (∀ (fuel : Nat) (self : PSBTInput) (rest : Bytes),
        self.sighash_type ≠ 0 →
        PSBTInput.deserializeLoop (fuel + 1) self (1 :: PSBT_IN_SIGHASH :: rest)
          = .error (.psbt "Duplicate Key, input sighash type already provided"))
    ∧ (∀ (fuel : Nat) (self : PSBTInput) (rest : Bytes),
        self.redeem_script ≠ [] →
        PSBTInput.deserializeLoop (fuel + 1) self (1 :: PSBT_IN_REDEEMSCRIPT :: rest)
          = .error (.psbt "Duplicate Key, input redeemScript already provided"))
    ∧ (∀ (fuel : Nat) (self : PSBTInput) (pk rest : Bytes),
        ser_to_point_ok pk = true →
        (PSBT_IN_BIP32_DERIVATION :: pk).length < 2 ^ 64 →
        (self.hd_keypaths.lookup pk).isSome = true →
        PSBTInput.deserializeLoop (fuel + 1) self
            (write_string (PSBT_IN_BIP32_DERIVATION :: pk) ++ rest)
          = .error (.psbt "Duplicate Key, pubkey derivation path already provided"))
    ∧ (∀ (fuel : Nat) (self : PSBTInput) (rest : Bytes),
        self.final_script_sig ≠ [] →
        PSBTInput.deserializeLoop (fuel + 1) self (1 :: PSBT_IN_SCRIPTSIG :: rest)
          = .error (.psbt "Duplicate Key, input final scriptSig already provided"))
    ∧ (∀ (fuel : Nat) (self : PSBTInput) (k : Nat) (kt rest : Bytes),
        k ≠ PSBT_IN_UTXO → k ≠ PSBT_IN_PARTIAL_SIG → k ≠ PSBT_IN_SIGHASH →
        k ≠ PSBT_IN_REDEEMSCRIPT → k ≠ PSBT_IN_BIP32_DERIVATION →
        k ≠ PSBT_IN_SCRIPTSIG →
        (k :: kt).length < 2 ^ 64 →
        (self.unknown.lookup (k :: kt)).isSome = true →
        PSBTInput.deserializeLoop (fuel + 1) self (write_string (k :: kt) ++ rest)
          = .error (.psbt "Duplicate Key, key for unknown value already provided"))
    ∧ (∀ (fuel : Nat) (self : PSBT) (rest : Bytes),
        self.tx.isSome = true →
        PSBT.globalLoop (fuel + 1) self (1 :: PSBT_GLOBAL_UNSIGNED_TX :: rest)
          = .error (.psbt "Duplicate Key, unsigned tx already provided", self))
    ∧ (∀ (fuel : Nat) (self : PSBTOutput) (rest : Bytes),
        self.redeem_script ≠ [] →
        PSBTOutput.deserializeLoop (fuel + 1) self (1 :: PSBT_OUT_REDEEMSCRIPT :: rest)
          = .error (.psbt "Duplicate Key, output redeemScript already provided"))
    ∧ (∀ (fuel : Nat) (self : PSBTOutput) (pk rest : Bytes),
        ser_to_point_ok pk = true →
        (PSBT_OUT_BIP32_DERIVATION :: pk).length < 2 ^ 64 →
        (self.hd_keypaths.lookup pk).isSome = true →
        PSBTOutput.deserializeLoop (fuel + 1) self
            (write_string (PSBT_OUT_BIP32_DERIVATION :: pk) ++ rest)
          = .error (.psbt "Duplicate Key, pubkey derivation path already provided")) := by
  refine ⟨?_, ?_, ?_, ?_, ?_, ?_, ?_, ?_, ?_, ?_⟩
  · intro fuel self rest h
    simp only [PSBTInput.deserializeLoop]
    rw [if_pos (show can_read_more (1 :: PSBT_IN_UTXO :: rest) = true from rfl)]
    rw [read_bytes_var_one]
    dsimp only [bind_ok_eq]
    rw [if_neg (show ¬ (List.length [PSBT_IN_UTXO] = 0) from by simp)]
    rw [List.headI_cons]
    rw [if_pos (show PSBT_IN_UTXO = PSBT_IN_UTXO from rfl)]
    rw [if_pos h]
  · intro fuel self pk rest hpk hkl hdup
    simp only [PSBTInput.deserializeLoop]
    rw [if_pos (can_read_more_write_string _ _)]
    rw [read_bytes_var_write true (PSBT_IN_PARTIAL_SIG :: pk) rest hkl]
    dsimp only [bind_ok_eq]
    rw [if_neg (show ¬ (List.length (PSBT_IN_PARTIAL_SIG :: pk) = 0) from by simp)]
    rw [List.headI_cons]
    rw [if_neg (show ¬ (PSBT_IN_PARTIAL_SIG = PSBT_IN_UTXO) from by decide)]
    rw [if_pos (show PSBT_IN_PARTIAL_SIG = PSBT_IN_PARTIAL_SIG from rfl)]
    rw [parse_pubkey_ok _ _ hpk]
    dsimp only [bind_ok_eq]
    rw [if_pos hdup]
  · intro fuel self rest h
    simp only [PSBTInput.deserializeLoop]
    rw [if_pos (show can_read_more (1 :: PSBT_IN_SIGHASH :: rest) = true from rfl)]
    rw [read_bytes_var_one]
    dsimp only [bind_ok_eq]
    rw [if_neg (show ¬ (List.length [PSBT_IN_SIGHASH] = 0) from by simp)]
    rw [List.headI_cons]
    rw [if_neg (show ¬ (PSBT_IN_SIGHASH = PSBT_IN_UTXO) from by decide)]
    rw [if_neg (show ¬ (PSBT_IN_SIGHASH = PSBT_IN_PARTIAL_SIG) from by decide)]
    rw [if_pos (show PSBT_IN_SIGHASH = PSBT_IN_SIGHASH from rfl)]
    rw [if_pos h]
  · intro fuel self rest h
    simp only [PSBTInput.deserializeLoop]
    rw [if_pos (show can_read_more (1 :: PSBT_IN_REDEEMSCRIPT :: rest) = true from rfl)]
    rw [read_bytes_var_one]
    dsimp only [bind_ok_eq]
    rw [if_neg (show ¬ (List.length [PSBT_IN_REDEEMSCRIPT] = 0) from by simp)]
    rw [List.headI_cons]
    rw [if_neg (show ¬ (PSBT_IN_REDEEMSCRIPT = PSBT_IN_UTXO) from by decide)]
    rw [if_neg (show ¬ (PSBT_IN_REDEEMSCRIPT = PSBT_IN_PARTIAL_SIG) from by decide)]
    rw [if_neg (show ¬ (PSBT_IN_REDEEMSCRIPT = PSBT_IN_SIGHASH) from by decide)]
    rw [if_pos (show PSBT_IN_REDEEMSCRIPT = PSBT_IN_REDEEMSCRIPT from rfl)]
    rw [if_pos h]
  · intro fuel self pk rest hpk hkl hdup
    simp only [PSBTInput.deserializeLoop]
    rw [if_pos (can_read_more_write_string _ _)]
    rw [read_bytes_var_write true (PSBT_IN_BIP32_DERIVATION :: pk) rest hkl]
    dsimp only [bind_ok_eq]
    rw [if_neg (show ¬ (List.length (PSBT_IN_BIP32_DERIVATION :: pk) = 0) from by simp)]
    rw [List.headI_cons]
    rw [if_neg (show ¬ (PSBT_IN_BIP32_DERIVATION = PSBT_IN_UTXO) from by decide)]
    rw [if_neg (show ¬ (PSBT_IN_BIP32_DERIVATION = PSBT_IN_PARTIAL_SIG) from by decide)]
    rw [if_neg (show ¬ (PSBT_IN_BIP32_DERIVATION = PSBT_IN_SIGHASH) from by decide)]
    rw [if_neg (show ¬ (PSBT_IN_BIP32_DERIVATION = PSBT_IN_REDEEMSCRIPT) from by decide)]
    rw [if_pos (show PSBT_IN_BIP32_DERIVATION = PSBT_IN_BIP32_DERIVATION from rfl)]
    rw [deserialize_hd_keypath_dup _ _ _ _ hpk hdup]
    dsimp only [bind_error_eq]
  · intro fuel self rest h
    simp only [PSBTInput.deserializeLoop]
    rw [if_pos (show can_read_more (1 :: PSBT_IN_SCRIPTSIG :: rest) = true from rfl)]
    rw [read_bytes_var_one]
    dsimp only [bind_ok_eq]
    rw [if_neg (show ¬ (List.length [PSBT_IN_SCRIPTSIG] = 0) from by simp)]
    rw [List.headI_cons]
    rw [if_neg (show ¬ (PSBT_IN_SCRIPTSIG = PSBT_IN_UTXO) from by decide)]
    rw [if_neg (show ¬ (PSBT_IN_SCRIPTSIG = PSBT_IN_PARTIAL_SIG) from by decide)]
    rw [if_neg (show ¬ (PSBT_IN_SCRIPTSIG = PSBT_IN_SIGHASH) from by decide)]
    rw [if_neg (show ¬ (PSBT_IN_SCRIPTSIG = PSBT_IN_REDEEMSCRIPT) from by decide)]
    rw [if_neg (show ¬ (PSBT_IN_SCRIPTSIG = PSBT_IN_BIP32_DERIVATION) from by decide)]
    rw [if_pos (show PSBT_IN_SCRIPTSIG = PSBT_IN_SCRIPTSIG from rfl)]
    rw [if_pos h]
  · intro fuel self k kt rest hk0 hk2 hk3 hk4 hk6 hk7 hkl hdup
    simp only [PSBTInput.deserializeLoop]
    rw [if_pos (can_read_more_write_string _ _)]
    rw [read_bytes_var_write true (k :: kt) rest hkl]
    dsimp only [bind_ok_eq]
    rw [if_neg (show ¬ (List.length (k :: kt) = 0) from by simp)]
    rw [List.headI_cons]
    rw [if_neg hk0, if_neg hk2, if_neg hk3, if_neg hk4, if_neg hk6, if_neg hk7]
    rw [deserialize_unknown_dup _ _ _ hdup]
    dsimp only [bind_error_eq]
  · intro fuel self rest h
    simp only [PSBT.globalLoop]
    rw [if_pos (show can_read_more (1 :: PSBT_GLOBAL_UNSIGNED_TX :: rest) = true from rfl)]
    rw [read_bytes_var_one]
    dsimp only
    rw [if_neg (show ¬ (List.length [PSBT_GLOBAL_UNSIGNED_TX] = 0) from by simp)]
    rw [List.headI_cons]
    rw [if_pos (show PSBT_GLOBAL_UNSIGNED_TX = PSBT_GLOBAL_UNSIGNED_TX from rfl)]
    rw [if_neg (show ¬ (List.length [PSBT_GLOBAL_UNSIGNED_TX] ≠ 1) from by simp)]
    rw [if_pos h]
  · intro fuel self rest h
    simp only [PSBTOutput.deserializeLoop]
    rw [if_pos (show can_read_more (1 :: PSBT_OUT_REDEEMSCRIPT :: rest) = true from rfl)]
    rw [read_bytes_var_one]
    dsimp only [bind_ok_eq]
    rw [if_neg (show ¬ (List.length [PSBT_OUT_REDEEMSCRIPT] = 0) from by simp)]
    rw [List.headI_cons]
    rw [if_pos (show PSBT_OUT_REDEEMSCRIPT = PSBT_OUT_REDEEMSCRIPT from rfl)]
    rw [if_pos h]
  · intro fuel self pk rest hpk hkl hdup
    simp only [PSBTOutput.deserializeLoop]
    rw [if_pos (can_read_more_write_string _ _)]
    rw [read_bytes_var_write true (PSBT_OUT_BIP32_DERIVATION :: pk) rest hkl]
    dsimp only [bind_ok_eq]
    rw [if_neg (show ¬ (List.length (PSBT_OUT_BIP32_DERIVATION :: pk) = 0) from by simp)]
    rw [List.headI_cons]
    rw [if_neg (show ¬ (PSBT_OUT_BIP32_DERIVATION = PSBT_OUT_REDEEMSCRIPT) from by decide)]
    rw [if_pos (show PSBT_OUT_BIP32_DERIVATION = PSBT_OUT_BIP32_DERIVATION from rfl)]
    rw [deserialize_hd_keypath_dup _ _ _ _ hpk hdup]
    dsimp only [bind_error_eq]

/-- C4 counterexample: the truthiness-based duplicate checks let a
first entry whose value is empty be silently overwritten: two type-0x04
(redeem script) entries, the first with an empty value, deserialize
without error and the second value wins. -/
theorem c4_truthiness_overwrite_counterexample :
    PSBTInput.deserialize PSBTInput.empty [1, 4, 0, 1, 4, 1, 0xAB, 0]
      = .ok (⟨[0xAB], [], [], none, [], [], 0⟩, []) := by decide

set_option maxRecDepth 20000 in
/-- C4 witness: concrete duplicate redeem-script, unsigned-tx and
partial-signature entries are rejected. -/
theorem c4_witness :
    PSBTInput.deserializeLoop (0 + 1) ⟨[0x51], [], [], none, [], [], 0⟩
        (1 :: PSBT_IN_REDEEMSCRIPT :: [])
      = .error (.psbt "Duplicate Key, input redeemScript already provided")
    ∧ PSBT.globalLoop (0 + 1) ⟨some ⟨[], [], 2, 0⟩, [], [], []⟩
        (1 :: PSBT_GLOBAL_UNSIGNED_TX :: [])
      = .error (.psbt "Duplicate Key, unsigned tx already provided",
          ⟨some ⟨[], [], 2, 0⟩, [], [], []⟩)
    ∧ PSBTInput.deserializeLoop (0 + 1)
        ⟨[], [], [], none, [],
          [(hash_160 (2 :: List.replicate 32 0), (2 :: List.replicate 32 0, []))], 0⟩
        (write_string (PSBT_IN_PARTIAL_SIG :: (2 :: List.replicate 32 0)) ++ [])
      = .error (.psbt "Duplicate Key, input partial signature for pubkey already provided") :=
  ⟨c4_duplicate_rejection.2.2.2.1 0 _ [] (by decide),
   c4_duplicate_rejection.2.2.2.2.2.2.2.1 0 _ [] (by decide),
   c4_duplicate_rejection.2.1 0 _ _ [] (by decide) (by decide) (by decide)⟩

/-! ## C1: helper facts about association lists -/

theorem lookup_none_of_not_mem {β : Type} (l : List (Bytes × β)) (k : Bytes)
    (h : k ∉ l.map Prod.fst) : l.lookup k = none := by
  induction l with
  | nil => rfl
  | cons e tl ih =>
      obtain ⟨a, b⟩ := e
      have hka : k ≠ a := by
        intro hk
        exact h (by simp [hk])
      have h2 : k ∉ tl.map Prod.fst := by
        intro hm
        exact h (by simp [hm])
      simp only [List.lookup]
      rw [show (k == a) = false from by
        rw [beq_eq_false_iff_ne]; exact hka]
      exact ih h2

theorem lookup_isSome_of_mem {β : Type} (l : List (Bytes × β)) (k : Bytes)
    (h : k ∈ l.map Prod.fst) : (l.lookup k).isSome = true := by
  induction l with
  | nil => simp at h
  | cons e tl ih =>
      obtain ⟨a, b⟩ := e
      by_cases hka : k = a
      · simp only [List.lookup]
        rw [show (k == a) = true from beq_iff_eq.mpr hka]
        rfl
      · have h2 : k ∈ tl.map Prod.fst := by
          rcases (by simpa using h : k = a ∨ k ∈ tl.map Prod.fst) with h1 | h1
          · exact absurd h1 hka
          · exact h1
        simp only [List.lookup]
        rw [show (k == a) = false from by
          rw [beq_eq_false_iff_ne]; exact hka]
        exact ih h2

theorem not_mem_of_lookup_none {β : Type} (l : List (Bytes × β)) (k : Bytes)
    (h : l.lookup k = none) : k ∉ l.map Prod.fst := by
  intro hm
  have h2 := lookup_isSome_of_mem l k hm
  rw [h] at h2
  simp at h2

/-! ## C1: serialize-side normal forms -/

/-- The bytes `_serialize_hd_keypaths` emits when it succeeds. -/
def hd_ser_bytes (hd : List (Bytes × KeyOriginInfo)) (typ : Nat) : Bytes :=
  (hd.map (fun kv => write_string (typ :: kv.1)
    ++ write_string (kv.2.fingerprint ++ (kv.2.path.map write_uint32).flatten))).flatten

theorem hd_foldl_ok (typ : Nat) (hd : List (Bytes × KeyOriginInfo)) :
    ∀ (acc : Bytes),
      (∀ e ∈ hd, ser_to_point_ok e.1 = true ∧ e.2.fingerprint.length = 4) →
      List.foldlM (fun acc kv =>
        if ¬ ser_to_point_ok kv.1 then
          Except.error (Err.psbt "Invalid pubkey being serialized")
        else if kv.2.fingerprint.length ≠ 4 then
          Except.error (Err.psbt "Expected fingerprint length of 4")
        else
          Except.ok (acc ++ write_string (typ :: kv.1)
            ++ write_string (kv.2.fingerprint ++ (kv.2.path.map write_uint32).flatten)))
        acc hd
      = .ok (acc ++ hd_ser_bytes hd typ) := by
  induction hd with
  | nil =>
      intro acc h
      rw [List.foldlM_nil]
      simp [hd_ser_bytes, pure_eq]
  | cons e tl ih =>
      intro acc h
      rw [List.foldlM_cons]
      obtain ⟨h1, h2⟩ := h e (List.mem_cons_self e tl)
      rw [if_neg (fun hc => hc h1), if_neg (fun hc => hc h2)]
      dsimp only [bind_ok_eq]
      rw [ih _ (fun e' he' => h e' (List.mem_cons_of_mem _ he'))]
      simp [hd_ser_bytes, List.append_assoc]

theorem serialize_hd_keypaths_ok (hd : List (Bytes × KeyOriginInfo)) (typ : Nat)
    (h : ∀ e ∈ hd, ser_to_point_ok e.1 = true ∧ e.2.fingerprint.length = 4) :
    serialize_hd_keypaths hd typ = .ok (hd_ser_bytes hd typ) := by
  unfold serialize_hd_keypaths
  rw [hd_foldl_ok typ hd [] h, List.nil_append]

theorem mapM_serialize_ok {α β : Type} (f : α → Except Err β) (g : α → β) :
    ∀ (l : List α), (∀ x ∈ l, f x = .ok (g x)) → l.mapM f = .ok (l.map g) := by
  intro l
  induction l with
  | nil => intro h; rfl
  | cons x xs ih =>
      intro h
      rw [List.mapM_cons, h x (List.mem_cons_self x xs)]
      dsimp only [bind_ok_eq]
      rw [ih (fun y hy => h y (List.mem_cons_of_mem _ hy))]
      rfl

/-- The bytes `PSBTInput.serialize` emits when it succeeds. -/
def PSBTInput.serBytes (inp : PSBTInput) : Bytes :=
  (match inp.utxo with
    | none => []
    | some u => write_string [PSBT_IN_UTXO] ++ write_string u.serialize)
  ++ (if inp.final_script_sig = [] then
        ((inp.partial_sigs.map (fun kv =>
            write_string (PSBT_IN_PARTIAL_SIG :: kv.2.1) ++ write_string kv.2.2)).flatten)
        ++ (if inp.sighash_type ≠ 0 then
              write_string [PSBT_IN_SIGHASH] ++ write_string (write_uint32 inp.sighash_type)
            else [])
        ++ (if inp.redeem_script ≠ [] then
              write_string [PSBT_IN_REDEEMSCRIPT] ++ write_string inp.redeem_script
            else [])
        ++ hd_ser_bytes inp.hd_keypaths PSBT_IN_BIP32_DERIVATION
        ++ serialize_unknown inp.unknown ++ write_string PSBT_SEPARATOR
      else
        write_string [PSBT_IN_SCRIPTSIG] ++ write_string inp.final_script_sig
        ++ serialize_unknown inp.unknown ++ write_string PSBT_SEPARATOR)

theorem psbtinput_serialize_ok (inp : PSBTInput)
    (hhd : ∀ e ∈ inp.hd_keypaths, ser_to_point_ok e.1 = true ∧ e.2.fingerprint.length = 4) :
    PSBTInput.serialize inp = .ok inp.serBytes := by
  unfold PSBTInput.serialize PSBTInput.serBytes
  by_cases hf : inp.final_script_sig = []
  · rw [if_pos hf, if_pos hf]
    rw [serialize_hd_keypaths_ok _ _ hhd]
    dsimp only [bind_ok_eq, pure_eq]
    simp only [List.append_assoc]
  · rw [if_neg hf, if_neg hf]
    dsimp only [pure_eq]
    simp only [List.append_assoc]

/-- The bytes `PSBTOutput.serialize` emits when it succeeds. -/
def PSBTOutput.serBytes (o : PSBTOutput) : Bytes :=
  (if o.redeem_script ≠ [] then
     write_string [PSBT_OUT_REDEEMSCRIPT] ++ write_string o.redeem_script
   else [])
  ++ hd_ser_bytes o.hd_keypaths PSBT_OUT_BIP32_DERIVATION
  ++ serialize_unknown o.unknown ++ write_string PSBT_SEPARATOR

theorem psbtoutput_serialize_ok (o : PSBTOutput)
    (hhd : ∀ e ∈ o.hd_keypaths, ser_to_point_ok e.1 = true ∧ e.2.fingerprint.length = 4) :
    PSBTOutput.serialize o = .ok o.serBytes := by
  unfold PSBTOutput.serialize PSBTOutput.serBytes
  rw [serialize_hd_keypaths_ok _ _ hhd]
  dsimp only [bind_ok_eq, pure_eq]

theorem psbt_serialize_ok (p : PSBT) (t : CMutableTransaction)
    (hp : p.tx = some t)
    (hscr : (t.vin.any fun i => ¬ i.script_sig.isEmpty) = false)
    (hin : p.inputs.length = t.vin.length)
    (hout : p.outputs.length = t.vout.length)
    (hih : ∀ i ∈ p.inputs, ∀ e ∈ i.hd_keypaths,
      ser_to_point_ok e.1 = true ∧ e.2.fingerprint.length = 4)
    (hoh : ∀ o ∈ p.outputs, ∀ e ∈ o.hd_keypaths,
      ser_to_point_ok e.1 = true ∧ e.2.fingerprint.length = 4) :
    PSBT.serialize p
      = .ok (PSBT_MAGIC_BYTES ++ write_string [PSBT_GLOBAL_UNSIGNED_TX]
          ++ write_string t.serialize ++ serialize_unknown p.unknown
          ++ write_string PSBT_SEPARATOR
          ++ (p.inputs.map PSBTInput.serBytes).flatten
          ++ (p.outputs.map PSBTOutput.serBytes).flatten) := by
  rw [PSBT.serialize, hp]
  dsimp only
  rw [if_neg (show ¬ ((t.vin.any fun i => ¬ i.script_sig.isEmpty) = true) from by
    rw [hscr]; exact fun hc => Bool.false_ne_true hc)]
  rw [if_neg (fun hc => hc hin)]
  rw [mapM_serialize_ok PSBTInput.serialize PSBTInput.serBytes p.inputs
    (fun i hi => psbtinput_serialize_ok i (hih i hi))]
  dsimp only [bind_ok_eq]
  rw [if_neg (fun hc => hc hout)]
  rw [mapM_serialize_ok PSBTOutput.serialize PSBTOutput.serBytes p.outputs
    (fun o ho => psbtoutput_serialize_ok o (hoh o ho))]
  dsimp only [bind_ok_eq, pure_eq]

/-! ## C1: single key-value steps of the input loop on written segments -/

theorem inLoop_sep (fuel : Nat) (self : PSBTInput) (rest : Bytes) :
    PSBTInput.deserializeLoop (fuel + 1) self (0 :: rest) = .ok (self, rest) := by
  rw [PSBTInput.deserializeLoop]
  rw [if_pos (show can_read_more (0 :: rest) = true from rfl), read_bytes_var_sep]
  rfl

theorem outLoop_sep (fuel : Nat) (self : PSBTOutput) (rest : Bytes) :
    PSBTOutput.deserializeLoop (fuel + 1) self (0 :: rest) = .ok (self, rest) := by
  rw [PSBTOutput.deserializeLoop]
  rw [if_pos (show can_read_more (0 :: rest) = true from rfl), read_bytes_var_sep]
  rfl

theorem inLoop_utxo (fuel : Nat) (self : PSBTInput) (u : CTxOut) (rest : Bytes)
    (hnone : self.utxo = none) (hWF : u.WF) (hlen : u.serialize.length < 2 ^ 64) :
    PSBTInput.deserializeLoop (fuel + 1) self
        (write_string [PSBT_IN_UTXO] ++ (write_string u.serialize ++ rest))
      = PSBTInput.deserializeLoop fuel { self with utxo := some u } rest := by
  rw [show write_string [PSBT_IN_UTXO] ++ (write_string u.serialize ++ rest)
    = 1 :: PSBT_IN_UTXO :: (write_string u.serialize ++ rest) from rfl]
  rw [PSBTInput.deserializeLoop]
  rw [if_pos (show can_read_more (1 :: PSBT_IN_UTXO
    :: (write_string u.serialize ++ rest)) = true from rfl)]
  rw [read_bytes_var_one]
  dsimp only [bind_ok_eq]
  rw [if_neg (show ¬ (List.length [PSBT_IN_UTXO] = 0) from by simp)]
  rw [List.headI_cons]
  rw [if_pos (show PSBT_IN_UTXO = PSBT_IN_UTXO from rfl)]
  rw [hnone]
  rw [if_neg (show ¬ ((none : Option CTxOut).isSome = true) by decide)]
  rw [if_neg (show ¬ (List.length [PSBT_IN_UTXO] ≠ 1) from by simp)]
  rw [read_bytes_var_write true u.serialize rest hlen]
  dsimp only [bind_ok_eq]
  rw [show CTxOut.deserialize u.serialize = Except.ok (u, []) from by
    rw [show u.serialize = u.serialize ++ [] from (List.append_nil _).symm,
      ctxout_roundtrip u [] hWF]]
  dsimp only [bind_ok_eq]
  rw [if_neg (show ¬ (can_read_more ([] : Bytes) = true) by decide)]

theorem inLoop_sig (fuel : Nat) (self : PSBTInput) (pk sig rest : Bytes)
    (hpk : ser_to_point_ok pk = true)
    (hkl : (PSBT_IN_PARTIAL_SIG :: pk).length < 2 ^ 64)
    (hsl : sig.length < 2 ^ 64)
    (hlook : self.partial_sigs.lookup (hash_160 pk) = none) :
    PSBTInput.deserializeLoop (fuel + 1) self
        (write_string (PSBT_IN_PARTIAL_SIG :: pk) ++ (write_string sig ++ rest))
      = PSBTInput.deserializeLoop fuel
          { self with partial_sigs := self.partial_sigs ++ [(hash_160 pk, (pk, sig))] }
          rest := by
  rw [PSBTInput.deserializeLoop]
  rw [if_pos (can_read_more_write_string _ _)]
  rw [read_bytes_var_write true (PSBT_IN_PARTIAL_SIG :: pk) _ hkl]
  dsimp only [bind_ok_eq]
  rw [if_neg (show ¬ (List.length (PSBT_IN_PARTIAL_SIG :: pk) = 0) from by simp)]
  rw [List.headI_cons]
  rw [if_neg (show ¬ (PSBT_IN_PARTIAL_SIG = PSBT_IN_UTXO) from by decide)]
  rw [if_pos (show PSBT_IN_PARTIAL_SIG = PSBT_IN_PARTIAL_SIG from rfl)]
  rw [parse_pubkey_ok _ _ hpk]
  dsimp only [bind_ok_eq]
  rw [hlook]
  rw [if_neg (show ¬ ((none : Option (Bytes × Bytes)).isSome = true) by decide)]
  rw [read_bytes_var_write true sig rest hsl]
  dsimp only [bind_ok_eq]

theorem inLoop_sighash (fuel : Nat) (self : PSBTInput) (v : Nat) (rest : Bytes)
    (hz : self.sighash_type = 0) (hv : v < 2 ^ 32) :
    PSBTInput.deserializeLoop (fuel + 1) self
        (write_string [PSBT_IN_SIGHASH] ++ (write_string (write_uint32 v) ++ rest))
      = PSBTInput.deserializeLoop fuel { self with sighash_type := v } rest := by
  rw [show write_string [PSBT_IN_SIGHASH] ++ (write_string (write_uint32 v) ++ rest)
    = 1 :: PSBT_IN_SIGHASH :: (write_string (write_uint32 v) ++ rest) from rfl]
  rw [PSBTInput.deserializeLoop]
  rw [if_pos (show can_read_more (1 :: PSBT_IN_SIGHASH
    :: (write_string (write_uint32 v) ++ rest)) = true from rfl)]
  rw [read_bytes_var_one]
  dsimp only [bind_ok_eq]
  rw [if_neg (show ¬ (List.length [PSBT_IN_SIGHASH] = 0) from by simp)]
  rw [List.headI_cons]
  rw [if_neg (show ¬ (PSBT_IN_SIGHASH = PSBT_IN_UTXO) from by decide)]
  rw [if_neg (show ¬ (PSBT_IN_SIGHASH = PSBT_IN_PARTIAL_SIG) from by decide)]
  rw [if_pos (show PSBT_IN_SIGHASH = PSBT_IN_SIGHASH from rfl)]
  rw [hz]
  rw [if_neg (show ¬ ((0 : Nat) ≠ 0) from by simp)]
  rw [if_neg (show ¬ (List.length [PSBT_IN_SIGHASH] ≠ 1) from by simp)]
  rw [read_bytes_var_write true (write_uint32 v) rest (by
    rw [show (write_uint32 v).length = 4 from natLE_length 4 v]
    norm_num)]
  dsimp only [bind_ok_eq]
  rw [show read_uint32 (write_uint32 v) = Except.ok (v, []) from by
    rw [show write_uint32 v = write_uint32 v ++ [] from (List.append_nil _).symm,
      read_uint32_write v [] hv]]
  dsimp only [bind_ok_eq]
  rw [if_neg (show ¬ (can_read_more ([] : Bytes) = true) by decide)]

theorem inLoop_redeem (fuel : Nat) (self : PSBTInput) (rs rest : Bytes)
    (hz : self.redeem_script = []) (hl : rs.length < 2 ^ 64) :
    PSBTInput.deserializeLoop (fuel + 1) self
        (write_string [PSBT_IN_REDEEMSCRIPT] ++ (write_string rs ++ rest))
      = PSBTInput.deserializeLoop fuel { self with redeem_script := rs } rest := by
  rw [show write_string [PSBT_IN_REDEEMSCRIPT] ++ (write_string rs ++ rest)
    = 1 :: PSBT_IN_REDEEMSCRIPT :: (write_string rs ++ rest) from rfl]
  rw [PSBTInput.deserializeLoop]
  rw [if_pos (show can_read_more (1 :: PSBT_IN_REDEEMSCRIPT
    :: (write_string rs ++ rest)) = true from rfl)]
  rw [read_bytes_var_one]
  dsimp only [bind_ok_eq]
  rw [if_neg (show ¬ (List.length [PSBT_IN_REDEEMSCRIPT] = 0) from by simp)]
  rw [List.headI_cons]
  rw [if_neg (show ¬ (PSBT_IN_REDEEMSCRIPT = PSBT_IN_UTXO) from by decide)]
  rw [if_neg (show ¬ (PSBT_IN_REDEEMSCRIPT = PSBT_IN_PARTIAL_SIG) from by decide)]
  rw [if_neg (show ¬ (PSBT_IN_REDEEMSCRIPT = PSBT_IN_SIGHASH) from by decide)]
  rw [if_pos (show PSBT_IN_REDEEMSCRIPT = PSBT_IN_REDEEMSCRIPT from rfl)]
  rw [hz]
  rw [if_neg (show ¬ (([] : Bytes) ≠ []) from by simp)]
  rw [if_neg (show ¬ (List.length [PSBT_IN_REDEEMSCRIPT] ≠ 1) from by simp)]
  rw [read_bytes_var_write true rs rest hl]
  dsimp only [bind_ok_eq]

theorem inLoop_final (fuel : Nat) (self : PSBTInput) (fss rest : Bytes)
    (hz : self.final_script_sig = []) (hl : fss.length < 2 ^ 64) :
    PSBTInput.deserializeLoop (fuel + 1) self
        (write_string [PSBT_IN_SCRIPTSIG] ++ (write_string fss ++ rest))
      = PSBTInput.deserializeLoop fuel { self with final_script_sig := fss } rest := by
  rw [show write_string [PSBT_IN_SCRIPTSIG] ++ (write_string fss ++ rest)
    = 1 :: PSBT_IN_SCRIPTSIG :: (write_string fss ++ rest) from rfl]
  rw [PSBTInput.deserializeLoop]
  rw [if_pos (show can_read_more (1 :: PSBT_IN_SCRIPTSIG
    :: (write_string fss ++ rest)) = true from rfl)]
  rw [read_bytes_var_one]
  dsimp only [bind_ok_eq]
  rw [if_neg (show ¬ (List.length [PSBT_IN_SCRIPTSIG] = 0) from by simp)]
  rw [List.headI_cons]
  rw [if_neg (show ¬ (PSBT_IN_SCRIPTSIG = PSBT_IN_UTXO) from by decide)]
  rw [if_neg (show ¬ (PSBT_IN_SCRIPTSIG = PSBT_IN_PARTIAL_SIG) from by decide)]
  rw [if_neg (show ¬ (PSBT_IN_SCRIPTSIG = PSBT_IN_SIGHASH) from by decide)]
  rw [if_neg (show ¬ (PSBT_IN_SCRIPTSIG = PSBT_IN_REDEEMSCRIPT) from by decide)]
  rw [if_neg (show ¬ (PSBT_IN_SCRIPTSIG = PSBT_IN_BIP32_DERIVATION) from by decide)]
  rw [if_pos (show PSBT_IN_SCRIPTSIG = PSBT_IN_SCRIPTSIG from rfl)]
  rw [hz]
  rw [if_neg (show ¬ (([] : Bytes) ≠ []) from by simp)]
  rw [if_neg (show ¬ (List.length [PSBT_IN_SCRIPTSIG] ≠ 1) from by simp)]
  rw [read_bytes_var_write true fss rest hl]
  dsimp only [bind_ok_eq]

theorem path_flat_length (path : List Nat) :
    ((path.map write_uint32).flatten).length = 4 * path.length := by
  induction path with
  | nil => simp
  | cons x xs ih =>
      simp [write_uint32, natLE_length, ih]
      omega

theorem read_uint32_loop_flat (path : List Nat) :
    ∀ (acc : List Nat) (extra : Nat),
      (∀ x ∈ path, x < 2 ^ 32) →
      read_uint32_loop (path.length + extra + 1) acc ((path.map write_uint32).flatten)
        = .ok (acc ++ path, []) := by
  induction path with
  | nil =>
      intro acc extra h
      simp only [List.map_nil, List.flatten_nil, List.length_nil]
      rw [read_uint32_loop]
      rw [if_neg (show ¬ (can_read_more ([] : Bytes) = true) by decide)]
      rw [List.append_nil]
  | cons x xs ih =>
      intro acc extra h
      simp only [List.map_cons, List.flatten_cons, List.length_cons]
      rw [show xs.length + 1 + extra + 1 = (xs.length + extra + 1) + 1 from by omega]
      rw [read_uint32_loop]
      rw [if_pos (show can_read_more (write_uint32 x
        ++ (xs.map write_uint32).flatten) = true from rfl)]
      rw [read_uint32_write x _ (h x (List.mem_cons_self x xs))]
      dsimp only [bind_ok_eq]
      rw [ih (acc ++ [x]) extra (fun y hy => h y (List.mem_cons_of_mem _ hy))]
      rw [List.append_assoc]
      rfl

theorem deserialize_hd_keypath_write (t : Nat) (pk fp : Bytes) (path : List Nat)
    (hd : List (Bytes × KeyOriginInfo)) (rest : Bytes)
    (hpk : ser_to_point_ok pk = true)
    (hlook : hd.lookup pk = none)
    (hfp : fp.length = 4)
    (hpath : ∀ x ∈ path, x < 2 ^ 32)
    (hvlen : (fp ++ (path.map write_uint32).flatten).length < 2 ^ 64) :
    deserialize_hd_keypath
        (write_string (fp ++ (path.map write_uint32).flatten) ++ rest) (t :: pk) hd
      = .ok (hd ++ [(pk, ⟨fp, path⟩)], rest) := by
  unfold deserialize_hd_keypath
  rw [parse_pubkey_ok _ _ hpk]
  dsimp only [bind_ok_eq]
  rw [hlook]
  rw [if_neg (show ¬ ((none : Option KeyOriginInfo).isSome = true) by decide)]
  rw [read_bytes_var_write true _ rest hvlen]
  dsimp only [bind_ok_eq]
  have hlen4 : (fp ++ (path.map write_uint32).flatten).length = 4 + 4 * path.length := by
    rw [List.length_append, hfp, path_flat_length]
  rw [hlen4]
  rw [if_neg (show ¬ (4 + 4 * path.length = 0 ∨ (4 + 4 * path.length) % 4 ≠ 0) from by
    omega)]
  rw [read_bytes_len_exact 4 true fp _ hfp]
  dsimp only [bind_ok_eq]
  rw [show ((path.map write_uint32).flatten).length + 1
    = path.length + 3 * path.length + 1 from by rw [path_flat_length]; omega]
  rw [read_uint32_loop_flat path [] (3 * path.length) hpath]
  dsimp only [bind_ok_eq]
  rw [List.nil_append]

theorem inLoop_hd (fuel : Nat) (self : PSBTInput) (pk fp : Bytes) (path : List Nat)
    (rest : Bytes)
    (hpk : ser_to_point_ok pk = true)
    (hkl : (PSBT_IN_BIP32_DERIVATION :: pk).length < 2 ^ 64)
    (hlook : self.hd_keypaths.lookup pk = none)
    (hfp : fp.length = 4)
    (hpath : ∀ x ∈ path, x < 2 ^ 32)
    (hvlen : (fp ++ (path.map write_uint32).flatten).length < 2 ^ 64) :
    PSBTInput.deserializeLoop (fuel + 1) self
        (write_string (PSBT_IN_BIP32_DERIVATION :: pk)
          ++ (write_string (fp ++ (path.map write_uint32).flatten) ++ rest))
      = PSBTInput.deserializeLoop fuel
          { self with hd_keypaths := self.hd_keypaths ++ [(pk, ⟨fp, path⟩)] } rest := by
  rw [PSBTInput.deserializeLoop]
  rw [if_pos (can_read_more_write_string _ _)]
  rw [read_bytes_var_write true (PSBT_IN_BIP32_DERIVATION :: pk) _ hkl]
  dsimp only [bind_ok_eq]
  rw [if_neg (show ¬ (List.length (PSBT_IN_BIP32_DERIVATION :: pk) = 0) from by simp)]
  rw [List.headI_cons]
  rw [if_neg (show ¬ (PSBT_IN_BIP32_DERIVATION = PSBT_IN_UTXO) from by decide)]
  rw [if_neg (show ¬ (PSBT_IN_BIP32_DERIVATION = PSBT_IN_PARTIAL_SIG) from by decide)]
  rw [if_neg (show ¬ (PSBT_IN_BIP32_DERIVATION = PSBT_IN_SIGHASH) from by decide)]
  rw [if_neg (show ¬ (PSBT_IN_BIP32_DERIVATION = PSBT_IN_REDEEMSCRIPT) from by decide)]
  rw [if_pos (show PSBT_IN_BIP32_DERIVATION = PSBT_IN_BIP32_DERIVATION from rfl)]
  rw [deserialize_hd_keypath_write PSBT_IN_BIP32_DERIVATION pk fp path
    self.hd_keypaths rest hpk hlook hfp hpath hvlen]
  dsimp only [bind_ok_eq]

theorem deserialize_unknown_write (k v : Bytes) (unk : List (Bytes × Bytes)) (rest : Bytes)
    (hlook : unk.lookup k = none) (hvlen : v.length < 2 ^ 64) :
    deserialize_unknown (write_string v ++ rest) k unk = .ok (unk ++ [(k, v)], rest) := by
  unfold deserialize_unknown
  rw [hlook]
  rw [if_neg (show ¬ ((none : Option Bytes).isSome = true) by decide)]
  rw [read_bytes_var_write true v rest hvlen]
  dsimp only [bind_ok_eq]

theorem inLoop_unknown (fuel : Nat) (self : PSBTInput) (k : Nat) (kt v rest : Bytes)
    (hk0 : k ≠ PSBT_IN_UTXO) (hk2 : k ≠ PSBT_IN_PARTIAL_SIG) (hk3 : k ≠ PSBT_IN_SIGHASH)
    (hk4 : k ≠ PSBT_IN_REDEEMSCRIPT) (hk6 : k ≠ PSBT_IN_BIP32_DERIVATION)
    (hk7 : k ≠ PSBT_IN_SCRIPTSIG)
    (hkl : (k :: kt).length < 2 ^ 64) (hvlen : v.length < 2 ^ 64)
    (hlook : self.unknown.lookup (k :: kt) = none) :
    PSBTInput.deserializeLoop (fuel + 1) self
        (write_string (k :: kt) ++ (write_string v ++ rest))
      = PSBTInput.deserializeLoop fuel
          { self with unknown := self.unknown ++ [(k :: kt, v)] } rest := by
  rw [PSBTInput.deserializeLoop]
  rw [if_pos (can_read_more_write_string _ _)]
  rw [read_bytes_var_write true (k :: kt) _ hkl]
  dsimp only [bind_ok_eq]
  rw [if_neg (show ¬ (List.length (k :: kt) = 0) from by simp)]
  rw [List.headI_cons]
  rw [if_neg hk0, if_neg hk2, if_neg hk3, if_neg hk4, if_neg hk6, if_neg hk7]
  rw [deserialize_unknown_write (k :: kt) v self.unknown _ hlook hvlen]
  dsimp only [bind_ok_eq]

/-! ## C1: output-loop single steps on written segments -/

theorem outLoop_redeem (fuel : Nat) (self : PSBTOutput) (rs rest : Bytes)
    (hz : self.redeem_script = []) (hl : rs.length < 2 ^ 64) :
    PSBTOutput.deserializeLoop (fuel + 1) self
        (write_string [PSBT_OUT_REDEEMSCRIPT] ++ (write_string rs ++ rest))
      = PSBTOutput.deserializeLoop fuel { self with redeem_script := rs } rest := by
  rw [show write_string [PSBT_OUT_REDEEMSCRIPT] ++ (write_string rs ++ rest)
    = 1 :: PSBT_OUT_REDEEMSCRIPT :: (write_string rs ++ rest) from rfl]
  rw [PSBTOutput.deserializeLoop]
  rw [if_pos (show can_read_more (1 :: PSBT_OUT_REDEEMSCRIPT
    :: (write_string rs ++ rest)) = true from rfl)]
  rw [read_bytes_var_one]
  dsimp only [bind_ok_eq]
  rw [if_neg (show ¬ (List.length [PSBT_OUT_REDEEMSCRIPT] = 0) from by simp)]
  rw [List.headI_cons]
  rw [if_pos (show PSBT_OUT_REDEEMSCRIPT = PSBT_OUT_REDEEMSCRIPT from rfl)]
  rw [hz]
  rw [if_neg (show ¬ (([] : Bytes) ≠ []) from by simp)]
  rw [if_neg (show ¬ (List.length [PSBT_OUT_REDEEMSCRIPT] ≠ 1) from by simp)]
  rw [read_bytes_var_write true rs rest hl]
  dsimp only [bind_ok_eq]

theorem outLoop_hd (fuel : Nat) (self : PSBTOutput) (pk fp : Bytes) (path : List Nat)
    (rest : Bytes)
    (hpk : ser_to_point_ok pk = true)
    (hkl : (PSBT_OUT_BIP32_DERIVATION :: pk).length < 2 ^ 64)
    (hlook : self.hd_keypaths.lookup pk = none)
    (hfp : fp.length = 4)
    (hpath : ∀ x ∈ path, x < 2 ^ 32)
    (hvlen : (fp ++ (path.map write_uint32).flatten).length < 2 ^ 64) :
    PSBTOutput.deserializeLoop (fuel + 1) self
        (write_string (PSBT_OUT_BIP32_DERIVATION :: pk)
          ++ (write_string (fp ++ (path.map write_uint32).flatten) ++ rest))
      = PSBTOutput.deserializeLoop fuel
          { self with hd_keypaths := self.hd_keypaths ++ [(pk, ⟨fp, path⟩)] } rest := by
  rw [PSBTOutput.deserializeLoop]
  rw [if_pos (can_read_more_write_string _ _)]
  rw [read_bytes_var_write true (PSBT_OUT_BIP32_DERIVATION :: pk) _ hkl]
  dsimp only [bind_ok_eq]
  rw [if_neg (show ¬ (List.length (PSBT_OUT_BIP32_DERIVATION :: pk) = 0) from by simp)]
  rw [List.headI_cons]
  rw [if_neg (show ¬ (PSBT_OUT_BIP32_DERIVATION = PSBT_OUT_REDEEMSCRIPT) from by decide)]
  rw [if_pos (show PSBT_OUT_BIP32_DERIVATION = PSBT_OUT_BIP32_DERIVATION from rfl)]
  rw [deserialize_hd_keypath_write PSBT_OUT_BIP32_DERIVATION pk fp path
    self.hd_keypaths rest hpk hlook hfp hpath hvlen]
  dsimp only [bind_ok_eq]

theorem outLoop_unknown (fuel : Nat) (self : PSBTOutput) (k : Nat) (kt v rest : Bytes)
    (hk0 : k ≠ PSBT_OUT_REDEEMSCRIPT) (hk2 : k ≠ PSBT_OUT_BIP32_DERIVATION)
    (hkl : (k :: kt).length < 2 ^ 64) (hvlen : v.length < 2 ^ 64)
    (hlook : self.unknown.lookup (k :: kt) = none) :
    PSBTOutput.deserializeLoop (fuel + 1) self
        (write_string (k :: kt) ++ (write_string v ++ rest))
      = PSBTOutput.deserializeLoop fuel
          { self with unknown := self.unknown ++ [(k :: kt, v)] } rest := by
  rw [PSBTOutput.deserializeLoop]
  rw [if_pos (can_read_more_write_string _ _)]
  rw [read_bytes_var_write true (k :: kt) _ hkl]
  dsimp only [bind_ok_eq]
  rw [if_neg (show ¬ (List.length (k :: kt) = 0) from by simp)]
  rw [List.headI_cons]
  rw [if_neg hk0, if_neg hk2]
  rw [deserialize_unknown_write (k :: kt) v self.unknown _ hlook hvlen]
  dsimp only [bind_ok_eq]

/-! ## C1: chains over lists of entries -/

/-- The bytes the partial-signature entries serialize to. -/
def sigs_bytes (sigs : List (Bytes × (Bytes × Bytes))) : Bytes :=
  (sigs.map (fun kv =>
    write_string (PSBT_IN_PARTIAL_SIG :: kv.2.1) ++ write_string kv.2.2)).flatten

theorem inLoop_sigs (sigs : List (Bytes × (Bytes × Bytes))) :
    ∀ (fuel : Nat) (self : PSBTInput) (rest : Bytes),
      (∀ e ∈ sigs, e.1 = hash_160 e.2.1 ∧ ser_to_point_ok e.2.1 = true
        ∧ (PSBT_IN_PARTIAL_SIG :: e.2.1).length < 2 ^ 64 ∧ e.2.2.length < 2 ^ 64) →
      ((self.partial_sigs ++ sigs).map Prod.fst).Nodup →
      PSBTInput.deserializeLoop (fuel + sigs.length) self (sigs_bytes sigs ++ rest)
        = PSBTInput.deserializeLoop fuel
            { self with partial_sigs := self.partial_sigs ++ sigs } rest := by
  induction sigs with
  | nil =>
      intro fuel self rest h hnd
      simp only [sigs_bytes, List.map_nil, List.flatten_nil, List.nil_append,
        List.length_nil, Nat.add_zero, List.append_nil]
  | cons e tl ih =>
      intro fuel self rest h hnd
      obtain ⟨kid, pk, sg⟩ := e
      obtain ⟨hk, hval, hkl, hsl⟩ := h (kid, (pk, sg)) (List.mem_cons_self _ tl)
      dsimp only at hk hval hkl hsl
      subst hk
      simp only [sigs_bytes, List.map_cons, List.flatten_cons, List.length_cons,
        List.append_assoc]
      rw [show fuel + (tl.length + 1) = (fuel + tl.length) + 1 from by omega]
      have hmemkeys : hash_160 pk ∉ self.partial_sigs.map Prod.fst := by
        rw [List.map_append] at hnd
        intro hm
        exact (List.disjoint_of_nodup_append hnd) hm (by simp)
      rw [inLoop_sig (fuel + tl.length) self pk sg _ hval hkl hsl
        (lookup_none_of_not_mem _ _ hmemkeys)]
      rw [show sigs_bytes tl = (tl.map (fun kv =>
        write_string (PSBT_IN_PARTIAL_SIG :: kv.2.1) ++ write_string kv.2.2)).flatten
        from rfl] at ih
      rw [ih fuel _ rest (fun y hy => h y (List.mem_cons_of_mem _ hy)) (by
        simpa [List.append_assoc] using hnd)]
      simp [List.append_assoc]

theorem inLoop_hds (hd : List (Bytes × KeyOriginInfo)) :
    ∀ (fuel : Nat) (self : PSBTInput) (rest : Bytes),
      (∀ e ∈ hd, ser_to_point_ok e.1 = true
        ∧ (PSBT_IN_BIP32_DERIVATION :: e.1).length < 2 ^ 64
        ∧ e.2.fingerprint.length = 4
        ∧ (∀ x ∈ e.2.path, x < 2 ^ 32)
        ∧ (e.2.fingerprint ++ (e.2.path.map write_uint32).flatten).length < 2 ^ 64) →
      ((self.hd_keypaths ++ hd).map Prod.fst).Nodup →
      PSBTInput.deserializeLoop (fuel + hd.length) self
          (hd_ser_bytes hd PSBT_IN_BIP32_DERIVATION ++ rest)
        = PSBTInput.deserializeLoop fuel
            { self with hd_keypaths := self.hd_keypaths ++ hd } rest := by
  induction hd with
  | nil =>
      intro fuel self rest h hnd
      simp only [hd_ser_bytes, List.map_nil, List.flatten_nil, List.nil_append,
        List.length_nil, Nat.add_zero, List.append_nil]
  | cons e tl ih =>
      intro fuel self rest h hnd
      obtain ⟨pk, koi⟩ := e
      obtain ⟨fp, path⟩ := koi
      obtain ⟨hpk, hkl, hfp, hpath, hvl⟩ := h (pk, ⟨fp, path⟩) (List.mem_cons_self _ tl)
      dsimp only at hpk hkl hfp hpath hvl
      simp only [hd_ser_bytes, List.map_cons, List.flatten_cons, List.length_cons,
        List.append_assoc]
      rw [show fuel + (tl.length + 1) = (fuel + tl.length) + 1 from by omega]
      have hmemkeys : pk ∉ self.hd_keypaths.map Prod.fst := by
        rw [List.map_append] at hnd
        intro hm
        exact (List.disjoint_of_nodup_append hnd) hm (by simp)
      rw [inLoop_hd (fuel + tl.length) self pk fp path _ hpk hkl
        (lookup_none_of_not_mem _ _ hmemkeys) hfp hpath hvl]
      rw [show hd_ser_bytes tl PSBT_IN_BIP32_DERIVATION = (tl.map (fun kv =>
        write_string (PSBT_IN_BIP32_DERIVATION :: kv.1)
          ++ write_string (kv.2.fingerprint
            ++ (kv.2.path.map write_uint32).flatten))).flatten from rfl] at ih
      rw [ih fuel _ rest (fun y hy => h y (List.mem_cons_of_mem _ hy)) (by
        simpa [List.append_assoc] using hnd)]
      simp [List.append_assoc]

theorem inLoop_unknowns (unk : List (Bytes × Bytes)) :
    ∀ (fuel : Nat) (self : PSBTInput) (rest : Bytes),
      (∀ e ∈ unk, e.1 ≠ []
        ∧ e.1.headI ≠ PSBT_IN_UTXO ∧ e.1.headI ≠ PSBT_IN_PARTIAL_SIG
        ∧ e.1.headI ≠ PSBT_IN_SIGHASH ∧ e.1.headI ≠ PSBT_IN_REDEEMSCRIPT
        ∧ e.1.headI ≠ PSBT_IN_BIP32_DERIVATION ∧ e.1.headI ≠ PSBT_IN_SCRIPTSIG
        ∧ e.1.length < 2 ^ 64 ∧ e.2.length < 2 ^ 64) →
      ((self.unknown ++ unk).map Prod.fst).Nodup →
      PSBTInput.deserializeLoop (fuel + unk.length) self (serialize_unknown unk ++ rest)
        = PSBTInput.deserializeLoop fuel
            { self with unknown := self.unknown ++ unk } rest := by
  induction unk with
  | nil =>
      intro fuel self rest h hnd
      simp only [serialize_unknown, List.map_nil, List.flatten_nil, List.nil_append,
        List.length_nil, Nat.add_zero, List.append_nil]
  | cons e tl ih =>
      intro fuel self rest h hnd
      obtain ⟨ky, v⟩ := e
      obtain ⟨hne, hk0, hk2, hk3, hk4, hk6, hk7, hkl, hvl⟩ :=
        h (ky, v) (List.mem_cons_self _ tl)
      dsimp only at hne hk0 hk2 hk3 hk4 hk6 hk7 hkl hvl
      obtain ⟨k, kt, rfl⟩ : ∃ k kt, ky = k :: kt := by
        cases hky : ky with
        | nil => exact absurd hky hne
        | cons a l => exact ⟨a, l, rfl⟩
      rw [List.headI_cons] at hk0 hk2 hk3 hk4 hk6 hk7
      simp only [serialize_unknown, List.map_cons, List.flatten_cons, List.length_cons,
        List.append_assoc]
      rw [show fuel + (tl.length + 1) = (fuel + tl.length) + 1 from by omega]
      have hmemkeys : (k :: kt) ∉ self.unknown.map Prod.fst := by
        rw [List.map_append] at hnd
        intro hm
        exact (List.disjoint_of_nodup_append hnd) hm (by simp)
      rw [inLoop_unknown (fuel + tl.length) self k kt v _ hk0 hk2 hk3 hk4 hk6 hk7
        hkl hvl (lookup_none_of_not_mem _ _ hmemkeys)]
      rw [show serialize_unknown tl = (tl.map (fun kv =>
        write_string kv.1 ++ write_string kv.2)).flatten from rfl] at ih
      rw [ih fuel _ rest (fun y hy => h y (List.mem_cons_of_mem _ hy)) (by
        simpa [List.append_assoc] using hnd)]
      simp [List.append_assoc]

theorem outLoop_hds (hd : List (Bytes × KeyOriginInfo)) :
    ∀ (fuel : Nat) (self : PSBTOutput) (rest : Bytes),
      (∀ e ∈ hd, ser_to_point_ok e.1 = true
        ∧ (PSBT_OUT_BIP32_DERIVATION :: e.1).length < 2 ^ 64
        ∧ e.2.fingerprint.length = 4
        ∧ (∀ x ∈ e.2.path, x < 2 ^ 32)
        ∧ (e.2.fingerprint ++ (e.2.path.map write_uint32).flatten).length < 2 ^ 64) →
      ((self.hd_keypaths ++ hd).map Prod.fst).Nodup →
      PSBTOutput.deserializeLoop (fuel + hd.length) self
          (hd_ser_bytes hd PSBT_OUT_BIP32_DERIVATION ++ rest)
        = PSBTOutput.deserializeLoop fuel
            { self with hd_keypaths := self.hd_keypaths ++ hd } rest := by
  induction hd with
  | nil =>
      intro fuel self rest h hnd
      simp only [hd_ser_bytes, List.map_nil, List.flatten_nil, List.nil_append,
        List.length_nil, Nat.add_zero, List.append_nil]
  | cons e tl ih =>
      intro fuel self rest h hnd
      obtain ⟨pk, koi⟩ := e
      obtain ⟨fp, path⟩ := koi
      obtain ⟨hpk, hkl, hfp, hpath, hvl⟩ := h (pk, ⟨fp, path⟩) (List.mem_cons_self _ tl)
      dsimp only at hpk hkl hfp hpath hvl
      simp only [hd_ser_bytes, List.map_cons, List.flatten_cons, List.length_cons,
        List.append_assoc]
      rw [show fuel + (tl.length + 1) = (fuel + tl.length) + 1 from by omega]
      have hmemkeys : pk ∉ self.hd_keypaths.map Prod.fst := by
        rw [List.map_append] at hnd
        intro hm
        exact (List.disjoint_of_nodup_append hnd) hm (by simp)
      rw [outLoop_hd (fuel + tl.length) self pk fp path _ hpk hkl
        (lookup_none_of_not_mem _ _ hmemkeys) hfp hpath hvl]
      rw [show hd_ser_bytes tl PSBT_OUT_BIP32_DERIVATION = (tl.map (fun kv =>
        write_string (PSBT_OUT_BIP32_DERIVATION :: kv.1)
          ++ write_string (kv.2.fingerprint
            ++ (kv.2.path.map write_uint32).flatten))).flatten from rfl] at ih
      rw [ih fuel _ rest (fun y hy => h y (List.mem_cons_of_mem _ hy)) (by
        simpa [List.append_assoc] using hnd)]
      simp [List.append_assoc]

theorem outLoop_unknowns (unk : List (Bytes × Bytes)) :
    ∀ (fuel : Nat) (self : PSBTOutput) (rest : Bytes),
      (∀ e ∈ unk, e.1 ≠ []
        ∧ e.1.headI ≠ PSBT_OUT_REDEEMSCRIPT ∧ e.1.headI ≠ PSBT_OUT_BIP32_DERIVATION
        ∧ e.1.length < 2 ^ 64 ∧ e.2.length < 2 ^ 64) →
      ((self.unknown ++ unk).map Prod.fst).Nodup →
      PSBTOutput.deserializeLoop (fuel + unk.length) self (serialize_unknown unk ++ rest)
        = PSBTOutput.deserializeLoop fuel
            { self with unknown := self.unknown ++ unk } rest := by
  induction unk with
  | nil =>
      intro fuel self rest h hnd
      simp only [serialize_unknown, List.map_nil, List.flatten_nil, List.nil_append,
        List.length_nil, Nat.add_zero, List.append_nil]
  | cons e tl ih =>
      intro fuel self rest h hnd
      obtain ⟨ky, v⟩ := e
      obtain ⟨hne, hk0, hk2, hkl, hvl⟩ := h (ky, v) (List.mem_cons_self _ tl)
      dsimp only at hne hk0 hk2 hkl hvl
      obtain ⟨k, kt, rfl⟩ : ∃ k kt, ky = k :: kt := by
        cases hky : ky with
        | nil => exact absurd hky hne
        | cons a l => exact ⟨a, l, rfl⟩
      rw [List.headI_cons] at hk0 hk2
      simp only [serialize_unknown, List.map_cons, List.flatten_cons, List.length_cons,
        List.append_assoc]
      rw [show fuel + (tl.length + 1) = (fuel + tl.length) + 1 from by omega]
      have hmemkeys : (k :: kt) ∉ self.unknown.map Prod.fst := by
        rw [List.map_append] at hnd
        intro hm
        exact (List.disjoint_of_nodup_append hnd) hm (by simp)
      rw [outLoop_unknown (fuel + tl.length) self k kt v _ hk0 hk2
        hkl hvl (lookup_none_of_not_mem _ _ hmemkeys)]
      rw [show serialize_unknown tl = (tl.map (fun kv =>
        write_string kv.1 ++ write_string kv.2)).flatten from rfl] at ih
      rw [ih fuel _ rest (fun y hy => h y (List.mem_cons_of_mem _ hy)) (by
        simpa [List.append_assoc] using hnd)]
      simp [List.append_assoc]

/-! ## C1: fuel-flexible wrappers of the step and chain lemmas -/

theorem inLoop_utxoF (F fuel : Nat) (h : F = fuel + 1) (self : PSBTInput) (u : CTxOut)
    (rest : Bytes) (hnone : self.utxo = none) (hWF : u.WF)
    (hlen : u.serialize.length < 2 ^ 64) :
    PSBTInput.deserializeLoop F self
        (write_string [PSBT_IN_UTXO] ++ (write_string u.serialize ++ rest))
      = PSBTInput.deserializeLoop fuel { self with utxo := some u } rest := by
  subst h
  exact inLoop_utxo fuel self u rest hnone hWF hlen

theorem inLoop_sigsF (F fuel : Nat) (sigs : List (Bytes × (Bytes × Bytes)))
    (h : F = fuel + sigs.length) (self : PSBTInput) (rest : Bytes)
    (hv : ∀ e ∈ sigs, e.1 = hash_160 e.2.1 ∧ ser_to_point_ok e.2.1 = true
      ∧ (PSBT_IN_PARTIAL_SIG :: e.2.1).length < 2 ^ 64 ∧ e.2.2.length < 2 ^ 64)
    (hnd : ((self.partial_sigs ++ sigs).map Prod.fst).Nodup) :
    PSBTInput.deserializeLoop F self (sigs_bytes sigs ++ rest)
      = PSBTInput.deserializeLoop fuel
          { self with partial_sigs := self.partial_sigs ++ sigs } rest := by
  subst h
  exact inLoop_sigs sigs fuel self rest hv hnd

theorem inLoop_sighashF (F fuel : Nat) (h : F = fuel + 1) (self : PSBTInput) (v : Nat)
    (rest : Bytes) (hz : self.sighash_type = 0) (hv : v < 2 ^ 32) :
    PSBTInput.deserializeLoop F self
        (write_string [PSBT_IN_SIGHASH] ++ (write_string (write_uint32 v) ++ rest))
      = PSBTInput.deserializeLoop fuel { self with sighash_type := v } rest := by
  subst h
  exact inLoop_sighash fuel self v rest hz hv

theorem inLoop_redeemF (F fuel : Nat) (h : F = fuel + 1) (self : PSBTInput)
    (rs rest : Bytes) (hz : self.redeem_script = []) (hl : rs.length < 2 ^ 64) :
    PSBTInput.deserializeLoop F self
        (write_string [PSBT_IN_REDEEMSCRIPT] ++ (write_string rs ++ rest))
      = PSBTInput.deserializeLoop fuel { self with redeem_script := rs } rest := by
  subst h
  exact inLoop_redeem fuel self rs rest hz hl

theorem inLoop_finalF (F fuel : Nat) (h : F = fuel + 1) (self : PSBTInput)
    (fss rest : Bytes) (hz : self.final_script_sig = []) (hl : fss.length < 2 ^ 64) :
    PSBTInput.deserializeLoop F self
        (write_string [PSBT_IN_SCRIPTSIG] ++ (write_string fss ++ rest))
      = PSBTInput.deserializeLoop fuel { self with final_script_sig := fss } rest := by
  subst h
  exact inLoop_final fuel self fss rest hz hl

theorem inLoop_hdsF (F fuel : Nat) (hd : List (Bytes × KeyOriginInfo))
    (h : F = fuel + hd.length) (self : PSBTInput) (rest : Bytes)
    (hv : ∀ e ∈ hd, ser_to_point_ok e.1 = true
      ∧ (PSBT_IN_BIP32_DERIVATION :: e.1).length < 2 ^ 64
      ∧ e.2.fingerprint.length = 4
      ∧ (∀ x ∈ e.2.path, x < 2 ^ 32)
      ∧ (e.2.fingerprint ++ (e.2.path.map write_uint32).flatten).length < 2 ^ 64)
    (hnd : ((self.hd_keypaths ++ hd).map Prod.fst).Nodup) :
    PSBTInput.deserializeLoop F self
        (hd_ser_bytes hd PSBT_IN_BIP32_DERIVATION ++ rest)
      = PSBTInput.deserializeLoop fuel
          { self with hd_keypaths := self.hd_keypaths ++ hd } rest := by
  subst h
  exact inLoop_hds hd fuel self rest hv hnd

theorem inLoop_unknownsF (F fuel : Nat) (unk : List (Bytes × Bytes))
    (h : F = fuel + unk.length) (self : PSBTInput) (rest : Bytes)
    (hv : ∀ e ∈ unk, e.1 ≠ []
      ∧ e.1.headI ≠ PSBT_IN_UTXO ∧ e.1.headI ≠ PSBT_IN_PARTIAL_SIG
      ∧ e.1.headI ≠ PSBT_IN_SIGHASH ∧ e.1.headI ≠ PSBT_IN_REDEEMSCRIPT
      ∧ e.1.headI ≠ PSBT_IN_BIP32_DERIVATION ∧ e.1.headI ≠ PSBT_IN_SCRIPTSIG
      ∧ e.1.length < 2 ^ 64 ∧ e.2.length < 2 ^ 64)
    (hnd : ((self.unknown ++ unk).map Prod.fst).Nodup) :
    PSBTInput.deserializeLoop F self (serialize_unknown unk ++ rest)
      = PSBTInput.deserializeLoop fuel
          { self with unknown := self.unknown ++ unk } rest := by
  subst h
  exact inLoop_unknowns unk fuel self rest hv hnd

theorem inLoop_sepF (F fuel : Nat) (h : F = fuel + 1) (self : PSBTInput) (rest : Bytes) :
    PSBTInput.deserializeLoop F self (write_string PSBT_SEPARATOR ++ rest)
      = .ok (self, rest) := by
  subst h
  rw [show write_string PSBT_SEPARATOR ++ rest = 0 :: rest from rfl]
  exact inLoop_sep fuel self rest

theorem outLoop_redeemF (F fuel : Nat) (h : F = fuel + 1) (self : PSBTOutput)
    (rs rest : Bytes) (hz : self.redeem_script = []) (hl : rs.length < 2 ^ 64) :
    PSBTOutput.deserializeLoop F self
        (write_string [PSBT_OUT_REDEEMSCRIPT] ++ (write_string rs ++ rest))
      = PSBTOutput.deserializeLoop fuel { self with redeem_script := rs } rest := by
  subst h
  exact outLoop_redeem fuel self rs rest hz hl

theorem outLoop_hdsF (F fuel : Nat) (hd : List (Bytes × KeyOriginInfo))
    (h : F = fuel + hd.length) (self : PSBTOutput) (rest : Bytes)
    (hv : ∀ e ∈ hd, ser_to_point_ok e.1 = true
      ∧ (PSBT_OUT_BIP32_DERIVATION :: e.1).length < 2 ^ 64
      ∧ e.2.fingerprint.length = 4
      ∧ (∀ x ∈ e.2.path, x < 2 ^ 32)
      ∧ (e.2.fingerprint ++ (e.2.path.map write_uint32).flatten).length < 2 ^ 64)
    (hnd : ((self.hd_keypaths ++ hd).map Prod.fst).Nodup) :
    PSBTOutput.deserializeLoop F self
        (hd_ser_bytes hd PSBT_OUT_BIP32_DERIVATION ++ rest)
      = PSBTOutput.deserializeLoop fuel
          { self with hd_keypaths := self.hd_keypaths ++ hd } rest := by
  subst h
  exact outLoop_hds hd fuel self rest hv hnd

theorem outLoop_unknownsF (F fuel : Nat) (unk : List (Bytes × Bytes))
    (h : F = fuel + unk.length) (self : PSBTOutput) (rest : Bytes)
    (hv : ∀ e ∈ unk, e.1 ≠ []
      ∧ e.1.headI ≠ PSBT_OUT_REDEEMSCRIPT ∧ e.1.headI ≠ PSBT_OUT_BIP32_DERIVATION
      ∧ e.1.length < 2 ^ 64 ∧ e.2.length < 2 ^ 64)
    (hnd : ((self.unknown ++ unk).map Prod.fst).Nodup) :
    PSBTOutput.deserializeLoop F self (serialize_unknown unk ++ rest)
      = PSBTOutput.deserializeLoop fuel
          { self with unknown := self.unknown ++ unk } rest := by
  subst h
  exact outLoop_unknowns unk fuel self rest hv hnd

theorem outLoop_sepF (F fuel : Nat) (h : F = fuel + 1) (self : PSBTOutput) (rest : Bytes) :
    PSBTOutput.deserializeLoop F self (write_string PSBT_SEPARATOR ++ rest)
      = .ok (self, rest) := by
  subst h
  rw [show write_string PSBT_SEPARATOR ++ rest = 0 :: rest from rfl]
  exact outLoop_sep fuel self rest

/-! ## C1: per-map invariants and the key-value step counts -/

/-- Invariants a `PSBTInput` parsed from byte input enjoys, strong
enough for its serialization to reparse to the same value. -/
def PSBTInput.WFi (inp : PSBTInput) : Prop :=
  (∀ u, inp.utxo = some u → u.WF ∧ u.serialize.length < 2 ^ 64)
  ∧ (∀ e ∈ inp.partial_sigs, e.1 = hash_160 e.2.1 ∧ ser_to_point_ok e.2.1 = true
      ∧ (PSBT_IN_PARTIAL_SIG :: e.2.1).length < 2 ^ 64 ∧ e.2.2.length < 2 ^ 64)
  ∧ (inp.partial_sigs.map Prod.fst).Nodup
  ∧ inp.sighash_type < 2 ^ 32
  ∧ inp.redeem_script.length < 2 ^ 64
  ∧ (∀ e ∈ inp.hd_keypaths, ser_to_point_ok e.1 = true
      ∧ (PSBT_IN_BIP32_DERIVATION :: e.1).length < 2 ^ 64
      ∧ e.2.fingerprint.length = 4
      ∧ (∀ x ∈ e.2.path, x < 2 ^ 32)
      ∧ (e.2.fingerprint ++ (e.2.path.map write_uint32).flatten).length < 2 ^ 64)
  ∧ (inp.hd_keypaths.map Prod.fst).Nodup
  ∧ inp.final_script_sig.length < 2 ^ 64
  ∧ (∀ e ∈ inp.unknown, e.1 ≠ []
      ∧ e.1.headI ≠ PSBT_IN_UTXO ∧ e.1.headI ≠ PSBT_IN_PARTIAL_SIG
      ∧ e.1.headI ≠ PSBT_IN_SIGHASH ∧ e.1.headI ≠ PSBT_IN_REDEEMSCRIPT
      ∧ e.1.headI ≠ PSBT_IN_BIP32_DERIVATION ∧ e.1.headI ≠ PSBT_IN_SCRIPTSIG
      ∧ e.1.length < 2 ^ 64 ∧ e.2.length < 2 ^ 64)
  ∧ (inp.unknown.map Prod.fst).Nodup

/-- How many key-value entries `PSBTInput.serialize` writes. -/
def PSBTInput.stepCount (inp : PSBTInput) : Nat :=
  (match inp.utxo with | none => 0 | some _ => 1)
  + (if inp.final_script_sig = [] then
       inp.partial_sigs.length + (if inp.sighash_type ≠ 0 then 1 else 0)
       + (if inp.redeem_script ≠ [] then 1 else 0)
       + inp.hd_keypaths.length + inp.unknown.length
     else 1 + inp.unknown.length)

/-- Invariants a `PSBTOutput` parsed from byte input enjoys. -/
def PSBTOutput.WFo (o : PSBTOutput) : Prop :=
  o.redeem_script.length < 2 ^ 64
  ∧ (∀ e ∈ o.hd_keypaths, ser_to_point_ok e.1 = true
      ∧ (PSBT_OUT_BIP32_DERIVATION :: e.1).length < 2 ^ 64
      ∧ e.2.fingerprint.length = 4
      ∧ (∀ x ∈ e.2.path, x < 2 ^ 32)
      ∧ (e.2.fingerprint ++ (e.2.path.map write_uint32).flatten).length < 2 ^ 64)
  ∧ (o.hd_keypaths.map Prod.fst).Nodup
  ∧ (∀ e ∈ o.unknown, e.1 ≠ []
      ∧ e.1.headI ≠ PSBT_OUT_REDEEMSCRIPT ∧ e.1.headI ≠ PSBT_OUT_BIP32_DERIVATION
      ∧ e.1.length < 2 ^ 64 ∧ e.2.length < 2 ^ 64)
  ∧ (o.unknown.map Prod.fst).Nodup

/-- How many key-value entries `PSBTOutput.serialize` writes. -/
def PSBTOutput.stepCount (o : PSBTOutput) : Nat :=
  (if o.redeem_script ≠ [] then 1 else 0) + o.hd_keypaths.length + o.unknown.length

/-! ## C1: an input map reparses from its own serialization -/

theorem inLoop_master (inp : PSBTInput) (hWF : inp.WFi)
    (hmix : inp.final_script_sig ≠ [] → inp.partial_sigs = [] ∧ inp.sighash_type = 0
      ∧ inp.redeem_script = [] ∧ inp.hd_keypaths = [])
    (fuel : Nat) (rest : Bytes) :
    PSBTInput.deserializeLoop (fuel + inp.stepCount + 1) PSBTInput.empty
        (inp.serBytes ++ rest)
      = .ok (inp, rest) := by
  obtain ⟨rs, hd, unk, ut, fss, ps, sh⟩ := inp
  obtain ⟨hut, hps, hpsnd, hsh, hrs, hhd, hhdnd, hfss, hunk, hunknd⟩ := hWF
  dsimp only at hut hps hpsnd hsh hrs hhd hhdnd hfss hunk hunknd hmix
  by_cases hf : fss = []
  · subst hf
    cases ut with
    | none =>
        dsimp only [PSBTInput.serBytes, PSBTInput.stepCount]
        rw [if_pos rfl, if_pos rfl]
        simp only [List.nil_append, List.append_assoc]
        rw [show (List.map (fun kv => write_string (PSBT_IN_PARTIAL_SIG :: kv.2.1)
          ++ write_string kv.2.2) ps).flatten = sigs_bytes ps from rfl]
        by_cases hs0 : sh ≠ 0
        · rw [if_pos hs0, if_pos hs0]
          by_cases hr0 : rs ≠ []
          · rw [if_pos hr0, if_pos hr0]
            simp only [List.append_assoc]
            rw [inLoop_sigsF _ (fuel + 1 + unk.length + hd.length + 1 + 1) ps
              (by omega) _ _ hps (by simpa using hpsnd)]
            rw [inLoop_sighashF _ (fuel + 1 + unk.length + hd.length + 1)
              (by omega) _ sh _ rfl hsh]
            rw [inLoop_redeemF _ (fuel + 1 + unk.length + hd.length)
              (by omega) _ rs _ rfl hrs]
            rw [inLoop_hdsF _ (fuel + 1 + unk.length) hd (by omega) _ _ hhd
              (by simpa using hhdnd)]
            rw [inLoop_unknownsF _ (fuel + 1) unk (by omega) _ _ hunk
              (by simpa using hunknd)]
            rw [inLoop_sepF _ fuel (by omega)]
            simp [PSBTInput.empty]
          · rw [if_neg hr0, if_neg hr0]
            have hr0' : rs = [] := by
              by_contra hc
              exact hr0 hc
            subst hr0'
            simp only [List.append_assoc, List.nil_append]
            rw [inLoop_sigsF _ (fuel + 1 + unk.length + hd.length + 1) ps
              (by omega) _ _ hps (by simpa using hpsnd)]
            rw [inLoop_sighashF _ (fuel + 1 + unk.length + hd.length)
              (by omega) _ sh _ rfl hsh]
            rw [inLoop_hdsF _ (fuel + 1 + unk.length) hd (by omega) _ _ hhd
              (by simpa using hhdnd)]
            rw [inLoop_unknownsF _ (fuel + 1) unk (by omega) _ _ hunk
              (by simpa using hunknd)]
            rw [inLoop_sepF _ fuel (by omega)]
            simp [PSBTInput.empty]
        · rw [if_neg hs0, if_neg hs0]
          have hs0' : sh = 0 := by
            by_contra hc
            exact hs0 hc
          subst hs0'
          by_cases hr0 : rs ≠ []
          · rw [if_pos hr0, if_pos hr0]
            simp only [List.append_assoc, List.nil_append]
            rw [inLoop_sigsF _ (fuel + 1 + unk.length + hd.length + 1) ps
              (by omega) _ _ hps (by simpa using hpsnd)]
            rw [inLoop_redeemF _ (fuel + 1 + unk.length + hd.length)
              (by omega) _ rs _ rfl hrs]
            rw [inLoop_hdsF _ (fuel + 1 + unk.length) hd (by omega) _ _ hhd
              (by simpa using hhdnd)]
            rw [inLoop_unknownsF _ (fuel + 1) unk (by omega) _ _ hunk
              (by simpa using hunknd)]
            rw [inLoop_sepF _ fuel (by omega)]
            simp [PSBTInput.empty]
          · rw [if_neg hr0, if_neg hr0]
            have hr0' : rs = [] := by
              by_contra hc
              exact hr0 hc
            subst hr0'
            simp only [List.append_assoc, List.nil_append]
            rw [inLoop_sigsF _ (fuel + 1 + unk.length + hd.length) ps
              (by omega) _ _ hps (by simpa using hpsnd)]
            rw [inLoop_hdsF _ (fuel + 1 + unk.length) hd (by omega) _ _ hhd
              (by simpa using hhdnd)]
            rw [inLoop_unknownsF _ (fuel + 1) unk (by omega) _ _ hunk
              (by simpa using hunknd)]
            rw [inLoop_sepF _ fuel (by omega)]
            simp [PSBTInput.empty]
    | some u =>
        obtain ⟨huWF, hulen⟩ := hut u rfl
        dsimp only [PSBTInput.serBytes, PSBTInput.stepCount]
        rw [if_pos rfl, if_pos rfl]
        simp only [List.append_assoc]
        rw [show (List.map (fun kv => write_string (PSBT_IN_PARTIAL_SIG :: kv.2.1)
          ++ write_string kv.2.2) ps).flatten = sigs_bytes ps from rfl]
        by_cases hs0 : sh ≠ 0
        · rw [if_pos hs0, if_pos hs0]
          by_cases hr0 : rs ≠ []
          · rw [if_pos hr0, if_pos hr0]
            simp only [List.append_assoc]
            rw [inLoop_utxoF _ (fuel + 1 + unk.length + hd.length + 1 + 1 + ps.length)
              (by omega) _ u _ rfl huWF hulen]
            rw [inLoop_sigsF _ (fuel + 1 + unk.length + hd.length + 1 + 1) ps
              (by omega) _ _ hps (by simpa using hpsnd)]
            rw [inLoop_sighashF _ (fuel + 1 + unk.length + hd.length + 1)
              (by omega) _ sh _ rfl hsh]
            rw [inLoop_redeemF _ (fuel + 1 + unk.length + hd.length)
              (by omega) _ rs _ rfl hrs]
            rw [inLoop_hdsF _ (fuel + 1 + unk.length) hd (by omega) _ _ hhd
              (by simpa using hhdnd)]
            rw [inLoop_unknownsF _ (fuel + 1) unk (by omega) _ _ hunk
              (by simpa using hunknd)]
            rw [inLoop_sepF _ fuel (by omega)]
            simp [PSBTInput.empty]
          · rw [if_neg hr0, if_neg hr0]
            have hr0' : rs = [] := by
              by_contra hc
              exact hr0 hc
            subst hr0'
            simp only [List.append_assoc, List.nil_append]
            rw [inLoop_utxoF _ (fuel + 1 + unk.length + hd.length + 1 + ps.length)
              (by omega) _ u _ rfl huWF hulen]
            rw [inLoop_sigsF _ (fuel + 1 + unk.length + hd.length + 1) ps
              (by omega) _ _ hps (by simpa using hpsnd)]
            rw [inLoop_sighashF _ (fuel + 1 + unk.length + hd.length)
              (by omega) _ sh _ rfl hsh]
            rw [inLoop_hdsF _ (fuel + 1 + unk.length) hd (by omega) _ _ hhd
              (by simpa using hhdnd)]
            rw [inLoop_unknownsF _ (fuel + 1) unk (by omega) _ _ hunk
              (by simpa using hunknd)]
            rw [inLoop_sepF _ fuel (by omega)]
            simp [PSBTInput.empty]
        · rw [if_neg hs0, if_neg hs0]
          have hs0' : sh = 0 := by
            by_contra hc
            exact hs0 hc
          subst hs0'
          by_cases hr0 : rs ≠ []
          · rw [if_pos hr0, if_pos hr0]
            simp only [List.append_assoc, List.nil_append]
            rw [inLoop_utxoF _ (fuel + 1 + unk.length + hd.length + 1 + ps.length)
              (by omega) _ u _ rfl huWF hulen]
            rw [inLoop_sigsF _ (fuel + 1 + unk.length + hd.length + 1) ps
              (by omega) _ _ hps (by simpa using hpsnd)]
            rw [inLoop_redeemF _ (fuel + 1 + unk.length + hd.length)
              (by omega) _ rs _ rfl hrs]
            rw [inLoop_hdsF _ (fuel + 1 + unk.length) hd (by omega) _ _ hhd
              (by simpa using hhdnd)]
            rw [inLoop_unknownsF _ (fuel + 1) unk (by omega) _ _ hunk
              (by simpa using hunknd)]
            rw [inLoop_sepF _ fuel (by omega)]
            simp [PSBTInput.empty]
          · rw [if_neg hr0, if_neg hr0]
            have hr0' : rs = [] := by
              by_contra hc
              exact hr0 hc
            subst hr0'
            simp only [List.append_assoc, List.nil_append]
            rw [inLoop_utxoF _ (fuel + 1 + unk.length + hd.length + ps.length)
              (by omega) _ u _ rfl huWF hulen]
            rw [inLoop_sigsF _ (fuel + 1 + unk.length + hd.length) ps
              (by omega) _ _ hps (by simpa using hpsnd)]
            rw [inLoop_hdsF _ (fuel + 1 + unk.length) hd (by omega) _ _ hhd
              (by simpa using hhdnd)]
            rw [inLoop_unknownsF _ (fuel + 1) unk (by omega) _ _ hunk
              (by simpa using hunknd)]
            rw [inLoop_sepF _ fuel (by omega)]
            simp [PSBTInput.empty]
  · obtain ⟨hps0, hsh0, hrs0, hhd0⟩ := hmix hf
    subst hps0 hsh0 hrs0 hhd0
    cases ut with
    | none =>
        dsimp only [PSBTInput.serBytes, PSBTInput.stepCount]
        rw [if_neg hf, if_neg hf]
        simp only [List.nil_append, List.append_assoc]
        rw [inLoop_finalF _ (fuel + 1 + unk.length) (by omega) _ fss _ rfl hfss]
        rw [inLoop_unknownsF _ (fuel + 1) unk (by omega) _ _ hunk
          (by simpa using hunknd)]
        rw [inLoop_sepF _ fuel (by omega)]
        simp [PSBTInput.empty]
    | some u =>
        obtain ⟨huWF, hulen⟩ := hut u rfl
        dsimp only [PSBTInput.serBytes, PSBTInput.stepCount]
        rw [if_neg hf, if_neg hf]
        simp only [List.append_assoc]
        rw [inLoop_utxoF _ (fuel + 1 + unk.length + 1) (by omega) _ u _ rfl huWF hulen]
        rw [inLoop_finalF _ (fuel + 1 + unk.length) (by omega) _ fss _ rfl hfss]
        rw [inLoop_unknownsF _ (fuel + 1) unk (by omega) _ _ hunk
          (by simpa using hunknd)]
        rw [inLoop_sepF _ fuel (by omega)]
        simp [PSBTInput.empty]

theorem outLoop_master (o : PSBTOutput) (hWF : o.WFo) (fuel : Nat) (rest : Bytes) :
    PSBTOutput.deserializeLoop (fuel + o.stepCount + 1) PSBTOutput.empty
        (o.serBytes ++ rest)
      = .ok (o, rest) := by
  obtain ⟨rs, hd, unk⟩ := o
  obtain ⟨hrs, hhd, hhdnd, hunk, hunknd⟩ := hWF
  dsimp only at hrs hhd hhdnd hunk hunknd
  dsimp only [PSBTOutput.serBytes, PSBTOutput.stepCount]
  by_cases hr0 : rs ≠ []
  · rw [if_pos hr0, if_pos hr0]
    simp only [List.append_assoc]
    rw [outLoop_redeemF _ (fuel + 1 + unk.length + hd.length) (by omega) _ rs _ rfl hrs]
    rw [outLoop_hdsF _ (fuel + 1 + unk.length) hd (by omega) _ _ hhd
      (by simpa using hhdnd)]
    rw [outLoop_unknownsF _ (fuel + 1) unk (by omega) _ _ hunk (by simpa using hunknd)]
    rw [outLoop_sepF _ fuel (by omega)]
    simp [PSBTOutput.empty]
  · rw [if_neg hr0, if_neg hr0]
    have hr0a : rs = [] := by
      by_contra hc
      exact hr0 hc
    subst hr0a
    simp only [List.append_assoc, List.nil_append]
    rw [outLoop_hdsF _ (fuel + 1 + unk.length) hd (by omega) _ _ hhd
      (by simpa using hhdnd)]
    rw [outLoop_unknownsF _ (fuel + 1) unk (by omega) _ _ hunk (by simpa using hunknd)]
    rw [outLoop_sepF _ fuel (by omega)]
    simp [PSBTOutput.empty]

/-! ## C1: byte-length lower bounds supplying the loop fuel -/

theorem write_string_len_pos (b : Bytes) : 1 ≤ (write_string b).length := by
  unfold write_string
  cases hw : write_compact_size b.length with
  | nil => exact absurd hw (write_compact_size_ne_nil _)
  | cons a l => simp

theorem flatten_len_ge {α : Type} (f : α → Bytes) :
    ∀ (l : List α), (∀ x ∈ l, 1 ≤ (f x).length) → l.length ≤ ((l.map f).flatten).length := by
  intro l
  induction l with
  | nil => intro h; simp
  | cons x xs ih =>
      intro h
      simp only [List.map_cons, List.flatten_cons, List.length_append, List.length_cons]
      have h1 := h x (List.mem_cons_self x xs)
      have h2 := ih (fun y hy => h y (List.mem_cons_of_mem _ hy))
      omega

theorem sigs_bytes_len (ps : List (Bytes × (Bytes × Bytes))) :
    ps.length ≤ (sigs_bytes ps).length :=
  flatten_len_ge _ ps (fun x _ => by
    simp only [List.length_append]
    have := write_string_len_pos (PSBT_IN_PARTIAL_SIG :: x.2.1)
    omega)

theorem hd_ser_bytes_len (hd : List (Bytes × KeyOriginInfo)) (typ : Nat) :
    hd.length ≤ (hd_ser_bytes hd typ).length :=
  flatten_len_ge _ hd (fun x _ => by
    simp only [List.length_append]
    have := write_string_len_pos (typ :: x.1)
    omega)

theorem serialize_unknown_len (unk : List (Bytes × Bytes)) :
    unk.length ≤ (serialize_unknown unk).length :=
  flatten_len_ge _ unk (fun x _ => by
    simp only [List.length_append]
    have := write_string_len_pos x.1
    omega)

theorem serBytes_steps_le (inp : PSBTInput) :
    inp.stepCount + 1 ≤ inp.serBytes.length := by
  obtain ⟨rs, hd, unk, ut, fss, ps, sh⟩ := inp
  dsimp only [PSBTInput.serBytes, PSBTInput.stepCount]
  have hsg : ps.length ≤ ((ps.map (fun kv =>
      write_string (PSBT_IN_PARTIAL_SIG :: kv.2.1) ++ write_string kv.2.2)).flatten).length :=
    sigs_bytes_len ps
  have hhd := hd_ser_bytes_len hd PSBT_IN_BIP32_DERIVATION
  have hun := serialize_unknown_len unk
  have hsep := write_string_len_pos PSBT_SEPARATOR
  have h0 := write_string_len_pos [PSBT_IN_UTXO]
  have h3 := write_string_len_pos [PSBT_IN_SIGHASH]
  have h4 := write_string_len_pos [PSBT_IN_REDEEMSCRIPT]
  have h7 := write_string_len_pos [PSBT_IN_SCRIPTSIG]
  cases ut with
  | none =>
      split_ifs <;> simp only [List.length_append, List.length_nil] <;> omega
  | some u =>
      split_ifs <;> simp only [List.length_append, List.length_nil] <;> omega

theorem outSerBytes_steps_le (o : PSBTOutput) :
    o.stepCount + 1 ≤ o.serBytes.length := by
  obtain ⟨rs, hd, unk⟩ := o
  dsimp only [PSBTOutput.serBytes, PSBTOutput.stepCount]
  have hhd := hd_ser_bytes_len hd PSBT_OUT_BIP32_DERIVATION
  have hun := serialize_unknown_len unk
  have hsep := write_string_len_pos PSBT_SEPARATOR
  have h0 := write_string_len_pos [PSBT_OUT_REDEEMSCRIPT]
  split_ifs <;> simp only [List.length_append, List.length_nil] <;> omega

/-! ## C1: an input/output map deserializes from its own serialization -/

theorem inLoop_masterF (F : Nat) (inp : PSBTInput) (hWF : inp.WFi)
    (hmix : inp.final_script_sig ≠ [] → inp.partial_sigs = [] ∧ inp.sighash_type = 0
      ∧ inp.redeem_script = [] ∧ inp.hd_keypaths = [])
    (rest : Bytes) (hF : inp.stepCount + 1 ≤ F) :
    PSBTInput.deserializeLoop F PSBTInput.empty (inp.serBytes ++ rest)
      = .ok (inp, rest) := by
  obtain ⟨k, hk⟩ := Nat.exists_eq_add_of_le hF
  subst hk
  rw [show inp.stepCount + 1 + k = k + inp.stepCount + 1 from by omega]
  exact inLoop_master inp hWF hmix k rest

theorem psbtinput_deser_serBytes (inp : PSBTInput) (hWF : inp.WFi)
    (hmix : inp.final_script_sig ≠ [] → inp.partial_sigs = [] ∧ inp.sighash_type = 0
      ∧ inp.redeem_script = [] ∧ inp.hd_keypaths = [])
    (rest : Bytes) :
    PSBTInput.deserialize PSBTInput.empty (inp.serBytes ++ rest) = .ok (inp, rest) := by
  unfold PSBTInput.deserialize
  have hb := serBytes_steps_le inp
  have hL : (inp.serBytes ++ rest).length = inp.serBytes.length + rest.length :=
    List.length_append inp.serBytes rest
  exact inLoop_masterF _ inp hWF hmix rest (by omega)

theorem outLoop_masterF (F : Nat) (o : PSBTOutput) (hWF : o.WFo) (rest : Bytes)
    (hF : o.stepCount + 1 ≤ F) :
    PSBTOutput.deserializeLoop F PSBTOutput.empty (o.serBytes ++ rest)
      = .ok (o, rest) := by
  obtain ⟨k, hk⟩ := Nat.exists_eq_add_of_le hF
  subst hk
  rw [show o.stepCount + 1 + k = k + o.stepCount + 1 from by omega]
  exact outLoop_master o hWF k rest

theorem psbtoutput_deser_serBytes (o : PSBTOutput) (hWF : o.WFo) (rest : Bytes) :
    PSBTOutput.deserialize PSBTOutput.empty (o.serBytes ++ rest) = .ok (o, rest) := by
  unfold PSBTOutput.deserialize
  have hb := outSerBytes_steps_le o
  have hL : (o.serBytes ++ rest).length = o.serBytes.length + rest.length :=
    List.length_append o.serBytes rest
  exact outLoop_masterF _ o hWF rest (by omega)

/-! ## C1: global-map steps on written segments -/

theorem globalLoop_tx (fuel : Nat) (self : PSBT) (t : CMutableTransaction) (rest : Bytes)
    (hnone : self.tx = none) (hWF : t.WF) (hlen : t.serialize.length < 2 ^ 64)
    (hscr : (t.vin.any fun i => ¬ i.script_sig.isEmpty) = false) :
    PSBT.globalLoop (fuel + 1) self
        (write_string [PSBT_GLOBAL_UNSIGNED_TX] ++ (write_string t.serialize ++ rest))
      = PSBT.globalLoop fuel { self with tx := some t } rest := by
  rw [PSBT.globalLoop]
  rw [if_pos (show can_read_more (write_string [PSBT_GLOBAL_UNSIGNED_TX]
      ++ (write_string t.serialize ++ rest)) = true from rfl)]
  rw [read_bytes_var_write true [PSBT_GLOBAL_UNSIGNED_TX] _ (by decide)]
  dsimp only
  rw [if_neg (show ¬ (List.length [PSBT_GLOBAL_UNSIGNED_TX] = 0) by decide),
    if_pos (show List.headI [PSBT_GLOBAL_UNSIGNED_TX] = PSBT_GLOBAL_UNSIGNED_TX from rfl),
    if_neg (show ¬ (List.length [PSBT_GLOBAL_UNSIGNED_TX] ≠ 1) by decide)]
  rw [hnone]
  rw [if_neg (show ¬ ((none : Option CMutableTransaction).isSome = true) by decide)]
  rw [read_bytes_var_write true t.serialize rest hlen]
  dsimp only
  rw [show CMutableTransaction.deserialize t.serialize = Except.ok (t, []) from by
    rw [show t.serialize = t.serialize ++ [] from (List.append_nil _).symm,
      cmtx_roundtrip t [] hWF]]
  dsimp only
  rw [if_neg (show ¬ (can_read_more ([] : Bytes) = true) by decide),
    if_neg (show ¬ ((t.vin.any fun inp => ¬ inp.script_sig.isEmpty) = true) from by
      rw [hscr]; exact fun hc => Bool.false_ne_true hc)]

theorem globalLoop_unknown (fuel : Nat) (self : PSBT) (k : Nat) (kt v rest : Bytes)
    (hk : k ≠ PSBT_GLOBAL_UNSIGNED_TX)
    (hkl : (k :: kt).length < 2 ^ 64) (hvlen : v.length < 2 ^ 64)
    (hlook : self.unknown.lookup (k :: kt) = none) :
    PSBT.globalLoop (fuel + 1) self
        (write_string (k :: kt) ++ (write_string v ++ rest))
      = PSBT.globalLoop fuel { self with unknown := self.unknown ++ [(k :: kt, v)] }
          rest := by
  rw [PSBT.globalLoop]
  rw [if_pos (can_read_more_write_string _ _)]
  rw [read_bytes_var_write true (k :: kt) _ hkl]
  dsimp only
  rw [if_neg (show ¬ (List.length (k :: kt) = 0) from by simp)]
  rw [List.headI_cons]
  rw [if_neg hk]
  rw [deserialize_unknown_write (k :: kt) v self.unknown _ hlook hvlen]

theorem globalLoop_unknowns (unk : List (Bytes × Bytes)) :
    ∀ (fuel : Nat) (self : PSBT) (rest : Bytes),
      (∀ e ∈ unk, e.1 ≠ [] ∧ e.1.headI ≠ PSBT_GLOBAL_UNSIGNED_TX
        ∧ e.1.length < 2 ^ 64 ∧ e.2.length < 2 ^ 64) →
      ((self.unknown ++ unk).map Prod.fst).Nodup →
      PSBT.globalLoop (fuel + unk.length) self (serialize_unknown unk ++ rest)
        = PSBT.globalLoop fuel { self with unknown := self.unknown ++ unk } rest := by
  induction unk with
  | nil =>
      intro fuel self rest h hnd
      simp only [serialize_unknown, List.map_nil, List.flatten_nil, List.nil_append,
        List.length_nil, Nat.add_zero, List.append_nil]
  | cons e tl ih =>
      intro fuel self rest h hnd
      obtain ⟨ky, v⟩ := e
      obtain ⟨hne, hk0, hkl, hvl⟩ := h (ky, v) (List.mem_cons_self _ tl)
      dsimp only at hne hk0 hkl hvl
      obtain ⟨k, kt, rfl⟩ : ∃ k kt, ky = k :: kt := by
        cases hky : ky with
        | nil => exact absurd hky hne
        | cons a l => exact ⟨a, l, rfl⟩
      rw [List.headI_cons] at hk0
      simp only [serialize_unknown, List.map_cons, List.flatten_cons, List.length_cons,
        List.append_assoc]
      rw [show fuel + (tl.length + 1) = (fuel + tl.length) + 1 from by omega]
      have hmemkeys : (k :: kt) ∉ self.unknown.map Prod.fst := by
        rw [List.map_append] at hnd
        intro hm
        exact (List.disjoint_of_nodup_append hnd) hm (by simp)
      rw [globalLoop_unknown (fuel + tl.length) self k kt v _ hk0
        hkl hvl (lookup_none_of_not_mem _ _ hmemkeys)]
      rw [show serialize_unknown tl = (tl.map (fun kv =>
        write_string kv.1 ++ write_string kv.2)).flatten from rfl] at ih
      rw [ih fuel _ rest (fun y hy => h y (List.mem_cons_of_mem _ hy)) (by
        simpa [List.append_assoc] using hnd)]
      simp [List.append_assoc]

theorem globalLoop_txF (F fuel : Nat) (h : F = fuel + 1) (self : PSBT)
    (t : CMutableTransaction) (rest : Bytes)
    (hnone : self.tx = none) (hWF : t.WF) (hlen : t.serialize.length < 2 ^ 64)
    (hscr : (t.vin.any fun i => ¬ i.script_sig.isEmpty) = false) :
    PSBT.globalLoop F self
        (write_string [PSBT_GLOBAL_UNSIGNED_TX] ++ (write_string t.serialize ++ rest))
      = PSBT.globalLoop fuel { self with tx := some t } rest := by
  subst h
  exact globalLoop_tx fuel self t rest hnone hWF hlen hscr

theorem globalLoop_unknownsF (F fuel : Nat) (unk : List (Bytes × Bytes))
    (h : F = fuel + unk.length) (self : PSBT) (rest : Bytes)
    (hv : ∀ e ∈ unk, e.1 ≠ [] ∧ e.1.headI ≠ PSBT_GLOBAL_UNSIGNED_TX
      ∧ e.1.length < 2 ^ 64 ∧ e.2.length < 2 ^ 64)
    (hnd : ((self.unknown ++ unk).map Prod.fst).Nodup) :
    PSBT.globalLoop F self (serialize_unknown unk ++ rest)
      = PSBT.globalLoop fuel { self with unknown := self.unknown ++ unk } rest := by
  subst h
  exact globalLoop_unknowns unk fuel self rest hv hnd

theorem globalLoop_sepW (F fuel : Nat) (h : F = fuel + 1) (self : PSBT) (rest : Bytes) :
    PSBT.globalLoop F self (write_string PSBT_SEPARATOR ++ rest) = .ok (self, rest) := by
  subst h
  rw [show write_string PSBT_SEPARATOR ++ rest = 0 :: rest from rfl]
  exact globalLoop_sep fuel self rest

/-! ## C1: the input and output sequence loops on written segments -/

theorem serBytes_ne_nil (inp : PSBTInput) : inp.serBytes ≠ [] := by
  have h := serBytes_steps_le inp
  intro hc
  rw [hc] at h
  simp only [List.length_nil] at h
  omega

theorem outSerBytes_ne_nil (o : PSBTOutput) : o.serBytes ≠ [] := by
  have h := outSerBytes_steps_le o
  intro hc
  rw [hc] at h
  simp only [List.length_nil] at h
  omega

theorem readInputs_chain (inputs : List PSBTInput) :
    ∀ (self : PSBT) (rest : Bytes),
      (∀ i ∈ inputs, i.WFi ∧ (i.final_script_sig ≠ [] → i.partial_sigs = []
        ∧ i.sighash_type = 0 ∧ i.redeem_script = [] ∧ i.hd_keypaths = [])) →
      PSBT.readInputs inputs.length self ((inputs.map PSBTInput.serBytes).flatten ++ rest)
        = .ok ({ self with inputs := self.inputs ++ inputs }, rest) := by
  induction inputs with
  | nil =>
      intro self rest h
      simp only [List.map_nil, List.flatten_nil, List.nil_append, List.length_nil,
        List.append_nil]
      rfl
  | cons i tl ih =>
      intro self rest h
      obtain ⟨hWFi, hmix⟩ := h i (List.mem_cons_self i tl)
      simp only [List.map_cons, List.flatten_cons, List.length_cons, List.append_assoc]
      rw [PSBT.readInputs]
      rw [if_neg (show ¬ (¬ can_read_more (i.serBytes
          ++ ((tl.map PSBTInput.serBytes).flatten ++ rest)) = true) from by
        cases hsb : i.serBytes with
        | nil => exact absurd hsb (serBytes_ne_nil i)
        | cons a l => simp [can_read_more])]
      rw [psbtinput_deser_serBytes i hWFi hmix _]
      dsimp only
      rw [ih _ rest (fun y hy => h y (List.mem_cons_of_mem _ hy))]
      simp [List.append_assoc]

theorem readOutputs_chain (outputs : List PSBTOutput) :
    ∀ (self : PSBT) (rest : Bytes),
      (∀ o ∈ outputs, o.WFo) →
      PSBT.readOutputs outputs.length self
          ((outputs.map PSBTOutput.serBytes).flatten ++ rest)
        = .ok ({ self with outputs := self.outputs ++ outputs }, rest) := by
  induction outputs with
  | nil =>
      intro self rest h
      simp only [List.map_nil, List.flatten_nil, List.nil_append, List.length_nil,
        List.append_nil]
      rfl
  | cons o tl ih =>
      intro self rest h
      have hWFo := h o (List.mem_cons_self o tl)
      simp only [List.map_cons, List.flatten_cons, List.length_cons, List.append_assoc]
      rw [PSBT.readOutputs]
      rw [if_neg (show ¬ (¬ can_read_more (o.serBytes
          ++ ((tl.map PSBTOutput.serBytes).flatten ++ rest)) = true) from by
        cases hsb : o.serBytes with
        | nil => exact absurd hsb (outSerBytes_ne_nil o)
        | cons a l => simp [can_read_more])]
      rw [psbtoutput_deser_serBytes o hWFo _]
      dsimp only
      rw [ih _ rest (fun y hy => h y (List.mem_cons_of_mem _ hy))]
      simp [List.append_assoc]

/-! ## C1: a serialized container reparses to the same PSBT -/

set_option maxHeartbeats 2000000 in
theorem psbt_reparse (p : PSBT) (t : CMutableTransaction)
    (hp : p.tx = some t)
    (hWFt : t.WF) (htlen : t.serialize.length < 2 ^ 64)
    (hscr : (t.vin.any fun i => ¬ i.script_sig.isEmpty) = false)
    (hunk : ∀ e ∈ p.unknown, e.1 ≠ [] ∧ e.1.headI ≠ PSBT_GLOBAL_UNSIGNED_TX
      ∧ e.1.length < 2 ^ 64 ∧ e.2.length < 2 ^ 64)
    (hunknd : (p.unknown.map Prod.fst).Nodup)
    (hins : ∀ i ∈ p.inputs, i.WFi ∧ (i.final_script_sig ≠ [] → i.partial_sigs = []
      ∧ i.sighash_type = 0 ∧ i.redeem_script = [] ∧ i.hd_keypaths = []))
    (houts : ∀ o ∈ p.outputs, o.WFo)
    (hinlen : p.inputs.length = t.vin.length)
    (houtlen : p.outputs.length = t.vout.length) :
    PSBT.deserialize PSBT.empty
        (PSBT_MAGIC_BYTES ++ write_string [PSBT_GLOBAL_UNSIGNED_TX]
          ++ write_string t.serialize ++ serialize_unknown p.unknown
          ++ write_string PSBT_SEPARATOR
          ++ (p.inputs.map PSBTInput.serBytes).flatten
          ++ (p.outputs.map PSBTOutput.serBytes).flatten)
      = .ok p := by
  obtain ⟨ptx, ins, outs, unk⟩ := p
  dsimp only at hp hunk hunknd hins houts hinlen houtlen
  subst hp
  rw [PSBT.deserialize]
  simp only [List.append_assoc]
  rw [if_neg (show ¬ ((PSBT_MAGIC_BYTES ++ (write_string [PSBT_GLOBAL_UNSIGNED_TX]
      ++ (write_string t.serialize ++ (serialize_unknown unk
      ++ (write_string PSBT_SEPARATOR ++ ((ins.map PSBTInput.serBytes).flatten
      ++ (outs.map PSBTOutput.serBytes).flatten)))))).take 5 ≠ PSBT_MAGIC_BYTES) from by
    rw [take_append_of_length _ _ (show PSBT_MAGIC_BYTES.length = 5 from rfl)]
    exact fun hne => hne rfl)]
  rw [drop_append_of_length _ _ (show PSBT_MAGIC_BYTES.length = 5 from rfl)]
  have hunkle := serialize_unknown_len unk
  have hlen1 : (write_string [PSBT_GLOBAL_UNSIGNED_TX]
      ++ (write_string t.serialize ++ (serialize_unknown unk
      ++ (write_string PSBT_SEPARATOR ++ ((ins.map PSBTInput.serBytes).flatten
      ++ (outs.map PSBTOutput.serBytes).flatten))))).length
      = 2 + ((write_string t.serialize).length + ((serialize_unknown unk).length
        + (1 + (((ins.map PSBTInput.serBytes).flatten).length
          + ((outs.map PSBTOutput.serBytes).flatten).length)))) := by
    simp only [List.length_append]
    rfl
  have hbound : unk.length + 1 ≤ (write_string [PSBT_GLOBAL_UNSIGNED_TX]
      ++ (write_string t.serialize ++ (serialize_unknown unk
      ++ (write_string PSBT_SEPARATOR ++ ((ins.map PSBTInput.serBytes).flatten
      ++ (outs.map PSBTOutput.serBytes).flatten))))).length := by
    rw [hlen1]
    omega
  obtain ⟨k, hk⟩ := Nat.exists_eq_add_of_le hbound
  rw [globalLoop_txF _ (unk.length + 1 + k) (by omega) _ t _ rfl hWFt htlen hscr]
  rw [globalLoop_unknownsF _ (1 + k) unk (by omega) _ _ hunk (by simpa using hunknd)]
  rw [globalLoop_sepW _ k (by omega)]
  dsimp only
  rw [← hinlen]
  rw [readInputs_chain ins _ _ hins]
  dsimp only
  rw [← houtlen]
  rw [show (outs.map PSBTOutput.serBytes).flatten
    = (outs.map PSBTOutput.serBytes).flatten ++ [] from (List.append_nil _).symm]
  rw [readOutputs_chain outs _ _ houts]
  simp [PSBT.empty]

/-! ## C1: invariants extracted from a successful parse -/

theorem nodup_append_key {β : Type} (l : List (Bytes × β)) (k : Bytes) (v : β)
    (hnd : (l.map Prod.fst).Nodup) (hlk : l.lookup k = none) :
    ((l ++ [(k, v)]).map Prod.fst).Nodup := by
  rw [List.map_append]
  simp only [List.map_cons, List.map_nil]
  refine List.Nodup.append hnd (List.nodup_singleton k) ?_
  intro x hx hx2
  simp only [List.mem_singleton] at hx2
  subst hx2
  exact not_mem_of_lookup_none l x hlk hx

theorem parse_pubkey_inv {key pk : Bytes} (h : parse_pubkey key = .ok pk) :
    ser_to_point_ok pk = true ∧ pk = key.drop 1 := by
  unfold parse_pubkey validate_pubkey at h
  by_cases h1 : key.length ≠ 66 ∧ key.length ≠ 34
  · rw [if_pos h1] at h
    exact Except.noConfusion h
  · rw [if_neg h1] at h
    dsimp only at h
    by_cases h2 : ser_to_point_ok (key.drop 1) = true
    · rw [if_pos h2] at h
      dsimp only [bind_ok_eq, pure_eq] at h
      simp only [Except.ok.injEq] at h
      exact ⟨h ▸ h2, h.symm⟩
    · rw [if_neg h2] at h
      dsimp only [bind_error_eq] at h
      exact Except.noConfusion h

theorem deserialize_unknown_ok {s key s' : Bytes} {unk unk' : List (Bytes × Bytes)}
    (hb : IsBytes s) (h : deserialize_unknown s key unk = .ok (unk', s')) :
    (∃ v, unk' = unk ++ [(key, v)] ∧ v.length < 2 ^ 64 ∧ unk.lookup key = none)
      ∧ IsBytes s' := by
  unfold deserialize_unknown at h
  by_cases hlk : (unk.lookup key).isSome = true
  · rw [if_pos hlk] at h
    exact Except.noConfusion h
  · rw [if_neg hlk] at h
    cases hv : read_bytes_var true s with
    | error e => rw [hv] at h; exact absurd h (by simp [bind_error_eq])
    | ok pv =>
        obtain ⟨v, s1⟩ := pv
        rw [hv] at h
        dsimp only [bind_ok_eq] at h
        simp only [Except.ok.injEq, Prod.mk.injEq] at h
        obtain ⟨rfl, rfl⟩ := h
        obtain ⟨-, hs1b, hvl, -⟩ := read_bytes_var_ok hb hv
        exact ⟨⟨v, rfl, hvl, Option.not_isSome_iff_eq_none.mp hlk⟩, hs1b⟩

theorem read_uint32_loop_inv :
    ∀ (fuel : Nat) (acc : List Nat) (s : Bytes) (path' : List Nat) (s' : Bytes),
      IsBytes s → (∀ x ∈ acc, x < 2 ^ 32) →
      read_uint32_loop fuel acc s = .ok (path', s') →
      (∀ x ∈ path', x < 2 ^ 32) ∧ 4 * path'.length ≤ 4 * acc.length + s.length := by
  intro fuel
  induction fuel with
  | zero =>
      intro acc s path' s' hb hacc h
      have h2 : (Except.ok (acc, s) : Except Err (List Nat × Bytes))
          = .ok (path', s') := h
      simp only [Except.ok.injEq, Prod.mk.injEq] at h2
      obtain ⟨rfl, rfl⟩ := h2
      exact ⟨hacc, by omega⟩
  | succ fuel ih =>
      intro acc s path' s' hb hacc h
      rw [read_uint32_loop] at h
      by_cases hcr : can_read_more s = true
      · rw [if_pos hcr] at h
        cases hr : read_uint32 s with
        | error e => rw [hr] at h; exact absurd h (by simp [bind_error_eq])
        | ok p =>
            obtain ⟨x, s2⟩ := p
            rw [hr] at h
            dsimp only [bind_ok_eq] at h
            obtain ⟨hx, hs2b, hs2, hlen4⟩ := read_uint32_ok hb hr
            obtain ⟨h1, h2⟩ := ih (acc ++ [x]) s2 path' s' hs2b (by
              intro y hy
              rcases List.mem_append.mp hy with hy | hy
              · exact hacc y hy
              · simp only [List.mem_singleton] at hy
                subst hy
                exact hx) h
            refine ⟨h1, ?_⟩
            have hs2l : s2.length = s.length - 4 := by
              rw [hs2]
              simp [List.length_drop]
            simp only [List.length_append, List.length_cons, List.length_nil] at h2
            omega
      · rw [if_neg hcr] at h
        simp only [Except.ok.injEq, Prod.mk.injEq] at h
        obtain ⟨rfl, rfl⟩ := h
        exact ⟨hacc, by omega⟩

theorem deserialize_hd_keypath_ok {s key s' : Bytes}
    {hd hd' : List (Bytes × KeyOriginInfo)}
    (hb : IsBytes s) (h : deserialize_hd_keypath s key hd = .ok (hd', s')) :
    (∃ pk fp path, hd' = hd ++ [(pk, ⟨fp, path⟩)]
      ∧ ser_to_point_ok pk = true
      ∧ fp.length = 4
      ∧ (∀ x ∈ path, x < 2 ^ 32)
      ∧ (fp ++ (path.map write_uint32).flatten).length < 2 ^ 64
      ∧ hd.lookup pk = none)
    ∧ IsBytes s' := by
  unfold deserialize_hd_keypath at h
  cases hpk : parse_pubkey key with
  | error e => rw [hpk] at h; exact absurd h (by simp [bind_error_eq])
  | ok pubkey =>
      rw [hpk] at h
      dsimp only [bind_ok_eq] at h
      obtain ⟨hser, -⟩ := parse_pubkey_inv hpk
      by_cases hlk : (hd.lookup pubkey).isSome = true
      · rw [if_pos hlk] at h
        exact Except.noConfusion h
      · rw [if_neg hlk] at h
        cases hv : read_bytes_var true s with
        | error e => rw [hv] at h; exact absurd h (by simp [bind_error_eq])
        | ok pv =>
            obtain ⟨value, s2⟩ := pv
            rw [hv] at h
            dsimp only [bind_ok_eq] at h
            obtain ⟨hvb, hs2b, hvlen, -⟩ := read_bytes_var_ok hb hv
            by_cases hl0 : value.length = 0 ∨ value.length % 4 ≠ 0
            · rw [if_pos hl0] at h
              exact Except.noConfusion h
            · rw [if_neg hl0] at h
              cases hf : read_bytes_len 4 true value with
              | error e => rw [hf] at h; exact absurd h (by simp [bind_error_eq])
              | ok pf =>
                  obtain ⟨fingerprint, v1⟩ := pf
                  rw [hf] at h
                  dsimp only [bind_ok_eq] at h
                  obtain ⟨hfplen, -, hv1, hle4⟩ := read_bytes_len_strict_ok hf
                  cases hloop : read_uint32_loop (v1.length + 1) [] v1 with
                  | error e => rw [hloop] at h; exact absurd h (by simp [bind_error_eq])
                  | ok pl =>
                      obtain ⟨path, rest⟩ := pl
                      rw [hloop] at h
                      dsimp only [bind_ok_eq] at h
                      simp only [Except.ok.injEq, Prod.mk.injEq] at h
                      obtain ⟨h1, rfl⟩ := h
                      subst h1
                      have hv1b : IsBytes v1 := by
                        rw [hv1]
                        exact hvb.drop 4
                      obtain ⟨hpath, hplen⟩ := read_uint32_loop_inv _ [] v1 path rest
                        hv1b (fun x hx => absurd hx (List.not_mem_nil x)) hloop
                      refine ⟨⟨pubkey, fingerprint, path, rfl, hser, hfplen, hpath, ?_,
                        Option.not_isSome_iff_eq_none.mp hlk⟩, hs2b⟩
                      have hplen2 : 4 * path.length ≤ v1.length := by
                        simpa using hplen
                      have hv1l : v1.length = value.length - 4 := by
                        rw [hv1]
                        simp [List.length_drop]
                      have hflat := path_flat_length path
                      simp only [List.length_append, hfplen, hflat]
                      omega

/-! ## C1: the parse loops preserve the well-formedness invariants -/

theorem WFi_empty : PSBTInput.empty.WFi :=
  ⟨fun u hu => Option.noConfusion hu,
   fun e he => absurd he (List.not_mem_nil e), List.nodup_nil,
   by decide, by decide,
   fun e he => absurd he (List.not_mem_nil e), List.nodup_nil,
   by decide,
   fun e he => absurd he (List.not_mem_nil e), List.nodup_nil⟩

theorem WFo_empty : PSBTOutput.empty.WFo :=
  ⟨by decide,
   fun e he => absurd he (List.not_mem_nil e), List.nodup_nil,
   fun e he => absurd he (List.not_mem_nil e), List.nodup_nil⟩

theorem inLoop_inv :
    ∀ (fuel : Nat) (self : PSBTInput) (s : Bytes) (self' : PSBTInput) (s' : Bytes),
      self.WFi → IsBytes s →
      PSBTInput.deserializeLoop fuel self s = .ok (self', s') →
      self'.WFi ∧ IsBytes s' := by
  intro fuel
  induction fuel with
  | zero =>
      intro self s self' s' hWF hb h
      have h2 : (Except.ok (self, s) : Except Err (PSBTInput × Bytes))
          = .ok (self', s') := h
      simp only [Except.ok.injEq, Prod.mk.injEq] at h2
      obtain ⟨rfl, rfl⟩ := h2
      exact ⟨hWF, hb⟩
  | succ fuel ih =>
      intro self s self' s' hWF hb h
      rw [PSBTInput.deserializeLoop] at h
      by_cases hcr : can_read_more s = true
      · rw [if_pos hcr] at h
        cases hk : read_bytes_var true s with
        | error e => rw [hk] at h; exact absurd h (by simp [bind_error_eq])
        | ok pk =>
          obtain ⟨key, s1⟩ := pk
          rw [hk] at h
          dsimp only [bind_ok_eq] at h
          obtain ⟨hkb, hs1b, hklen, -⟩ := read_bytes_var_ok hb hk
          by_cases hk0 : key.length = 0
          · rw [if_pos hk0] at h
            simp only [Except.ok.injEq, Prod.mk.injEq] at h
            obtain ⟨rfl, rfl⟩ := h
            exact ⟨hWF, hs1b⟩
          · rw [if_neg hk0] at h
            by_cases ht0 : key.headI = PSBT_IN_UTXO
            · rw [if_pos ht0] at h
              by_cases hdup : self.utxo.isSome = true
              · rw [if_pos hdup] at h
                exact Except.noConfusion h
              · rw [if_neg hdup] at h
                by_cases hk1 : key.length ≠ 1
                · rw [if_pos hk1] at h
                  exact Except.noConfusion h
                · rw [if_neg hk1] at h
                  cases hd1 : read_bytes_var true s1 with
                  | error e => rw [hd1] at h; exact absurd h (by simp [bind_error_eq])
                  | ok pd =>
                    obtain ⟨data, s2⟩ := pd
                    rw [hd1] at h
                    dsimp only [bind_ok_eq] at h
                    obtain ⟨hdb, hs2b, hdlen, -⟩ := read_bytes_var_ok hs1b hd1
                    cases hu : CTxOut.deserialize data with
                    | error e => rw [hu] at h; exact absurd h (by simp [bind_error_eq])
                    | ok pu =>
                      obtain ⟨utxo, rest2⟩ := pu
                      rw [hu] at h
                      dsimp only [bind_ok_eq] at h
                      by_cases hcr2 : can_read_more rest2 = true
                      · rw [if_pos hcr2] at h
                        exact Except.noConfusion h
                      · rw [if_neg hcr2] at h
                        obtain ⟨huWF, huser, -⟩ := ctxout_parse_ok hdb hu
                        have hrest2 : rest2 = [] := by
                          cases rest2 with
                          | nil => rfl
                          | cons a l => exact absurd rfl hcr2
                        rw [hrest2, List.append_nil] at huser
                        refine ih _ _ self' s' ?_ hs2b h
                        obtain ⟨-, hps, hpsnd, hsh, hrs, hhd, hhdnd, hfss, hunk, hunknd⟩ := hWF
                        exact ⟨fun u hu2 => by
                            simp only [Option.some.injEq] at hu2
                            subst hu2
                            exact ⟨huWF, by rw [huser]; exact hdlen⟩,
                          hps, hpsnd, hsh, hrs, hhd, hhdnd, hfss, hunk, hunknd⟩
            · rw [if_neg ht0] at h
              by_cases ht2 : key.headI = PSBT_IN_PARTIAL_SIG
              · rw [if_pos ht2] at h
                cases hpp : parse_pubkey key with
                | error e => rw [hpp] at h; exact absurd h (by simp [bind_error_eq])
                | ok pubkey =>
                  rw [hpp] at h
                  dsimp only [bind_ok_eq] at h
                  obtain ⟨hserpk, -⟩ := parse_pubkey_inv hpp
                  by_cases hdup : (self.partial_sigs.lookup (hash_160 pubkey)).isSome = true
                  · rw [if_pos hdup] at h
                    exact Except.noConfusion h
                  · rw [if_neg hdup] at h
                    cases hsg : read_bytes_var true s1 with
                    | error e => rw [hsg] at h; exact absurd h (by simp [bind_error_eq])
                    | ok psg =>
                      obtain ⟨sig, s2⟩ := psg
                      rw [hsg] at h
                      dsimp only [bind_ok_eq] at h
                      obtain ⟨-, hs2b, hsglen, -⟩ := read_bytes_var_ok hs1b hsg
                      refine ih _ _ self' s' ?_ hs2b h
                      obtain ⟨hut, hps, hpsnd, hsh, hrs, hhd, hhdnd, hfss, hunk, hunknd⟩ := hWF
                      refine ⟨hut, ?_, nodup_append_key _ _ _ hpsnd
                          (Option.not_isSome_iff_eq_none.mp hdup),
                        hsh, hrs, hhd, hhdnd, hfss, hunk, hunknd⟩
                      intro e he
                      rcases List.mem_append.mp he with he | he
                      · exact hps e he
                      · simp only [List.mem_singleton] at he
                        subst he
                        dsimp only
                        refine ⟨rfl, hserpk, ?_, hsglen⟩
                        rcases ser_to_point_ok_length _ hserpk with hpl | hpl <;>
                          · simp only [List.length_cons, hpl]
                            norm_num
              · rw [if_neg ht2] at h
                by_cases ht3 : key.headI = PSBT_IN_SIGHASH
                · rw [if_pos ht3] at h
                  by_cases hdup : self.sighash_type ≠ 0
                  · rw [if_pos hdup] at h
                    exact Except.noConfusion h
                  · rw [if_neg hdup] at h
                    by_cases hk1 : key.length ≠ 1
                    · rw [if_pos hk1] at h
                      exact Except.noConfusion h
                    · rw [if_neg hk1] at h
                      cases hd1 : read_bytes_var true s1 with
                      | error e => rw [hd1] at h; exact absurd h (by simp [bind_error_eq])
                      | ok pd =>
                        obtain ⟨data, s2⟩ := pd
                        rw [hd1] at h
                        dsimp only [bind_ok_eq] at h
                        obtain ⟨hdb, hs2b, -, -⟩ := read_bytes_var_ok hs1b hd1
                        cases hu : read_uint32 data with
                        | error e => rw [hu] at h; exact absurd h (by simp [bind_error_eq])
                        | ok pu =>
                          obtain ⟨sighash, rest2⟩ := pu
                          rw [hu] at h
                          dsimp only [bind_ok_eq] at h
                          by_cases hcr2 : can_read_more rest2 = true
                          · rw [if_pos hcr2] at h
                            exact Except.noConfusion h
                          · rw [if_neg hcr2] at h
                            obtain ⟨hshlt, -, -, -⟩ := read_uint32_ok hdb hu
                            refine ih _ _ self' s' ?_ hs2b h
                            obtain ⟨hut, hps, hpsnd, -, hrs, hhd, hhdnd, hfss, hunk, hunknd⟩ := hWF
                            exact ⟨hut, hps, hpsnd, hshlt, hrs, hhd, hhdnd, hfss, hunk, hunknd⟩
                · rw [if_neg ht3] at h
                  by_cases ht4 : key.headI = PSBT_IN_REDEEMSCRIPT
                  · rw [if_pos ht4] at h
                    by_cases hdup : self.redeem_script ≠ []
                    · rw [if_pos hdup] at h
                      exact Except.noConfusion h
                    · rw [if_neg hdup] at h
                      by_cases hk1 : key.length ≠ 1
                      · rw [if_pos hk1] at h
                        exact Except.noConfusion h
                      · rw [if_neg hk1] at h
                        cases hd1 : read_bytes_var true s1 with
                        | error e => rw [hd1] at h; exact absurd h (by simp [bind_error_eq])
                        | ok pd =>
                          obtain ⟨rs, s2⟩ := pd
                          rw [hd1] at h
                          dsimp only [bind_ok_eq] at h
                          obtain ⟨-, hs2b, hrslen, -⟩ := read_bytes_var_ok hs1b hd1
                          refine ih _ _ self' s' ?_ hs2b h
                          obtain ⟨hut, hps, hpsnd, hsh, -, hhd, hhdnd, hfss, hunk, hunknd⟩ := hWF
                          exact ⟨hut, hps, hpsnd, hsh, hrslen, hhd, hhdnd, hfss, hunk, hunknd⟩
                  · rw [if_neg ht4] at h
                    by_cases ht6 : key.headI = PSBT_IN_BIP32_DERIVATION
                    · rw [if_pos ht6] at h
                      cases hhd1 : deserialize_hd_keypath s1 key self.hd_keypaths with
                      | error e => rw [hhd1] at h; exact absurd h (by simp [bind_error_eq])
                      | ok ph =>
                        obtain ⟨hd2, s2⟩ := ph
                        rw [hhd1] at h
                        dsimp only [bind_ok_eq] at h
                        obtain ⟨⟨pk2, fp2, path2, rfl, hser2, hfp2, hpath2, hlen2, hlk2⟩, hs2b⟩ :=
                          deserialize_hd_keypath_ok hs1b hhd1
                        refine ih _ _ self' s' ?_ hs2b h
                        obtain ⟨hut, hps, hpsnd, hsh, hrs, hhd, hhdnd, hfss, hunk, hunknd⟩ := hWF
                        refine ⟨hut, hps, hpsnd, hsh, hrs, ?_,
                          nodup_append_key _ _ _ hhdnd hlk2, hfss, hunk, hunknd⟩
                        intro e he
                        rcases List.mem_append.mp he with he | he
                        · exact hhd e he
                        · simp only [List.mem_singleton] at he
                          subst he
                          dsimp only
                          refine ⟨hser2, ?_, hfp2, hpath2, hlen2⟩
                          rcases ser_to_point_ok_length _ hser2 with hpl | hpl <;>
                            · simp only [List.length_cons, hpl]
                              norm_num
                    · rw [if_neg ht6] at h
                      by_cases ht7 : key.headI = PSBT_IN_SCRIPTSIG
                      · rw [if_pos ht7] at h
                        by_cases hdup : self.final_script_sig ≠ []
                        · rw [if_pos hdup] at h
                          exact Except.noConfusion h
                        · rw [if_neg hdup] at h
                          by_cases hk1 : key.length ≠ 1
                          · rw [if_pos hk1] at h
                            exact Except.noConfusion h
                          · rw [if_neg hk1] at h
                            cases hd1 : read_bytes_var true s1 with
                            | error e => rw [hd1] at h; exact absurd h (by simp [bind_error_eq])
                            | ok pd =>
                              obtain ⟨fss, s2⟩ := pd
                              rw [hd1] at h
                              dsimp only [bind_ok_eq] at h
                              obtain ⟨-, hs2b, hfsslen, -⟩ := read_bytes_var_ok hs1b hd1
                              refine ih _ _ self' s' ?_ hs2b h
                              obtain ⟨hut, hps, hpsnd, hsh, hrs, hhd, hhdnd, -, hunk, hunknd⟩ := hWF
                              exact ⟨hut, hps, hpsnd, hsh, hrs, hhd, hhdnd, hfsslen, hunk, hunknd⟩
                      · rw [if_neg ht7] at h
                        cases hun : deserialize_unknown s1 key self.unknown with
                        | error e => rw [hun] at h; exact absurd h (by simp [bind_error_eq])
                        | ok pun =>
                          obtain ⟨unk2, s2⟩ := pun
                          rw [hun] at h
                          dsimp only [bind_ok_eq] at h
                          obtain ⟨⟨v, rfl, hvl, hlkn⟩, hs2b⟩ :=
                            deserialize_unknown_ok hs1b hun
                          refine ih _ _ self' s' ?_ hs2b h
                          obtain ⟨hut, hps, hpsnd, hsh, hrs, hhd, hhdnd, hfss, hunk, hunknd⟩ := hWF
                          refine ⟨hut, hps, hpsnd, hsh, hrs, hhd, hhdnd, hfss, ?_,
                            nodup_append_key _ _ _ hunknd hlkn⟩
                          intro e he
                          rcases List.mem_append.mp he with he | he
                          · exact hunk e he
                          · simp only [List.mem_singleton] at he
                            subst he
                            dsimp only
                            exact ⟨fun hc => hk0 (by rw [hc]; rfl),
                              ht0, ht2, ht3, ht4, ht6, ht7, hklen, hvl⟩
      · rw [if_neg hcr] at h
        simp only [Except.ok.injEq, Prod.mk.injEq] at h
        obtain ⟨rfl, rfl⟩ := h
        exact ⟨hWF, hb⟩

theorem outLoop_inv :
    ∀ (fuel : Nat) (self : PSBTOutput) (s : Bytes) (self' : PSBTOutput) (s' : Bytes),
      self.WFo → IsBytes s →
      PSBTOutput.deserializeLoop fuel self s = .ok (self', s') →
      self'.WFo ∧ IsBytes s' := by
  intro fuel
  induction fuel with
  | zero =>
      intro self s self' s' hWF hb h
      have h2 : (Except.ok (self, s) : Except Err (PSBTOutput × Bytes))
          = .ok (self', s') := h
      simp only [Except.ok.injEq, Prod.mk.injEq] at h2
      obtain ⟨rfl, rfl⟩ := h2
      exact ⟨hWF, hb⟩
  | succ fuel ih =>
      intro self s self' s' hWF hb h
      rw [PSBTOutput.deserializeLoop] at h
      by_cases hcr : can_read_more s = true
      · rw [if_pos hcr] at h
        cases hk : read_bytes_var true s with
        | error e => rw [hk] at h; exact absurd h (by simp [bind_error_eq])
        | ok pk =>
          obtain ⟨key, s1⟩ := pk
          rw [hk] at h
          dsimp only [bind_ok_eq] at h
          obtain ⟨hkb, hs1b, hklen, -⟩ := read_bytes_var_ok hb hk
          by_cases hk0 : key.length = 0
          · rw [if_pos hk0] at h
            simp only [Except.ok.injEq, Prod.mk.injEq] at h
            obtain ⟨rfl, rfl⟩ := h
            exact ⟨hWF, hs1b⟩
          · rw [if_neg hk0] at h
            by_cases ht0 : key.headI = PSBT_OUT_REDEEMSCRIPT
            · rw [if_pos ht0] at h
              by_cases hdup : self.redeem_script ≠ []
              · rw [if_pos hdup] at h
                exact Except.noConfusion h
              · rw [if_neg hdup] at h
                by_cases hk1 : key.length ≠ 1
                · rw [if_pos hk1] at h
                  exact Except.noConfusion h
                · rw [if_neg hk1] at h
                  cases hd1 : read_bytes_var true s1 with
                  | error e => rw [hd1] at h; exact absurd h (by simp [bind_error_eq])
                  | ok pd =>
                    obtain ⟨rs, s2⟩ := pd
                    rw [hd1] at h
                    dsimp only [bind_ok_eq] at h
                    obtain ⟨-, hs2b, hrslen, -⟩ := read_bytes_var_ok hs1b hd1
                    refine ih _ _ self' s' ?_ hs2b h
                    obtain ⟨-, hhd, hhdnd, hunk, hunknd⟩ := hWF
                    exact ⟨hrslen, hhd, hhdnd, hunk, hunknd⟩
            · rw [if_neg ht0] at h
              by_cases ht2 : key.headI = PSBT_OUT_BIP32_DERIVATION
              · rw [if_pos ht2] at h
                cases hhd1 : deserialize_hd_keypath s1 key self.hd_keypaths with
                | error e => rw [hhd1] at h; exact absurd h (by simp [bind_error_eq])
                | ok ph =>
                  obtain ⟨hd2, s2⟩ := ph
                  rw [hhd1] at h
                  dsimp only [bind_ok_eq] at h
                  obtain ⟨⟨pk2, fp2, path2, rfl, hser2, hfp2, hpath2, hlen2, hlk2⟩, hs2b⟩ :=
                    deserialize_hd_keypath_ok hs1b hhd1
                  refine ih _ _ self' s' ?_ hs2b h
                  obtain ⟨hrs, hhd, hhdnd, hunk, hunknd⟩ := hWF
                  refine ⟨hrs, ?_, nodup_append_key _ _ _ hhdnd hlk2, hunk, hunknd⟩
                  intro e he
                  rcases List.mem_append.mp he with he | he
                  · exact hhd e he
                  · simp only [List.mem_singleton] at he
                    subst he
                    dsimp only
                    refine ⟨hser2, ?_, hfp2, hpath2, hlen2⟩
                    rcases ser_to_point_ok_length _ hser2 with hpl | hpl <;>
                      · simp only [List.length_cons, hpl]
                        norm_num
              · rw [if_neg ht2] at h
                cases hun : deserialize_unknown s1 key self.unknown with
                | error e => rw [hun] at h; exact absurd h (by simp [bind_error_eq])
                | ok pun =>
                  obtain ⟨unk2, s2⟩ := pun
                  rw [hun] at h
                  dsimp only [bind_ok_eq] at h
                  obtain ⟨⟨v, rfl, hvl, hlkn⟩, hs2b⟩ := deserialize_unknown_ok hs1b hun
                  refine ih _ _ self' s' ?_ hs2b h
                  obtain ⟨hrs, hhd, hhdnd, hunk, hunknd⟩ := hWF
                  refine ⟨hrs, hhd, hhdnd, ?_, nodup_append_key _ _ _ hunknd hlkn⟩
                  intro e he
                  rcases List.mem_append.mp he with he | he
                  · exact hunk e he
                  · simp only [List.mem_singleton] at he
                    subst he
                    dsimp only
                    exact ⟨fun hc => hk0 (by rw [hc]; rfl), ht0, ht2, hklen, hvl⟩
      · rw [if_neg hcr] at h
        simp only [Except.ok.injEq, Prod.mk.injEq] at h
        obtain ⟨rfl, rfl⟩ := h
        exact ⟨hWF, hb⟩

theorem psbtinput_deserialize_inv {st : PSBTInput} {s : Bytes} {inp : PSBTInput}
    {s' : Bytes} (hb : IsBytes s)
    (h : PSBTInput.deserialize st s = .ok (inp, s')) :
    inp.WFi ∧ IsBytes s' := by
  unfold PSBTInput.deserialize at h
  exact inLoop_inv _ _ _ _ _ WFi_empty hb h

theorem psbtoutput_deserialize_inv {st : PSBTOutput} {s : Bytes} {o : PSBTOutput}
    {s' : Bytes} (hb : IsBytes s)
    (h : PSBTOutput.deserialize st s = .ok (o, s')) :
    o.WFo ∧ IsBytes s' := by
  unfold PSBTOutput.deserialize at h
  exact outLoop_inv _ _ _ _ _ WFo_empty hb h

/-! ## C1: invariants of the global map and the container loops -/

/-- Invariants the global map of a parsed PSBT enjoys. -/
def PSBT.WFg (self : PSBT) : Prop :=
  (∀ t, self.tx = some t → t.WF ∧ t.serialize.length < 2 ^ 64
    ∧ (t.vin.any fun i => ¬ i.script_sig.isEmpty) = false)
  ∧ (∀ e ∈ self.unknown, e.1 ≠ [] ∧ e.1.headI ≠ PSBT_GLOBAL_UNSIGNED_TX
      ∧ e.1.length < 2 ^ 64 ∧ e.2.length < 2 ^ 64)
  ∧ (self.unknown.map Prod.fst).Nodup

theorem WFg_empty : PSBT.empty.WFg :=
  ⟨fun _ ht => Option.noConfusion ht,
   fun e he => absurd he (List.not_mem_nil e), List.nodup_nil⟩

theorem globalLoop_inv :
    ∀ (fuel : Nat) (self : PSBT) (s : Bytes) (self' : PSBT) (s' : Bytes),
      self.WFg → IsBytes s →
      PSBT.globalLoop fuel self s = .ok (self', s') →
      self'.WFg ∧ IsBytes s' ∧ self'.inputs = self.inputs
        ∧ self'.outputs = self.outputs := by
  intro fuel
  induction fuel with
  | zero =>
      intro self s self' s' hWF hb h
      have h2 : (Except.ok (self, s) : Except (Err × PSBT) (PSBT × Bytes))
          = .ok (self', s') := h
      simp only [Except.ok.injEq, Prod.mk.injEq] at h2
      obtain ⟨rfl, rfl⟩ := h2
      exact ⟨hWF, hb, rfl, rfl⟩
  | succ fuel ih =>
      intro self s self' s' hWF hb h
      rw [PSBT.globalLoop] at h
      by_cases hcr : can_read_more s = true
      · rw [if_pos hcr] at h
        cases hk : read_bytes_var true s with
        | error e => rw [hk] at h; exact absurd h (by simp)
        | ok pk =>
          obtain ⟨key, s1⟩ := pk
          rw [hk] at h
          dsimp only at h
          obtain ⟨hkb, hs1b, hklen, -⟩ := read_bytes_var_ok hb hk
          by_cases hk0 : key.length = 0
          · rw [if_pos hk0] at h
            simp only [Except.ok.injEq, Prod.mk.injEq] at h
            obtain ⟨rfl, rfl⟩ := h
            exact ⟨hWF, hs1b, rfl, rfl⟩
          · rw [if_neg hk0] at h
            by_cases ht0 : key.headI = PSBT_GLOBAL_UNSIGNED_TX
            · rw [if_pos ht0] at h
              by_cases hk1 : key.length ≠ 1
              · rw [if_pos hk1] at h
                exact Except.noConfusion h
              · rw [if_neg hk1] at h
                by_cases hdup : self.tx.isSome = true
                · rw [if_pos hdup] at h
                  exact Except.noConfusion h
                · rw [if_neg hdup] at h
                  cases htd : read_bytes_var true s1 with
                  | error e => rw [htd] at h; exact absurd h (by simp)
                  | ok ptd =>
                    obtain ⟨txdata, s2⟩ := ptd
                    rw [htd] at h
                    dsimp only at h
                    obtain ⟨htdb, hs2b, htdlen, -⟩ := read_bytes_var_ok hs1b htd
                    cases htx : CMutableTransaction.deserialize txdata with
                    | error e => rw [htx] at h; exact absurd h (by simp)
                    | ok ptx =>
                      obtain ⟨tx, rest2⟩ := ptx
                      rw [htx] at h
                      dsimp only at h
                      by_cases hcr2 : can_read_more rest2 = true
                      · rw [if_pos hcr2] at h
                        exact Except.noConfusion h
                      · rw [if_neg hcr2] at h
                        by_cases hscr : (tx.vin.any fun inp => ¬ inp.script_sig.isEmpty) = true
                        · rw [if_pos hscr] at h
                          exact Except.noConfusion h
                        · rw [if_neg hscr] at h
                          obtain ⟨htxWF, htxser, -⟩ := cmtx_parse_ok htdb htx
                          have hrest2 : rest2 = [] := by
                            cases rest2 with
                            | nil => rfl
                            | cons a l => exact absurd rfl hcr2
                          rw [hrest2, List.append_nil] at htxser
                          refine ih { self with tx := some tx } s2 self' s' ?_ hs2b h
                          obtain ⟨-, hunk0, hnd0⟩ := hWF
                          refine ⟨fun t ht => ?_, hunk0, hnd0⟩
                          simp only [Option.some.injEq] at ht
                          subst ht
                          exact ⟨htxWF, by rw [htxser]; exact htdlen,
                            Bool.eq_false_iff.mpr hscr⟩
            · rw [if_neg ht0] at h
              cases hun : deserialize_unknown s1 key self.unknown with
              | error e => rw [hun] at h; exact absurd h (by simp)
              | ok pun =>
                obtain ⟨unk2, s2⟩ := pun
                rw [hun] at h
                dsimp only at h
                obtain ⟨⟨v, rfl, hvl, hlkn⟩, hs2b⟩ := deserialize_unknown_ok hs1b hun
                refine ih { self with unknown := self.unknown ++ [(key, v)] } s2
                  self' s' ?_ hs2b h
                obtain ⟨htx0, hunk0, hnd0⟩ := hWF
                refine ⟨htx0, ?_, nodup_append_key _ _ _ hnd0 hlkn⟩
                intro e he
                rcases List.mem_append.mp he with he | he
                · exact hunk0 e he
                · simp only [List.mem_singleton] at he
                  subst he
                  dsimp only
                  exact ⟨fun hc => hk0 (by rw [hc]; rfl), ht0, hklen, hvl⟩
      · rw [if_neg hcr] at h
        simp only [Except.ok.injEq, Prod.mk.injEq] at h
        obtain ⟨rfl, rfl⟩ := h
        exact ⟨hWF, hb, rfl, rfl⟩

theorem readInputs_inv :
    ∀ (n : Nat) (self : PSBT) (s : Bytes) (self' : PSBT) (s' : Bytes),
      IsBytes s → (∀ i ∈ self.inputs, i.WFi) →
      PSBT.readInputs n self s = .ok (self', s') →
      (∀ i ∈ self'.inputs, i.WFi) ∧ IsBytes s'
        ∧ self'.inputs.length = self.inputs.length + n
        ∧ self'.tx = self.tx ∧ self'.outputs = self.outputs
        ∧ self'.unknown = self.unknown := by
  intro n
  induction n with
  | zero =>
      intro self s self' s' hb hWF h
      have h2 : (Except.ok (self, s) : Except (Err × PSBT) (PSBT × Bytes))
          = .ok (self', s') := h
      simp only [Except.ok.injEq, Prod.mk.injEq] at h2
      obtain ⟨rfl, rfl⟩ := h2
      exact ⟨hWF, hb, by omega, rfl, rfl, rfl⟩
  | succ n ih =>
      intro self s self' s' hb hWF h
      rw [PSBT.readInputs] at h
      by_cases hcr : can_read_more s = true
      · rw [if_neg (show ¬ (¬ can_read_more s = true) from fun hc => hc hcr)] at h
        cases hps : PSBTInput.deserialize PSBTInput.empty s with
        | error e => rw [hps] at h; exact absurd h (by simp)
        | ok pp =>
          obtain ⟨psbti, s1⟩ := pp
          rw [hps] at h
          dsimp only at h
          obtain ⟨hWFi, hs1b⟩ := psbtinput_deserialize_inv hb hps
          obtain ⟨hall, hsb, hlen, htx, hout, hunk⟩ := ih _ _ self' s' hs1b (by
            intro i hi
            rcases List.mem_append.mp hi with hi | hi
            · exact hWF i hi
            · simp only [List.mem_singleton] at hi
              subst hi
              exact hWFi) h
          refine ⟨hall, hsb, ?_, htx, hout, hunk⟩
          have hlen2 : (self.inputs ++ [psbti]).length = self.inputs.length + 1 := by
            simp
          rw [show ({ self with inputs := self.inputs ++ [psbti] } : PSBT).inputs
            = self.inputs ++ [psbti] from rfl] at hlen
          omega
      · rw [if_pos hcr] at h
        exact Except.noConfusion h

theorem readOutputs_inv :
    ∀ (n : Nat) (self : PSBT) (s : Bytes) (self' : PSBT) (s' : Bytes),
      IsBytes s → (∀ o ∈ self.outputs, o.WFo) →
      PSBT.readOutputs n self s = .ok (self', s') →
      (∀ o ∈ self'.outputs, o.WFo) ∧ IsBytes s'
        ∧ self'.outputs.length = self.outputs.length + n
        ∧ self'.tx = self.tx ∧ self'.inputs = self.inputs
        ∧ self'.unknown = self.unknown := by
  intro n
  induction n with
  | zero =>
      intro self s self' s' hb hWF h
      have h2 : (Except.ok (self, s) : Except (Err × PSBT) (PSBT × Bytes))
          = .ok (self', s') := h
      simp only [Except.ok.injEq, Prod.mk.injEq] at h2
      obtain ⟨rfl, rfl⟩ := h2
      exact ⟨hWF, hb, by omega, rfl, rfl, rfl⟩
  | succ n ih =>
      intro self s self' s' hb hWF h
      rw [PSBT.readOutputs] at h
      by_cases hcr : can_read_more s = true
      · rw [if_neg (show ¬ (¬ can_read_more s = true) from fun hc => hc hcr)] at h
        cases hps : PSBTOutput.deserialize PSBTOutput.empty s with
        | error e => rw [hps] at h; exact absurd h (by simp)
        | ok pp =>
          obtain ⟨output, s1⟩ := pp
          rw [hps] at h
          dsimp only at h
          obtain ⟨hWFo, hs1b⟩ := psbtoutput_deserialize_inv hb hps
          obtain ⟨hall, hsb, hlen, htx, hin, hunk⟩ := ih _ _ self' s' hs1b (by
            intro o ho
            rcases List.mem_append.mp ho with ho | ho
            · exact hWF o ho
            · simp only [List.mem_singleton] at ho
              subst ho
              exact hWFo) h
          refine ⟨hall, hsb, ?_, htx, hin, hunk⟩
          rw [show ({ self with outputs := self.outputs ++ [output] } : PSBT).outputs
            = self.outputs ++ [output] from rfl] at hlen
          simp only [List.length_append, List.length_cons, List.length_nil] at hlen
          omega
      · rw [if_pos hcr] at h
        exact Except.noConfusion h

/-! ## C1: everything a successful `PSBT.deserialize` guarantees -/

theorem psbt_deserialize_inv {st : PSBT} {src : Bytes} {p : PSBT}
    (hb : IsBytes src) (h : PSBT.deserialize st src = .ok p) :
    ∃ t, p.tx = some t ∧ t.WF ∧ t.serialize.length < 2 ^ 64
      ∧ (t.vin.any fun i => ¬ i.script_sig.isEmpty) = false
      ∧ p.inputs.length = t.vin.length ∧ p.outputs.length = t.vout.length
      ∧ (∀ e ∈ p.unknown, e.1 ≠ [] ∧ e.1.headI ≠ PSBT_GLOBAL_UNSIGNED_TX
          ∧ e.1.length < 2 ^ 64 ∧ e.2.length < 2 ^ 64)
      ∧ (p.unknown.map Prod.fst).Nodup
      ∧ (∀ i ∈ p.inputs, i.WFi)
      ∧ (∀ o ∈ p.outputs, o.WFo) := by
  rw [PSBT.deserialize] at h
  by_cases hm : src.take 5 ≠ PSBT_MAGIC_BYTES
  · rw [if_pos hm] at h
    exact Except.noConfusion h
  · rw [if_neg hm] at h
    dsimp only at h
    cases hg : PSBT.globalLoop ((src.drop 5).length + 1) PSBT.empty (src.drop 5) with
    | error e => rw [hg] at h; exact absurd h (by simp)
    | ok pg =>
      obtain ⟨self1, s1⟩ := pg
      rw [hg] at h
      dsimp only at h
      obtain ⟨⟨htxf, hunkf, hunknd⟩, hs1b, hins1, houts1⟩ :=
        globalLoop_inv _ _ _ _ _ WFg_empty (hb.drop 5) hg
      cases htx : self1.tx with
      | none => rw [htx] at h; exact absurd h (by simp)
      | some t =>
        rw [htx] at h
        dsimp only at h
        obtain ⟨htWF, htlen, hscr⟩ := htxf t htx
        cases hri : PSBT.readInputs t.vin.length self1 s1 with
        | error e => rw [hri] at h; exact absurd h (by simp)
        | ok pri =>
          obtain ⟨self2, s2⟩ := pri
          rw [hri] at h
          dsimp only at h
          obtain ⟨hWFis, hs2b, hlen2, htx2, houts2, hunk2⟩ :=
            readInputs_inv _ _ _ _ _ hs1b (by
              intro i hi
              rw [hins1] at hi
              exact absurd hi (List.not_mem_nil i)) hri
          cases hro : PSBT.readOutputs t.vout.length self2 s2 with
          | error e => rw [hro] at h; exact absurd h (by simp)
          | ok pro =>
            obtain ⟨self3, s3⟩ := pro
            rw [hro] at h
            dsimp only at h
            simp only [Except.ok.injEq] at h
            subst h
            obtain ⟨hWFos, -, hlen3, htx3, hins3, hunk3⟩ :=
              readOutputs_inv _ _ _ _ _ hs2b (by
                intro o ho
                rw [houts2, houts1] at ho
                exact absurd ho (List.not_mem_nil o)) hro
            refine ⟨t, ?_, htWF, htlen, hscr, ?_, ?_, ?_, ?_, ?_, ?_⟩
            · rw [htx3, htx2, htx]
            · rw [hins3, hlen2, hins1]
              simp [PSBT.empty]
            · rw [hlen3, houts2, houts1]
              simp [PSBT.empty]
            · intro e he
              rw [hunk3, hunk2] at he
              exact hunkf e he
            · rw [hunk3, hunk2]
              exact hunknd
            · intro i hi
              rw [hins3] at hi
              exact hWFis i hi
            · exact hWFos

/-! ## C1: Python `==` is reflexive on parsed values (duplicate-free keys) -/

theorem lookup_of_mem_nodup {β : Type} {l : List (Bytes × β)} {k : Bytes} {v : β}
    (hnd : (l.map Prod.fst).Nodup) (hm : (k, v) ∈ l) : l.lookup k = some v := by
  induction l with
  | nil => exact absurd hm (List.not_mem_nil _)
  | cons e tl ih =>
      obtain ⟨a, b⟩ := e
      simp only [List.map_cons, List.nodup_cons] at hnd
      obtain ⟨hna, hndtl⟩ := hnd
      rcases List.mem_cons.mp hm with he | hm2
      · simp only [Prod.mk.injEq] at he
        obtain ⟨rfl, rfl⟩ := he
        simp [List.lookup]
      · have hka : k ≠ a := by
          intro hk
          subst hk
          exact hna (List.mem_map_of_mem Prod.fst hm2)
        simp only [List.lookup]
        rw [show (k == a) = false from by rw [beq_eq_false_iff_ne]; exact hka]
        exact ih hndtl hm2

theorem dict_beq_refl {β : Type} [DecidableEq β] (l : List (Bytes × β))
    (hnd : (l.map Prod.fst).Nodup) : dict_beq l l = true := by
  unfold dict_beq
  rw [Bool.and_eq_true]
  constructor <;>
    · rw [List.all_eq_true]
      intro kv hkv
      rw [beq_iff_eq]
      exact lookup_of_mem_nodup hnd (by rw [Prod.mk.eta]; exact hkv)

theorem psbtinput_beq_refl (i : PSBTInput) (hWF : i.WFi) :
    PSBTInput.beq i i = true := by
  obtain ⟨-, -, hpsnd, -, -, -, hhdnd, -, -, hunknd⟩ := hWF
  simp only [PSBTInput.beq, beq_self_eq_true, Bool.true_and, Bool.and_true,
    dict_beq_refl _ hhdnd, dict_beq_refl _ hunknd, dict_beq_refl _ hpsnd]

theorem psbtoutput_beq_refl (o : PSBTOutput) (hWF : o.WFo) :
    PSBTOutput.beq o o = true := by
  obtain ⟨-, -, hhdnd, -, hunknd⟩ := hWF
  simp only [PSBTOutput.beq, beq_self_eq_true, Bool.true_and, Bool.and_true,
    dict_beq_refl _ hhdnd, dict_beq_refl _ hunknd]

theorem zip_self_all {α : Type} (f : α → α → Bool) :
    ∀ (l : List α), (∀ x ∈ l, f x x = true) →
      ((l.zip l).all fun q => f q.1 q.2) = true := by
  intro l
  induction l with
  | nil => intro h; rfl
  | cons x xs ih =>
      intro h
      simp only [List.zip_cons_cons, List.all_cons, Bool.and_eq_true]
      exact ⟨h x (List.mem_cons_self x xs), ih fun y hy => h y (List.mem_cons_of_mem _ hy)⟩

theorem psbt_beq_refl (p : PSBT) (hins : ∀ i ∈ p.inputs, i.WFi)
    (houts : ∀ o ∈ p.outputs, o.WFo) (hnd : (p.unknown.map Prod.fst).Nodup) :
    PSBT.beq p p = true := by
  simp only [PSBT.beq, beq_self_eq_true, Bool.true_and, Bool.and_true,
    dict_beq_refl _ hnd,
    zip_self_all PSBTInput.beq p.inputs (fun i hi => psbtinput_beq_refl i (hins i hi)),
    zip_self_all PSBTOutput.beq p.outputs (fun o ho => psbtoutput_beq_refl o (houts o ho))]

/-! ## C1 -/

/-- C1: a PSBT parsed from bytes reserializes and reparses to the very
same value — provided none of its inputs combines a final scriptSig with
partial signatures, a sighash type, a redeem script or BIP32 derivations
(the finalized branch of `PSBTInput.serialize` drops those fields) — and
its own `==` holds; moreover the documented fixture container reparses to
the documented value and reserializes byte-identically, also through the
hex transport. -/
theorem c1_serialize_deserialize_roundtrip :
    (∀ (st : PSBT) (src : Bytes) (p : PSBT),
      IsBytes src →
      PSBT.deserialize st src = .ok p →
      (∀ i ∈ p.inputs, i.final_script_sig ≠ [] →
        i.partial_sigs = [] ∧ i.sighash_type = 0 ∧ i.redeem_script = []
          ∧ i.hd_keypaths = []) →
      ∃ out, PSBT.serialize p = .ok out ∧ PSBT.deserialize PSBT.empty out = .ok p
        ∧ PSBT.beq p p = true)
    ∧ PSBT.deserializeHex PSBT.empty fixtureHexChars = .ok fixturePSBT
    ∧ PSBT.serialize fixturePSBT = .ok fixtureBytes
    ∧ PSBT.serializeHex fixturePSBT = .ok fixtureHexChars := by
  refine ⟨?_, fx_deserializeHex, fx_serialize, fx_serializeHex⟩
  intro st src p hb h hmix
  obtain ⟨t, hp, hWFt, htlen, hscr, hinlen, houtlen, hunk, hunknd, hins, houts⟩ :=
    psbt_deserialize_inv hb h
  exact ⟨_, psbt_serialize_ok p t hp hscr hinlen houtlen
      (fun i hi e he => ⟨((hins i hi).2.2.2.2.2.1 e he).1,
        ((hins i hi).2.2.2.2.2.1 e he).2.2.1⟩)
      (fun o ho e he => ⟨((houts o ho).2.1 e he).1, ((houts o ho).2.1 e he).2.2.1⟩),
    psbt_reparse p t hp hWFt htlen hscr hunk hunknd
      (fun i hi => ⟨hins i hi, hmix i hi⟩) houts hinlen houtlen,
    psbt_beq_refl p hins houts hunknd⟩

/-- C1 witness: the round-trip applied to a concrete minimal container
(an unsigned transaction with no inputs and no outputs). -/
theorem c1_roundtrip_witness :
    ∃ out, PSBT.serialize (⟨some ⟨[], [], 2, 0⟩, [], [], []⟩ : PSBT) = .ok out
      ∧ PSBT.deserialize PSBT.empty out
          = .ok (⟨some ⟨[], [], 2, 0⟩, [], [], []⟩ : PSBT)
      ∧ PSBT.beq (⟨some ⟨[], [], 2, 0⟩, [], [], []⟩ : PSBT)
          (⟨some ⟨[], [], 2, 0⟩, [], [], []⟩ : PSBT) = true :=
  c1_serialize_deserialize_roundtrip.1 PSBT.empty
    [0x70, 0x73, 0x62, 0x74, 0xff, 1, 0, 10, 2, 0, 0, 0, 0, 0, 0, 0, 0, 0, 0]
    (⟨some ⟨[], [], 2, 0⟩, [], [], []⟩ : PSBT)
    (by unfold IsBytes; decide) (by rfl) (fun i hi => absurd hi (List.not_mem_nil i))

set_option maxRecDepth 40000 in
/-- C1 counterexample: without the no-mixed-finalization proviso the
round-trip fails on the real serializer.  An input map carrying both a
redeem script (type 0x04) and a final scriptSig (type 0x07) parses, but
serializing takes the finalized branch and drops the redeem script, so
the reserialized container parses to a different PSBT (`==` is false). -/
theorem c1_roundtrip_counterexample :
    PSBT.deserialize PSBT.empty
        ([0x70, 0x73, 0x62, 0x74, 0xff] ++ [1, 0] ++ [51]
          ++ ([2, 0, 0, 0] ++ [1] ++ List.replicate 32 0 ++ [0, 0, 0, 0] ++ [0]
            ++ [255, 255, 255, 255] ++ [0] ++ [0, 0, 0, 0])
          ++ [0] ++ [1, 4, 1, 0xAB] ++ [1, 7, 1, 0x51] ++ [0])
      = .ok ⟨some ⟨[⟨⟨⟨List.replicate 32 0⟩, 0⟩, [], 0xffffffff⟩], [], 2, 0⟩,
          [⟨[0xAB], [], [], none, [0x51], [], 0⟩], [], []⟩
    ∧ PSBT.serialize
        (⟨some ⟨[⟨⟨⟨List.replicate 32 0⟩, 0⟩, [], 0xffffffff⟩], [], 2, 0⟩,
          [⟨[0xAB], [], [], none, [0x51], [], 0⟩], [], []⟩ : PSBT)
      = .ok ([0x70, 0x73, 0x62, 0x74, 0xff] ++ [1, 0] ++ [51]
          ++ ([2, 0, 0, 0] ++ [1] ++ List.replicate 32 0 ++ [0, 0, 0, 0] ++ [0]
            ++ [255, 255, 255, 255] ++ [0] ++ [0, 0, 0, 0])
          ++ [0] ++ [1, 7, 1, 0x51] ++ [0])
    ∧ PSBT.deserialize PSBT.empty
        ([0x70, 0x73, 0x62, 0x74, 0xff] ++ [1, 0] ++ [51]
          ++ ([2, 0, 0, 0] ++ [1] ++ List.replicate 32 0 ++ [0, 0, 0, 0] ++ [0]
            ++ [255, 255, 255, 255] ++ [0] ++ [0, 0, 0, 0])
          ++ [0] ++ [1, 7, 1, 0x51] ++ [0])
      = .ok ⟨some ⟨[⟨⟨⟨List.replicate 32 0⟩, 0⟩, [], 0xffffffff⟩], [], 2, 0⟩,
          [⟨[], [], [], none, [0x51], [], 0⟩], [], []⟩
    ∧ PSBT.beq
        (⟨some ⟨[⟨⟨⟨List.replicate 32 0⟩, 0⟩, [], 0xffffffff⟩], [], 2, 0⟩,
          [⟨[], [], [], none, [0x51], [], 0⟩], [], []⟩ : PSBT)
        (⟨some ⟨[⟨⟨⟨List.replicate 32 0⟩, 0⟩, [], 0xffffffff⟩], [], 2, 0⟩,
          [⟨[0xAB], [], [], none, [0x51], [], 0⟩], [], []⟩ : PSBT) = false
    ∧ (⟨some ⟨[⟨⟨⟨List.replicate 32 0⟩, 0⟩, [], 0xffffffff⟩], [], 2, 0⟩,
          [⟨[], [], [], none, [0x51], [], 0⟩], [], []⟩ : PSBT)
        ≠ ⟨some ⟨[⟨⟨⟨List.replicate 32 0⟩, 0⟩, [], 0xffffffff⟩], [], 2, 0⟩,
          [⟨[0xAB], [], [], none, [0x51], [], 0⟩], [], []⟩ := by
  refine ⟨by decide, by decide, by decide, by decide, by decide⟩

end EC
